import Mathlib

/-!
# Shallow embedding of `src/js/render/core/renderer.js`

This file models the rendering core of the repository (the `Renderer`,
`RenderView`, `RenderBuffer`, `RenderPrimitive`, `RenderMaterial` and
`RenderTexture` classes of `renderer.js`) and proves/refutes the frozen
claims about it.

Modelling conventions:
* Every WebGL call the renderer issues is recorded as a `GLOp` trace element;
  GPU object handles are natural numbers drawn from per-renderer counters.
* JavaScript numbers used bitwise are modelled as `Nat` (with an explicit
  32-bit complement where `~` occurs); `null`/`undefined` become `Option`.
* JavaScript dictionaries iterated with `for..in` are modelled as association
  lists in enumeration (insertion) order.
* Thrown exceptions become `Except String`; functions that also mutate the
  renderer return the updated state alongside the result, since in the source
  cache insertions performed before a `throw` persist.
* `material.js` and `node.js` are imported by `renderer.js` but are not part
  of the sources; the constants and behaviours taken from them are modelled
  from the spec and flagged as such in their doc comments.
-/

/-! ## WebGL enum constants (numeric values of the WebGL specification) -/

def GL_NEVER : Nat := 0x0200
def GL_SRC_COLOR : Nat := 0x0300
def GL_CULL_FACE : Nat := 0x0B44
def GL_BLEND : Nat := 0x0BE2
def GL_DEPTH_TEST : Nat := 0x0B71
def GL_STENCIL_TEST : Nat := 0x0B90
def GL_TEXTURE_2D : Nat := 0x0DE1
def GL_TEXTURE_2D_ARRAY : Nat := 0x8C1A
def GL_TEXTURE0 : Nat := 0x84C0
def GL_ARRAY_BUFFER : Nat := 0x8892
def GL_ELEMENT_ARRAY_BUFFER : Nat := 0x8893
def GL_STATIC_DRAW : Nat := 0x88E4
def GL_LINEAR : Nat := 0x2601
def GL_LINEAR_MIPMAP_LINEAR : Nat := 0x2703
def GL_TEXTURE_MAG_FILTER : Nat := 0x2800
def GL_TEXTURE_MIN_FILTER : Nat := 0x2801
def GL_TEXTURE_WRAP_S : Nat := 0x2802
def GL_TEXTURE_WRAP_T : Nat := 0x2803
def GL_REPEAT : Nat := 0x2901
def GL_CLAMP_TO_EDGE : Nat := 0x812F

/-! ## Constants from `material.js`

`renderer.js` imports `CAP`, `MAT_STATE`, `RENDER_ORDER` and
`stateToBlendFunc` from `./material.js`, which is not among the sources.
They are modelled from the spec (§4.4, §9: a bit-packed material state word
with capability bits, blend-func bit ranges and depth-func bit ranges;
§3/§4.5: an ordered bucket array with opaque drawn before transparent and a
`DEFAULT` sentinel).  The concrete bit layout below is the one `renderer.js`
itself relies on: each capability is a single bit above value 1 (the
`colorMaskChange > 1` test in `_bindMaterialState` requires the mask bits to
exceed 1), the blend-func field sits in one contiguous range split into a
src and a dst half, and the depth-func field sits above it. -/

namespace CAP

/-- Modelled from the spec: capability bit for face culling. -/
def CULL_FACE : Nat := 0x001

/-- Modelled from the spec: capability bit for blending. -/
def BLEND : Nat := 0x002

/-- Modelled from the spec: capability bit for depth testing. -/
def DEPTH_TEST : Nat := 0x004

/-- Modelled from the spec: capability bit for stencil testing. -/
def STENCIL_TEST : Nat := 0x008

/-- Modelled from the spec: colour-write-mask bit. -/
def COLOR_MASK : Nat := 0x010

/-- Modelled from the spec: depth-write-mask bit. -/
def DEPTH_MASK : Nat := 0x020

/-- Modelled from the spec: stencil-write-mask bit. -/
def STENCIL_MASK : Nat := 0x040

end CAP

namespace MAT_STATE

/-- Modelled from the spec: bit range holding all capability/mask bits. -/
def CAPS_RANGE : Nat := 0x000000FF

/-- Modelled from the spec: shift of the blend src function field. -/
def BLEND_SRC_SHIFT : Nat := 8

/-- Modelled from the spec: bit range of the blend src function field. -/
def BLEND_SRC_RANGE : Nat := 0x00000F00

/-- Modelled from the spec: shift of the blend dst function field. -/
def BLEND_DST_SHIFT : Nat := 12

/-- Modelled from the spec: bit range of the blend dst function field. -/
def BLEND_DST_RANGE : Nat := 0x0000F000

/-- Modelled from the spec: bit range of the whole blend function field. -/
def BLEND_FUNC_RANGE : Nat := 0x0000FF00

/-- Modelled from the spec: shift of the depth function field. -/
def DEPTH_FUNC_SHIFT : Nat := 16

/-- Modelled from the spec: bit range of the depth function field. -/
def DEPTH_FUNC_RANGE : Nat := 0x000F0000

end MAT_STATE

namespace RENDER_ORDER

/-- Modelled from the spec: bucket id of the opaque render-order bucket. -/
def OPAQUE : Nat := 0

/-- Modelled from the spec: bucket id drawn after opaque, before transparent. -/
def SKY : Nat := 1

/-- Modelled from the spec: bucket id of the transparent render-order bucket. -/
def TRANSPARENT : Nat := 2

/-- Modelled from the spec: bucket id for additive effects. -/
def ADDITIVE : Nat := 3

/-- Modelled from the spec: sentinel meaning "pick the bucket from the
material's blend state"; also the initial length of the bucket array. -/
def DEFAULT : Nat := 4

end RENDER_ORDER

/-- Modelled from the spec: `stateToBlendFunc(state, mask, shift)` of
`material.js` decodes a blend-function bit field; values 0 and 1 denote the
WebGL enums `ZERO`/`ONE` and larger field values are offset into the
`SRC_COLOR`-based enum block. -/
def stateToBlendFunc (state mask shift : Nat) : Nat :=
  let value := (state &&& mask) >>> shift
  if value = 0 ∨ value = 1 then value else (value - 2) + GL_SRC_COLOR

/-- `isPowerOfTwo(n)` of `renderer.js`: `(n & (n - 1)) === 0`.  For `n = 0`
the JavaScript computation is `0 & -1 === 0` (true); `Nat` subtraction gives
`0 &&& 0 = 0`, the same verdict. -/
def isPowerOfTwo (n : Nat) : Bool :=
  n &&& (n - 1) == 0

/-- 32-bit bitwise complement: the value JavaScript's `~state` denotes once
re-read through the 32-bit coercions of `&`/`==` (for `state < 2^32`). -/
def complement32 (state : Nat) : Nat :=
  (2 ^ 32 - 1) ^^^ state

/-! ## 4×4 matrices and 3-vectors

`gl-matrix` `mat4`/`vec3` values, modelled over `ℚ` (exact arithmetic in
place of `Float32Array` contents).  `mRC` is the entry at row `R`, column
`C`; gl-matrix stores columns contiguously, so the translation component
(array slots 12..14) is the fourth column `(m03, m13, m23)`. -/

structure Vec3 where
  x : ℚ
  y : ℚ
  z : ℚ
deriving DecidableEq

def Vec3.zero : Vec3 := ⟨0, 0, 0⟩

structure Mat4 where
  m00 : ℚ
  m01 : ℚ
  m02 : ℚ
  m03 : ℚ
  m10 : ℚ
  m11 : ℚ
  m12 : ℚ
  m13 : ℚ
  m20 : ℚ
  m21 : ℚ
  m22 : ℚ
  m23 : ℚ
  m30 : ℚ
  m31 : ℚ
  m32 : ℚ
  m33 : ℚ
deriving DecidableEq

/-- The identity matrix (`mat4.create()` / `new XRRigidTransform().matrix`). -/
def Mat4.id : Mat4 :=
  ⟨1, 0, 0, 0,
   0, 1, 0, 0,
   0, 0, 1, 0,
   0, 0, 0, 1⟩

/-- Matrix product. -/
def Mat4.mul (a b : Mat4) : Mat4 :=
  ⟨a.m00*b.m00 + a.m01*b.m10 + a.m02*b.m20 + a.m03*b.m30,
   a.m00*b.m01 + a.m01*b.m11 + a.m02*b.m21 + a.m03*b.m31,
   a.m00*b.m02 + a.m01*b.m12 + a.m02*b.m22 + a.m03*b.m32,
   a.m00*b.m03 + a.m01*b.m13 + a.m02*b.m23 + a.m03*b.m33,
   a.m10*b.m00 + a.m11*b.m10 + a.m12*b.m20 + a.m13*b.m30,
   a.m10*b.m01 + a.m11*b.m11 + a.m12*b.m21 + a.m13*b.m31,
   a.m10*b.m02 + a.m11*b.m12 + a.m12*b.m22 + a.m13*b.m32,
   a.m10*b.m03 + a.m11*b.m13 + a.m12*b.m23 + a.m13*b.m33,
   a.m20*b.m00 + a.m21*b.m10 + a.m22*b.m20 + a.m23*b.m30,
   a.m20*b.m01 + a.m21*b.m11 + a.m22*b.m21 + a.m23*b.m31,
   a.m20*b.m02 + a.m21*b.m12 + a.m22*b.m22 + a.m23*b.m32,
   a.m20*b.m03 + a.m21*b.m13 + a.m22*b.m23 + a.m23*b.m33,
   a.m30*b.m00 + a.m31*b.m10 + a.m32*b.m20 + a.m33*b.m30,
   a.m30*b.m01 + a.m31*b.m11 + a.m32*b.m21 + a.m33*b.m31,
   a.m30*b.m02 + a.m31*b.m12 + a.m32*b.m22 + a.m33*b.m32,
   a.m30*b.m03 + a.m31*b.m13 + a.m32*b.m23 + a.m33*b.m33⟩

/-- Translation component of a matrix: gl-matrix array slots 12..14,
i.e. the upper three entries of the fourth column. -/
def Mat4.translation (m : Mat4) : Vec3 :=
  ⟨m.m03, m.m13, m.m23⟩

/-! ## GL call trace

One constructor per WebGL entry point the renderer uses.  Draw calls carry
the identities of the primitive and instance that produced them (the source
determines the call's arguments from exactly that pair), so that claims
about draw ordering can be stated on the trace. -/

inductive GLOp where
  | viewportSet (x y w h : Int)
  | enable (cap : Nat)
  | disable (cap : Nat)
  | colorMaskSet (m : Bool)
  | depthMaskSet (m : Bool)
  | stencilMaskSet (m : Nat)
  | blendFuncSet (src dst : Nat)
  | depthFuncSet (fn : Nat)
  | useProgram (pid : Nat)
  | uniformM4 (name : String) (value : Mat4)
  | uniform3f (name : String) (value : Vec3)
  | uniformFv (len : Nat) (name : String) (value : List ℚ)
  | uniform1i (name : String) (value : Int)
  | uniform1ui (name : String) (value : Nat)
  | uniform1f (name : String) (value : ℚ)
  | activeTexture (unit : Nat)
  | bindTexture (target : Nat) (handle : Option Nat)
  | texImage2D (target : Nat) (handle : Nat)
  | texParameteri (pname value : Nat)
  | generateMipmap (target : Nat)
  | createTexture (handle : Nat)
  | createBuffer (handle : Nat)
  | bindBuffer (target : Nat) (handle : Option Nat)
  | bufferData (target byteLength : Nat)
  | bufferSubData (target offset : Nat)
  | enableVertexAttribArray (idx : Nat)
  | disableVertexAttribArray (idx : Nat)
  | vertexAttribPointer (idx componentCount componentType : Nat)
      (normalized : Bool) (stride byteOffset : Nat)
  | bindVertexArray (vao : Option Nat)
  | createVertexArray (vao : Nat)
  | drawElementsTagged (pid iid mode count indexType byteOffset : Nat)
  | drawArraysTagged (pid iid mode count : Nat)
  | textureRefresh (key : String)
deriving DecidableEq

/-- Is this trace element a draw call? -/
def GLOp.isDraw : GLOp → Bool
  | .drawElementsTagged .. => true
  | .drawArraysTagged .. => true
  | _ => false

/-- The (primitive, instance) pair a draw call was issued for. -/
def GLOp.drawTag : GLOp → Option (Nat × Nat)
  | .drawElementsTagged pid iid _ _ _ _ => some (pid, iid)
  | .drawArraysTagged pid iid _ _ => some (pid, iid)
  | _ => none

/-- Primitive ids of the draw calls of a trace, in issue order. -/
def drawPids (tr : List GLOp) : List Nat :=
  tr.filterMap (fun op => op.drawTag.map Prod.fst)

/-- (primitive, instance) pairs of the draw calls of a trace, in order. -/
def drawPairs (tr : List GLOp) : List (Nat × Nat) :=
  tr.filterMap GLOp.drawTag

/-- Does this op upload the 4×4 matrix uniform called `name`? -/
def GLOp.isM4Named (name : String) : GLOp → Bool
  | .uniformM4 n _ => n == name
  | _ => false

/-! ## Attribute tables

`ATTRIB` / `ATTRIB_MASK` of `renderer.js`, as total functions on the
attribute name (an unknown name yields 0, standing in for JavaScript's
`undefined` lookups, which no construction in scope performs). -/

def ATTRIB (name : String) : Nat :=
  if name = "POSITION" then 1
  else if name = "NORMAL" then 2
  else if name = "TANGENT" then 3
  else if name = "TEXCOORD_0" then 4
  else if name = "TEXCOORD_1" then 5
  else if name = "COLOR_0" then 6
  else 0

def ATTRIB_MASK (name : String) : Nat :=
  if name = "POSITION" then 0x0001
  else if name = "NORMAL" then 0x0002
  else if name = "TANGENT" then 0x0004
  else if name = "TEXCOORD_0" then 0x0008
  else if name = "TEXCOORD_1" then 0x0010
  else if name = "COLOR_0" then 0x0020
  else 0

/-- The six attribute names, in the order `for (let attrib in ATTRIB)`
enumerates them in `_bindPrimitive`. -/
def ATTRIB_NAMES : List String :=
  ["POSITION", "NORMAL", "TANGENT", "TEXCOORD_0", "TEXCOORD_1", "COLOR_0"]

/-! ## Texture descriptors -/

/-- A `sampler` record on a texture descriptor; `none` models a JavaScript
falsy field, which makes `_setSamplerParameters` fall back to its default. -/
structure SamplerDescM where
  magFilter : Option Nat
  minFilter : Option Nat
  wrapS : Option Nat
  wrapT : Option Nat
deriving DecidableEq

/-- Which `texture.js` class the descriptor is an instance of.  `image`
and `video` both take the asynchronous `waitForComplete` upload path of
`_getRenderTexture`; `video` additionally installs a per-frame refresh
callback once the video plays. -/
inductive TextureKind where
  | external
  | data
  | image
  | video
deriving DecidableEq

structure TextureDescM where
  textureKey : Option String
  kind : TextureKind
  width : Nat
  height : Nat
  mipmap : Bool
  format : Nat
  sampler : SamplerDescM
deriving DecidableEq

/-- JavaScript truthiness test `!key` on a texture key: `null`/`undefined`
(`none`) and the empty string are falsy. -/
def jsFalsyKey : Option String → Bool
  | none => true
  | some s => s == ""

/-- `RenderTexture`: one GL texture handle plus completeness and refresh
bookkeeping.  `hasActiveCallback` models a non-null `_activeCallback`. -/
structure RenderTextureM where
  texture : Nat
  complete : Bool
  activeFrameId : Nat
  hasActiveCallback : Bool
  isExternalTexture : Bool
  isArray : Bool
deriving DecidableEq

/-! ## Programs and materials -/

/-- A compiled `Program`.  The GLSL text handed to the external compiler is
determined by the material's sources plus the renderer's multiview/depth
entry variant and precision header; those inputs are recorded in the fields
below instead of the concatenated source string, since no observable
behaviour of the renderer depends on the text itself.  `uniforms` is the
name set the linked program declares (supplied by the context, standing for
the external GLSL linker), and `nextUseOps` are the sampler-index uploads
the renderer registers via `onNextUse` at creation. -/
structure ProgramM where
  id : Nat
  key : String
  multiview : Bool
  useDepth : Bool
  uniforms : List String
  nextUseBinds : List (String × Nat)
deriving DecidableEq

/-- The GL calls the pending `onNextUse` callback performs when the program
is first used: one sampler-index upload per recorded binding. -/
def ProgramM.nextUseOps (p : ProgramM) : List GLOp :=
  p.nextUseBinds.map (fun nb => GLOp.uniform1i nb.1 (Int.ofNat nb.2))

/-- A sampler entry of an authoring-time material (`material._samplers[i]`). -/
structure MaterialSamplerDescM where
  uniformName : String
  texture : Option TextureDescM
deriving DecidableEq

/-- A uniform entry of an authoring-time material (`material._uniforms`). -/
structure MaterialUniformDescM where
  uniformName : String
  value : List ℚ
  length : Nat
deriving DecidableEq

/-- The authoring-time material as `renderer.js` consumes it:
`materialName`/`vertexSource`/`fragmentSource` may be absent (`== null`),
`defines` is the dictionary `material.getProgramDefines(...)` returns, in
enumeration (insertion) order, `state` is the packed state word
`material.state._state` and `renderOrder` may be the `DEFAULT` sentinel. -/
structure MaterialM where
  materialName : Option String
  vertexSource : Option String
  fragmentSource : Option String
  defines : List (String × String)
  samplers : List MaterialSamplerDescM
  uniforms : List MaterialUniformDescM
  state : Nat
  renderOrder : Nat
deriving DecidableEq

/-- `RenderMaterialSampler`: keeps the resolved `RenderTexture`.  The
resolved object lives in the renderer's texture cache; we record its cache
key (`none` when the descriptor was null) and read the live object from the
cache where the source reads `sampler._renderTexture`. -/
structure RenderMaterialSamplerM where
  uniformName : String
  renderTextureKey : Option String
  index : Nat
deriving DecidableEq

/-- `RenderMaterialUniform`: name, value snapshot and component length. -/
structure RenderMaterialUniformM where
  uniformName : String
  value : List ℚ
  length : Nat
deriving DecidableEq

/-- `RenderMaterial`.  `mid` is a freshly allocated object identity (the
draw loop compares materials by JavaScript object identity). -/
structure RenderMaterialM where
  mid : Nat
  program : ProgramM
  state : Nat
  renderOrder : Nat
  samplers : List RenderMaterialSamplerM
  uniforms : List RenderMaterialUniformM
  firstBind : Bool
  activeFrameId : Nat
  completeForActiveFrame : Bool
deriving DecidableEq

/-- `material._capsDiff(otherState)`. -/
def capsDiff (state otherState : Nat) : Nat :=
  (otherState &&& MAT_STATE.CAPS_RANGE) ^^^ (state &&& MAT_STATE.CAPS_RANGE)

/-- `material._blendDiff(otherState)`. -/
def blendDiff (state otherState : Nat) : Nat :=
  if state &&& CAP.BLEND = 0 then 0
  else (otherState &&& MAT_STATE.BLEND_FUNC_RANGE) ^^^ (state &&& MAT_STATE.BLEND_FUNC_RANGE)

/-- `material._depthFuncDiff(otherState)`. -/
def depthFuncDiff (state otherState : Nat) : Nat :=
  if state &&& CAP.DEPTH_TEST = 0 then 0
  else (otherState &&& MAT_STATE.DEPTH_FUNC_RANGE) ^^^ (state &&& MAT_STATE.DEPTH_FUNC_RANGE)

/-- `material.blendFuncSrc` getter. -/
def blendFuncSrc (state : Nat) : Nat :=
  stateToBlendFunc state MAT_STATE.BLEND_SRC_RANGE MAT_STATE.BLEND_SRC_SHIFT

/-- `material.blendFuncDst` getter. -/
def blendFuncDst (state : Nat) : Nat :=
  stateToBlendFunc state MAT_STATE.BLEND_DST_RANGE MAT_STATE.BLEND_DST_SHIFT

/-- `material.depthFunc` getter. -/
def materialDepthFunc (state : Nat) : Nat :=
  ((state &&& MAT_STATE.DEPTH_FUNC_RANGE) >>> MAT_STATE.DEPTH_FUNC_SHIFT) + GL_NEVER

/-! ## Buffers, instances, primitives -/

/-- `RenderBuffer`: `ready` models a non-null `_buffer` (the asynchronous
population has completed). -/
structure RenderBufferM where
  bid : Nat
  target : Nat
  usage : Nat
  ready : Bool
  byteLength : Nat
deriving DecidableEq

/-- An entry of `primitive._instances`: a scene-graph node acting as a draw
instance, with its `_activeFrameId` stamp and world matrix. -/
structure InstanceM where
  iid : Nat
  activeFrameId : Nat
  worldMatrix : Mat4
deriving DecidableEq

/-- `RenderPrimitiveAttribute`. -/
structure AttributeRecM where
  attribIndex : Nat
  componentCount : Nat
  componentType : Nat
  stride : Nat
  byteOffset : Nat
  normalized : Bool
deriving DecidableEq

/-- `RenderPrimitive`.  `attributeBuffers` groups attribute records by the
id of the `RenderBuffer` they read from, in first-seen order.  `material`
is non-optional: in the source it is `null` only transiently inside
`createRenderPrimitive`, which attaches the freshly built `RenderMaterial`
before the primitive escapes.  `promiseStarted` models a non-null
`_promise` (i.e. `waitForComplete` has been called). -/
structure RenderPrimitiveM where
  pid : Nat
  activeFrameId : Nat
  instances : List InstanceM
  material : RenderMaterialM
  mode : Nat
  elementCount : Nat
  attributeBuffers : List (Nat × List AttributeRecM)
  attributeMask : Nat
  indexBuffer : Option Nat
  indexType : Nat
  indexByteOffset : Nat
  vao : Option Nat
  complete : Bool
  promiseStarted : Bool
deriving DecidableEq

/-- The geometry descriptor handed to `createRenderPrimitive`. -/
structure PrimitiveAttributeDescM where
  name : String
  bufferId : Nat
  componentCount : Nat
  componentType : Nat
  stride : Nat
  byteOffset : Nat
  normalized : Bool
deriving DecidableEq

/-- The primitive descriptor handed to `createRenderPrimitive` (bounding
box omitted: `_min`/`_max` are cloned but never influence any claim). -/
structure PrimitiveDescM where
  mode : Nat
  elementCount : Nat
  attributes : List PrimitiveAttributeDescM
  indexBufferId : Option Nat
  indexByteOffset : Nat
  indexType : Nat
deriving DecidableEq

/-! ## Views -/

structure ViewportM where
  x : Int
  y : Int
  width : Int
  height : Int
deriving DecidableEq

/-- An `XRRigidTransform`-like object as `RenderView`/`drawViews` use it:
its `position`, its `matrix`, and `inverse.matrix`.  The API invariants
(that `matrix` carries `position` as translation and that `invMatrix` is
its inverse) are stated as hypotheses where a theorem needs them. -/
structure XRRigidTransformM where
  position : Vec3
  matrix : Mat4
  invMatrix : Mat4
deriving DecidableEq

/-- `new XRRigidTransform()`: the identity transform. -/
def XRRigidTransformM.identityT : XRRigidTransformM :=
  ⟨Vec3.zero, Mat4.id, Mat4.id⟩

/-- The second `RenderView` constructor argument: either a raw
`Float32Array` view matrix or a rigid-transform-like object. -/
inductive ViewTransformInput where
  | floatArray (viewMatrix : Mat4)
  | rigid (t : XRRigidTransformM)
deriving DecidableEq

structure RenderViewM where
  projectionMatrix : Mat4
  viewport : Option ViewportM
  eye : String
  eyeIndex : Nat
  viewMatrix : Mat4
  viewTransform : XRRigidTransformM
deriving DecidableEq

/-- The `RenderView` constructor.  On the `Float32Array` path the view
matrix is cloned and `viewTransform` becomes `new XRRigidTransform()`; on
the rigid path the view matrix is `viewTransform.inverse.matrix`. -/
def RenderView.make (projectionMatrix : Mat4) (viewTransform : ViewTransformInput)
    (viewport : Option ViewportM := none) (eye : String := "left") : RenderViewM :=
  let eyeIndex := if eye = "left" then 0 else 1
  match viewTransform with
  | .floatArray m =>
    { projectionMatrix, viewport, eye, eyeIndex, viewMatrix := m,
      viewTransform := XRRigidTransformM.identityT }
  | .rigid t =>
    { projectionMatrix, viewport, eye, eyeIndex, viewMatrix := t.invMatrix,
      viewTransform := t }

/-- One entry of the per-frame `depthData` array. -/
structure DepthDataM where
  rawValueToMeters : ℚ
  projectionMatrix : Option Mat4
  transformInvMatrix : Mat4
  texture : Nat
deriving DecidableEq

/-! ## The renderer -/

def DEF_LIGHT_DIR : Vec3 := ⟨-1/10, -1, -1/5⟩

def DEF_LIGHT_COLOR : Vec3 := ⟨3, 3, 3⟩

/-- What the renderer reads off the GL context at construction. -/
structure GLContextM where
  vaoExtAvailable : Bool
  multiviewExtAvailable : Bool
  highpPrecision : Nat
  uniformsDeclaredByLink : List String
deriving DecidableEq

/-- The `Renderer` state.  Caches are association lists; fresh GPU handles
and object identities come from the `next*` counters.  `primStore` holds
the primitive objects, addressed by `pid` (buckets and mark lists hold
references, modelled as ids resolved against the store, first match). -/
structure RendererM where
  frameId : Nat
  programCache : List (String × ProgramM)
  nextProgramId : Nat
  usedPrograms : List Nat
  textureCache : List (String × RenderTextureM)
  pendingTextures : List (String × TextureDescM)
  nextTextureHandle : Nat
  renderPrimitives : List (List Nat)
  primStore : List RenderPrimitiveM
  nextPid : Nat
  nextMid : Nat
  nextVao : Nat
  nextIid : Nat
  bufferStore : List RenderBufferM
  nextBufferId : Nat
  cameraPositions : List Vec3
  multiview : Bool
  multisampledMultiview : Bool
  useDepth : Bool
  vaoExt : Bool
  depthMaskNeedsReset : Bool
  colorMaskNeedsReset : Bool
  globalLightDir : Vec3
  globalLightColor : Vec3
  defaultFragPrecision : String
  linkerUniforms : List String
deriving DecidableEq

/-- The field initialisation the `Renderer` constructor performs once it
holds a usable context `g`. -/
def Renderer.init (g : GLContextM)
    (multiview multisampledMultiview useDepth : Bool) : RendererM :=
  { frameId := 0, programCache := [], nextProgramId := 0, usedPrograms := [],
    textureCache := [], pendingTextures := [], nextTextureHandle := 0,
    renderPrimitives := List.replicate RENDER_ORDER.DEFAULT [],
    primStore := [], nextPid := 0, nextMid := 0, nextVao := 0, nextIid := 0,
    bufferStore := [], nextBufferId := 0, cameraPositions := [],
    multiview := multiview && g.multiviewExtAvailable,
    multisampledMultiview, useDepth,
    vaoExt := g.vaoExtAvailable,
    depthMaskNeedsReset := false, colorMaskNeedsReset := false,
    globalLightDir := DEF_LIGHT_DIR, globalLightColor := DEF_LIGHT_COLOR,
    defaultFragPrecision := if g.highpPrecision > 0 then "highp" else "mediump",
    linkerUniforms := g.uniformsDeclaredByLink }

/-- The `Renderer` constructor.  `this._gl = gl || createWebGLContext()`
would fall back to a fresh context (`fallbackContext` models the value
`createWebGLContext()` would produce), but every subsequent initialisation
line dereferences the `gl` parameter itself (`gl.getExtension(...)`,
`gl.getShaderPrecisionFormat(...)`), so a missing `gl` throws a
`TypeError` before construction can complete. -/
def Renderer.construct (fallbackContext : Option GLContextM) (gl : Option GLContextM)
    (multiview multisampledMultiview useDepth : Bool) : Except String RendererM :=
  let _glField : Option GLContextM :=
    match gl with
    | some g => some g
    | none => fallbackContext
  match gl with
  | none => .error "TypeError: gl is null (reading gl.getExtension)"
  | some g => .ok (Renderer.init g multiview multisampledMultiview useDepth)

/-! ## Store helpers

Object references in the source become ids resolved against stores; lookup
and update both act on the first matching entry, so aliasing behaves like
the single JavaScript object even if an id were duplicated. -/

def findPrim (store : List RenderPrimitiveM) (pid : Nat) : Option RenderPrimitiveM :=
  store.find? (fun p => p.pid == pid)

def updatePrim (store : List RenderPrimitiveM) (pid : Nat)
    (f : RenderPrimitiveM → RenderPrimitiveM) : List RenderPrimitiveM :=
  match store with
  | [] => []
  | p :: rest => if p.pid == pid then f p :: rest else p :: updatePrim rest pid f

def bufferReadyIn (store : List RenderBufferM) (bid : Nat) : Bool :=
  ((store.find? (fun b => b.bid == bid)).map (·.ready)).getD false

def updateTexture (cache : List (String × RenderTextureM)) (key : String)
    (f : RenderTextureM → RenderTextureM) : List (String × RenderTextureM) :=
  cache.map (fun e => if e.1 == key then (e.1, f e.2) else e)

/-! ## Texture resolution -/

/-- `_setSamplerParameters(texture)`: mipmap generation (only for
power-of-two dimensions with mipmapping requested) followed by the four
`texParameteri` calls, each defaulting only where the descriptor's sampler
leaves the field unset. -/
def Renderer.setSamplerParameters (texture : TextureDescM) : List GLOp :=
  let sampler := texture.sampler
  let powerOfTwo := isPowerOfTwo texture.width && isPowerOfTwo texture.height
  let mipmap := powerOfTwo && texture.mipmap
  let minFilter := sampler.minFilter.getD (if mipmap then GL_LINEAR_MIPMAP_LINEAR else GL_LINEAR)
  let wrapS := sampler.wrapS.getD (if powerOfTwo then GL_REPEAT else GL_CLAMP_TO_EDGE)
  let wrapT := sampler.wrapT.getD (if powerOfTwo then GL_REPEAT else GL_CLAMP_TO_EDGE)
  (if mipmap then [GLOp.generateMipmap GL_TEXTURE_2D] else []) ++
  [GLOp.texParameteri GL_TEXTURE_MAG_FILTER (sampler.magFilter.getD GL_LINEAR),
   GLOp.texParameteri GL_TEXTURE_MIN_FILTER minFilter,
   GLOp.texParameteri GL_TEXTURE_WRAP_S wrapS,
   GLOp.texParameteri GL_TEXTURE_WRAP_T wrapT]

/-- `_getRenderTexture(texture)`.  A null descriptor resolves to null; a
descriptor without a usable key throws; a cache hit returns the cached
entry untouched; a miss allocates a handle and dispatches on the
descriptor's class — external textures skip upload, data textures upload
and set sampler parameters immediately, and image/video textures defer the
upload to the descriptor's `waitForComplete` continuation (kept in
`pendingTextures` until the `resolveTexture` host event fires it). -/
def Renderer.getRenderTexture (r : RendererM) (texture : Option TextureDescM) :
    Except String (Option RenderTextureM) × RendererM × List GLOp :=
  match texture with
  | none => (.ok none, r, [])
  | some t =>
    if jsFalsyKey t.textureKey then
      (.error "Texure does not have a valid key", r, [])
    else
      let key := t.textureKey.getD ""
      match r.textureCache.lookup key with
      | some rt => (.ok (some rt), r, [])
      | none =>
        let textureHandle := r.nextTextureHandle
        match t.kind with
        | .external =>
          let rt : RenderTextureM :=
            { texture := textureHandle, complete := false, activeFrameId := 0,
              hasActiveCallback := false, isExternalTexture := true, isArray := false }
          (.ok (some rt),
           { r with textureCache := r.textureCache ++ [(key, rt)],
                    nextTextureHandle := textureHandle + 1 },
           [GLOp.createTexture textureHandle])
        | .data =>
          let rt : RenderTextureM :=
            { texture := textureHandle, complete := true, activeFrameId := 0,
              hasActiveCallback := false, isExternalTexture := false, isArray := false }
          (.ok (some rt),
           { r with textureCache := r.textureCache ++ [(key, rt)],
                    nextTextureHandle := textureHandle + 1 },
           [GLOp.createTexture textureHandle,
            GLOp.bindTexture GL_TEXTURE_2D (some textureHandle),
            GLOp.texImage2D GL_TEXTURE_2D textureHandle] ++
           Renderer.setSamplerParameters t)
        | _ =>
          let rt : RenderTextureM :=
            { texture := textureHandle, complete := false, activeFrameId := 0,
              hasActiveCallback := false, isExternalTexture := false, isArray := false }
          (.ok (some rt),
           { r with textureCache := r.textureCache ++ [(key, rt)],
                    pendingTextures := r.pendingTextures ++ [(key, t)],
                    nextTextureHandle := textureHandle + 1 },
           [GLOp.createTexture textureHandle])

/-! ## Program resolution -/

/-- `_getProgramKey(name, defines)`: the material name, a colon, then one
`define=value,` segment per dictionary entry in enumeration order. -/
def Renderer.getProgramKey (name : String) (defines : List (String × String)) : String :=
  defines.foldl (fun key d => key ++ d.1 ++ "=" ++ d.2 ++ ",") (name ++ ":")

/-- `_getMaterialProgram(material, renderPrimitive)`: identity checks (name
and both shader sources must be non-null), key lookup, and on a miss a
fresh `Program` whose GLSL inputs (sources plus the renderer's entry
variant) are recorded in the `ProgramM` fields, entered into the cache
under the key.  The `onNextUse` callback registered at creation becomes
`nextUseOps`: one sampler-index upload per material sampler the linked
program declares. -/
def Renderer.getMaterialProgram (r : RendererM) (material : MaterialM) :
    Except String ProgramM × RendererM :=
  match material.materialName with
  | none => (.error "Material does not have a name", r)
  | some materialName =>
    match material.vertexSource with
    | none =>
      (.error ("Material \"" ++ materialName ++ "\" does not have a vertex source"), r)
    | some _ =>
      match material.fragmentSource with
      | none =>
        (.error ("Material \"" ++ materialName ++ "\" does not have a fragment source"), r)
      | some _ =>
        let defines := material.defines
        let key := Renderer.getProgramKey materialName defines
        match r.programCache.lookup key with
        | some program => (.ok program, r)
        | none =>
          let program : ProgramM :=
            { id := r.nextProgramId, key := key,
              multiview := r.multiview, useDepth := r.useDepth,
              uniforms := r.linkerUniforms,
              nextUseBinds := material.samplers.enum.filterMap (fun is =>
                if r.linkerUniforms.contains is.2.uniformName then
                  some (is.2.uniformName, is.1)
                else none) }
          (.ok program,
           { r with programCache := r.programCache ++ [(key, program)],
                    nextProgramId := r.nextProgramId + 1 })

/-! ## Material state binding -/

/-- `setCap(gl, glEnum, cap, prevState, state)`. -/
def setCap (glEnum cap prevState state : Nat) : List GLOp :=
  let change : Int := ((state &&& cap : Nat) : Int) - ((prevState &&& cap : Nat) : Int)
  if change = 0 then []
  else if change > 0 then [GLOp.enable glEnum] else [GLOp.disable glEnum]

/-- `_bindMaterialState(material, prevMaterial)`: diff the packed state
words (the absent previous material is replaced by the bitwise complement
of the material's own state) and emit only the GL state calls whose bits
changed.  Returns the trace together with the updated
`_colorMaskNeedsReset` / `_depthMaskNeedsReset` flags. -/
def Renderer.bindMaterialState (colorMaskNeedsReset depthMaskNeedsReset : Bool)
    (state : Nat) (prevState? : Option Nat) : List GLOp × Bool × Bool :=
  let prevState := prevState?.getD (complement32 state)
  if state = prevState then ([], colorMaskNeedsReset, depthMaskNeedsReset)
  else
    let colorMaskChange : Int :=
      ((state &&& CAP.COLOR_MASK : Nat) : Int) - ((prevState &&& CAP.COLOR_MASK : Nat) : Int)
    let depthMaskChange : Int :=
      ((state &&& CAP.DEPTH_MASK : Nat) : Int) - ((prevState &&& CAP.DEPTH_MASK : Nat) : Int)
    let stencilMaskChange : Int :=
      ((state &&& CAP.STENCIL_MASK : Nat) : Int) - ((prevState &&& CAP.STENCIL_MASK : Nat) : Int)
    let color : List GLOp × Bool :=
      if colorMaskChange ≠ 0 then
        ([GLOp.colorMaskSet (decide (colorMaskChange > 1))], !(decide (colorMaskChange > 1)))
      else ([], colorMaskNeedsReset)
    let depth : List GLOp × Bool :=
      if depthMaskChange ≠ 0 then
        ([GLOp.depthMaskSet (decide (depthMaskChange > 1))], !(decide (depthMaskChange > 1)))
      else ([], depthMaskNeedsReset)
    let stencilOps : List GLOp :=
      if stencilMaskChange ≠ 0 then
        [GLOp.stencilMaskSet (if stencilMaskChange > 1 then 0xff else 0x00)]
      else []
    let caps : List GLOp × Bool × Bool :=
      if capsDiff state prevState ≠ 0 then
        (setCap GL_CULL_FACE CAP.CULL_FACE prevState state ++
         setCap GL_BLEND CAP.BLEND prevState state ++
         setCap GL_DEPTH_TEST CAP.DEPTH_TEST prevState state ++
         setCap GL_STENCIL_TEST CAP.STENCIL_TEST prevState state ++
         color.1 ++ depth.1 ++ stencilOps, color.2, depth.2)
      else ([], colorMaskNeedsReset, depthMaskNeedsReset)
    let blendOps :=
      if blendDiff state prevState ≠ 0 then
        [GLOp.blendFuncSet (blendFuncSrc state) (blendFuncDst state)]
      else []
    let depthFuncOps :=
      if depthFuncDiff state prevState ≠ 0 then
        [GLOp.depthFuncSet (materialDepthFunc state)]
      else []
    (caps.1 ++ blendOps ++ depthFuncOps, caps.2.1, caps.2.2)

/-! ## Buffer and primitive creation -/

/-- `createRenderBuffer(target, data, usage)`: a synchronous data source
uploads immediately; a promise source defers the upload to the promise's
resolution (the `resolveBuffer` host event). -/
def Renderer.createRenderBuffer (r : RendererM) (target : Nat) (dataAsync : Bool)
    (byteLength : Nat) (usage : Nat := GL_STATIC_DRAW) : Nat × RendererM × List GLOp :=
  let glBuffer := r.nextBufferId
  if dataAsync then
    (glBuffer,
     { r with bufferStore := r.bufferStore ++ [⟨glBuffer, target, usage, false, 0⟩],
              nextBufferId := glBuffer + 1 },
     [GLOp.createBuffer glBuffer])
  else
    (glBuffer,
     { r with bufferStore := r.bufferStore ++ [⟨glBuffer, target, usage, true, byteLength⟩],
              nextBufferId := glBuffer + 1 },
     [GLOp.createBuffer glBuffer, GLOp.bindBuffer target (some glBuffer),
      GLOp.bufferData target byteLength])

/-- The `RenderMaterialSampler` constructions of the `RenderMaterial`
constructor: each resolves its texture through `_getRenderTexture` (which
may throw, with earlier cache mutations already applied). -/
def RenderMaterial.makeSamplers (r : RendererM) (samplers : List MaterialSamplerDescM)
    (i : Nat) : Except String (List RenderMaterialSamplerM) × RendererM × List GLOp :=
  match samplers with
  | [] => (.ok [], r, [])
  | s :: rest =>
    match Renderer.getRenderTexture r s.texture with
    | (.error e, r', ops) => (.error e, r', ops)
    | (.ok rt?, r', ops) =>
      let key := if rt?.isSome then s.texture.bind (·.textureKey) else none
      match RenderMaterial.makeSamplers r' rest (i + 1) with
      | (.error e, r'', ops') => (.error e, r'', ops ++ ops')
      | (.ok tail, r'', ops') => (.ok (⟨s.uniformName, key, i⟩ :: tail), r'', ops ++ ops')

/-- The `RenderMaterial` constructor: sampler resolution, uniform snapshot,
state word copy and render-order computation (the `DEFAULT` sentinel
resolves to transparent exactly when the blend capability bit is set). -/
def RenderMaterial.make (r : RendererM) (material : MaterialM) (program : ProgramM) :
    Except String RenderMaterialM × RendererM × List GLOp :=
  match RenderMaterial.makeSamplers r material.samplers 0 with
  | (.error e, r', ops) => (.error e, r', ops)
  | (.ok samplers, r', ops) =>
    let uniforms := material.uniforms.map (fun u =>
      ({ uniformName := u.uniformName, value := u.value, length := u.length } : RenderMaterialUniformM))
    let renderOrder :=
      if material.renderOrder = RENDER_ORDER.DEFAULT then
        (if material.state &&& CAP.BLEND ≠ 0 then RENDER_ORDER.TRANSPARENT
         else RENDER_ORDER.OPAQUE)
      else material.renderOrder
    (.ok { mid := r'.nextMid, program, state := material.state, renderOrder,
           samplers, uniforms, firstBind := true,
           activeFrameId := 0, completeForActiveFrame := false },
     { r' with nextMid := r'.nextMid + 1 }, ops)

/-- Grouping step of `setPrimitive`: append the attribute to the entry of
its buffer, or open a new buffer entry at the end. -/
def addAttributeToBuffers (bufs : List (Nat × List AttributeRecM)) (bufferId : Nat)
    (a : AttributeRecM) : List (Nat × List AttributeRecM) :=
  match bufs with
  | [] => [(bufferId, [a])]
  | b :: rest =>
    if b.1 == bufferId then (b.1, b.2 ++ [a]) :: rest
    else b :: addAttributeToBuffers rest bufferId a

/-- `new RenderPrimitive(primitive)` followed by `setRenderMaterial`: in the
source the material is `null` only inside `createRenderPrimitive`, which
attaches the fresh `RenderMaterial` (and calls `waitForComplete`, starting
the completion promise) before returning.  `_complete` stays false until
the promise continuation runs (the `runCompletion` host event). -/
def RenderPrimitive.make (pid : Nat) (primitive : PrimitiveDescM)
    (material : RenderMaterialM) : RenderPrimitiveM :=
  let attributeMask := primitive.attributes.foldl (fun m a => m ||| ATTRIB_MASK a.name) 0
  let attributeBuffers := primitive.attributes.foldl (fun bufs a =>
    addAttributeToBuffers bufs a.bufferId
      ⟨ATTRIB a.name, a.componentCount, a.componentType, a.stride, a.byteOffset, a.normalized⟩) []
  { pid, activeFrameId := 0, instances := [], material,
    mode := primitive.mode, elementCount := primitive.elementCount,
    attributeBuffers, attributeMask,
    indexBuffer := primitive.indexBufferId,
    indexType := if primitive.indexBufferId.isSome then primitive.indexType else 0,
    indexByteOffset := if primitive.indexBufferId.isSome then primitive.indexByteOffset else 0,
    vao := none, complete := false, promiseStarted := true }

/-- The bucket insertion of `createRenderPrimitive`: extend the bucket array
up to the render order if needed (array holes behave like empty buckets)
and push the primitive onto the bucket. -/
def bucketAppend (buckets : List (List Nat)) (order pid : Nat) : List (List Nat) :=
  let extended := buckets ++ List.replicate (order + 1 - buckets.length) []
  extended.set order (extended.getD order [] ++ [pid])

/-- `createRenderPrimitive(primitive, material)`: program resolution (may
throw), `RenderMaterial` construction (may throw, after the program cache
was already updated), then primitive construction and a single append to
the bucket selected by the material's render order. -/
def Renderer.createRenderPrimitive (r : RendererM) (primitive : PrimitiveDescM)
    (material : MaterialM) : Except String Nat × RendererM × List GLOp :=
  match Renderer.getMaterialProgram r material with
  | (.error e, r') => (.error e, r', [])
  | (.ok program, r') =>
    match RenderMaterial.make r' material program with
    | (.error e, r'', ops) => (.error e, r'', ops)
    | (.ok renderMaterial, r'', ops) =>
      let pid := r''.nextPid
      let renderPrimitive := RenderPrimitive.make pid primitive renderMaterial
      (.ok pid,
       { r'' with nextPid := pid + 1,
                  primStore := r''.primStore ++ [renderPrimitive],
                  renderPrimitives := bucketAppend r''.renderPrimitives renderMaterial.renderOrder pid },
       ops)

/-- Modelled from the spec: the scene graph (`node.js`, outside the
sources) attaches a node as a draw instance by pushing it onto
`primitive._instances`. -/
def Renderer.addInstance (r : RendererM) (pid : Nat) (worldMatrix : Mat4) : RendererM :=
  let iid := r.nextIid
  { r with nextIid := iid + 1,
           primStore := updatePrim r.primStore pid (fun p =>
             { p with instances := p.instances ++ [⟨iid, 0, worldMatrix⟩] }) }

/-! ## Liveness marking -/

/-- `RenderTexture.markActive(frameId)`: with an installed `_activeCallback`
and a new frame id, stamp the texture and run the callback (the video
re-upload, recorded as a single `textureRefresh` trace element keyed by the
texture's cache key). -/
def RenderTexture.markActive (frameId : Nat) (key : String) (rt : RenderTextureM) :
    RenderTextureM × List GLOp :=
  if rt.hasActiveCallback && rt.activeFrameId != frameId then
    ({ rt with activeFrameId := frameId }, [GLOp.textureRefresh key])
  else (rt, [])

/-- The sampler loop of `RenderMaterial.markActive`: stop at the first
incomplete texture (reporting incompleteness), otherwise mark every sampler
texture active.  Samplers whose `_renderTexture` is null are skipped. -/
def RenderMaterial.markActiveSamplers (frameId : Nat)
    (cache : List (String × RenderTextureM)) :
    List RenderMaterialSamplerM → Bool × List (String × RenderTextureM) × List GLOp
  | [] => (true, cache, [])
  | s :: rest =>
    match s.renderTextureKey with
    | none => RenderMaterial.markActiveSamplers frameId cache rest
    | some key =>
      match cache.lookup key with
      | none => RenderMaterial.markActiveSamplers frameId cache rest
      | some rt =>
        if !rt.complete then (false, cache, [])
        else
          let (rt', ops) := RenderTexture.markActive frameId key rt
          let (c, cache', ops') :=
            RenderMaterial.markActiveSamplers frameId
              (updateTexture cache key (fun _ => rt')) rest
          (c, cache', ops ++ ops')

/-- `RenderMaterial.markActive(frameId)`: recompute
`_completeForActiveFrame` once per frame; repeated calls in the same frame
return the memoised value. -/
def RenderMaterial.markActive (frameId : Nat) (cache : List (String × RenderTextureM))
    (mat : RenderMaterialM) :
    RenderMaterialM × List (String × RenderTextureM) × List GLOp × Bool :=
  if mat.activeFrameId != frameId then
    let (c, cache', ops) := RenderMaterial.markActiveSamplers frameId cache mat.samplers
    ({ mat with activeFrameId := frameId, completeForActiveFrame := c }, cache', ops, c)
  else (mat, cache, [], mat.completeForActiveFrame)

/-- `RenderPrimitive.markActive(frameId)`: only a complete primitive whose
material confirms per-frame completeness gets its active stamp updated. -/
def RenderPrimitive.markActive (frameId : Nat) (cache : List (String × RenderTextureM))
    (p : RenderPrimitiveM) :
    RenderPrimitiveM × List (String × RenderTextureM) × List GLOp :=
  if p.complete && p.activeFrameId != frameId then
    let (mat', cache', ops, ok) := RenderMaterial.markActive frameId cache p.material
    if ok then ({ p with material := mat', activeFrameId := frameId }, cache', ops)
    else ({ p with material := mat' }, cache', ops)
  else (p, cache, [])

/-- Modelled from the spec: scene-graph liveness propagation (`node.js`,
outside the sources).  Marking a node unconditionally stamps the node
itself — the node is the corresponding `_instances` entry — and invokes
`RenderPrimitive.markActive` on the primitive it carries. -/
def markNode (frameId : Nat) (r : RendererM) (mark : Nat × Nat) : RendererM × List GLOp :=
  let store1 := updatePrim r.primStore mark.1 (fun p =>
    { p with instances := p.instances.map (fun inst =>
        if inst.iid == mark.2 then { inst with activeFrameId := frameId } else inst) })
  match findPrim store1 mark.1 with
  | none => ({ r with primStore := store1 }, [])
  | some p =>
    let (p', cache', ops) := RenderPrimitive.markActive frameId r.textureCache p
    ({ r with primStore := updatePrim store1 mark.1 (fun _ => p'),
              textureCache := cache' }, ops)

/-! ## Binding -/

/-- The sampler loop of `RenderMaterial.bind`: per sampler, read the type
off `sampler._renderTexture._isArray` — this dereference happens *before*
the null check, so a sampler whose render texture is null throws a
`TypeError` right there, before even `activeTexture`, aborting the bind
(and with it the frame) — then activate the unit and bind the texture
(null while it is incomplete). -/
def bindSamplerOps (cache : List (String × RenderTextureM)) :
    List RenderMaterialSamplerM → List GLOp × Option String
  | [] => ([], none)
  | s :: rest =>
    match s.renderTextureKey.bind (fun k => cache.lookup k) with
    | none => ([], some "TypeError: sampler render texture is null (reading _isArray)")
    | some rt =>
      let ty := if rt.isArray then GL_TEXTURE_2D_ARRAY else GL_TEXTURE_2D
      let ops := [GLOp.activeTexture (GL_TEXTURE0 + s.index),
        if rt.complete then GLOp.bindTexture ty (some rt.texture)
        else GLOp.bindTexture ty none]
      let t := bindSamplerOps cache rest
      (ops ++ t.1, t.2)

/-- `RenderMaterial.bind(gl)`: on the first bind, drop samplers/uniforms the
program does not declare (this mutation persists even when the sampler loop
then throws); then the sampler loop, and — only if it completed — every
uniform via the length-dispatched `uniform{1,2,3,4}fv` (other lengths
upload nothing: the source's `switch` has no default).  Live
`RenderTexture` state is read from the texture cache, where the resolved
objects live. -/
def RenderMaterial.bind (cache : List (String × RenderTextureM)) (mat : RenderMaterialM) :
    RenderMaterialM × List GLOp × Option String :=
  let mat :=
    if mat.firstBind then
      { mat with
        samplers := mat.samplers.filter (fun s => mat.program.uniforms.contains s.uniformName),
        uniforms := mat.uniforms.filter (fun u => mat.program.uniforms.contains u.uniformName),
        firstBind := false }
    else mat
  let s := bindSamplerOps cache mat.samplers
  let uniformOps := mat.uniforms.filterMap (fun u =>
    if u.length = 1 ∨ u.length = 2 ∨ u.length = 3 ∨ u.length = 4 then
      some (GLOp.uniformFv u.length u.uniformName u.value)
    else none)
  match s.2 with
  | some e => (mat, s.1, some e)
  | none => (mat, s.1 ++ uniformOps, none)

/-- `_bindPrimitive(primitive, attribMask)`.  `attribMask?` is `none` when
the source omits the argument (`undefined != mask` holds, so the
enable/disable pass always runs in that case). -/
def Renderer.bindPrimitiveOps (bufferStore : List RenderBufferM) (p : RenderPrimitiveM)
    (attribMask? : Option Nat) : List GLOp :=
  let attribOps :=
    if attribMask? ≠ some p.attributeMask then
      ATTRIB_NAMES.map (fun name =>
        if p.attributeMask &&& ATTRIB_MASK name ≠ 0 then
          GLOp.enableVertexAttribArray (ATTRIB name)
        else
          GLOp.disableVertexAttribArray (ATTRIB name))
    else []
  let bufferOps := p.attributeBuffers.map (fun ab =>
    GLOp.bindBuffer GL_ARRAY_BUFFER (if bufferReadyIn bufferStore ab.1 then some ab.1 else none) ::
    ab.2.map (fun a => GLOp.vertexAttribPointer a.attribIndex a.componentCount a.componentType
      a.normalized a.stride a.byteOffset))
  let indexOps :=
    match p.indexBuffer with
    | some bid => [GLOp.bindBuffer GL_ELEMENT_ARRAY_BUFFER
        (if bufferReadyIn bufferStore bid then some bid else none)]
    | none => [GLOp.bindBuffer GL_ELEMENT_ARRAY_BUFFER none]
  attribOps ++ bufferOps.flatten ++ indexOps

/-! ## The draw loop -/

/-- Renderer state the bucket loop reads but never writes in a frame. -/
structure DrawCfg where
  frameId : Nat
  multiview : Bool
  vaoExt : Bool
  globalLightDir : Vec3
  globalLightColor : Vec3
  cameraPositions : List Vec3
  textureCache : List (String × RenderTextureM)
  bufferStore : List RenderBufferM
deriving DecidableEq

/-- The local variables of `_drawRenderPrimitiveSet` (`program`,
`material`, `attribMask`) plus the renderer fields its callees update. -/
structure DrawLoopState where
  program : Option ProgramM
  material : Option RenderMaterialM
  attribMask : Nat
  usedPrograms : List Nat
  nextVao : Nat
  colorMaskNeedsReset : Bool
  depthMaskNeedsReset : Bool
deriving DecidableEq

/-- The legacy-override part of the first-view depth block: when
`depthData[0].projectionMatrix` is set, re-upload the four depth matrices
from the depth payloads.  The source reads `depthData[1].projectionMatrix`
and `.transform.inverse.matrix` with no existence check, so a single-entry
depth list throws a `TypeError` right after the two LEFT uploads, and a
present second payload without a `projectionMatrix` throws inside the
RIGHT upload (null matrix data), aborting the frame either way. -/
def depthOverrideOps (d0 : DepthDataM) (rest : List DepthDataM) :
    List GLOp × Option String :=
  match d0.projectionMatrix with
  | none => ([], none)
  | some pm =>
    let leftOps := [GLOp.uniformM4 "LEFT_DEPTH_PROJECTION_MATRIX" pm,
      GLOp.uniformM4 "LEFT_DEPTH_VIEW_MATRIX" d0.transformInvMatrix]
    match rest with
    | [] => (leftOps, some "TypeError: depthData[1] is undefined (reading projectionMatrix)")
    | d1 :: _ =>
      match d1.projectionMatrix with
      | none =>
        (leftOps, some "TypeError: uniformMatrix4fv matrix data is null (RIGHT_DEPTH_PROJECTION_MATRIX)")
      | some pm1 =>
        (leftOps ++ [GLOp.uniformM4 "RIGHT_DEPTH_PROJECTION_MATRIX" pm1,
          GLOp.uniformM4 "RIGHT_DEPTH_VIEW_MATRIX" d1.transformInvMatrix], none)

/-- The throw-free leading part of the per-view header: the per-view
viewport, the per-view (or left/right multiview) matrix and camera
uploads, and the `VIEW_ID`/`sortDepth` uniforms. -/
def viewHeaderPreOps (multiview : Bool) (views : List RenderViewM)
    (cameraPositions : List Vec3) (depthData : Option (List DepthDataM))
    (i : Nat) (view : RenderViewM) : List GLOp :=
  (match view.viewport with
   | some vp => [GLOp.viewportSet vp.x vp.y vp.width vp.height]
   | none => []) ++
  (if multiview then
    (if i = 0 then
      [GLOp.uniformM4 "LEFT_PROJECTION_MATRIX" (views.getD 0 view).projectionMatrix,
       GLOp.uniformM4 "LEFT_VIEW_MATRIX" (views.getD 0 view).viewMatrix,
       GLOp.uniformM4 "RIGHT_PROJECTION_MATRIX" (views.getD 1 view).projectionMatrix,
       GLOp.uniformM4 "RIGHT_VIEW_MATRIX" (views.getD 1 view).viewMatrix]
     else []) ++
    [GLOp.uniform3f "CAMERA_POSITION" (cameraPositions.getD i Vec3.zero),
     GLOp.uniform1i "EYE_INDEX" (Int.ofNat view.eyeIndex)]
   else
    [GLOp.uniformM4 "PROJECTION_MATRIX" view.projectionMatrix,
     GLOp.uniformM4 "VIEW_MATRIX" view.viewMatrix,
     GLOp.uniform3f "CAMERA_POSITION" (cameraPositions.getD i Vec3.zero),
     GLOp.uniform1i "EYE_INDEX" (Int.ofNat view.eyeIndex)] ++
    (match depthData with
     | some dd => if dd.length > 0 then [GLOp.uniform1ui "VIEW_ID" i] else []
     | none => [])) ++
  (match depthData with
   | some dd => [GLOp.uniform1i "sortDepth" (if dd.length > 0 then 1 else 0)]
   | none => [])

/-- Everything the view loop body of `_drawRenderPrimitiveSet` does before
the instance loop, for view index `i`: the throw-free `viewHeaderPreOps`,
and — on the first view of a depth-composited frame — the depth
matrix/texture wiring, whose legacy-override part may throw
(`depthOverrideOps`), truncating the header there and aborting the frame.
All of it is skipped when only one view is present. -/
def viewHeaderOps (multiview : Bool) (views : List RenderViewM)
    (cameraPositions : List Vec3) (depthData : Option (List DepthDataM))
    (samplerCount : Nat) (i : Nat) (view : RenderViewM) : List GLOp × Option String :=
  if views.length > 1 then
    let pre := viewHeaderPreOps multiview views cameraPositions depthData i view
    match depthData with
    | some (d0 :: dtail) =>
      if i = 0 then
        let base := [GLOp.uniformM4 "LEFT_DEPTH_PROJECTION_MATRIX"
            (views.getD 0 view).projectionMatrix,
          GLOp.uniformM4 "LEFT_DEPTH_VIEW_MATRIX" (views.getD 0 view).viewMatrix,
          GLOp.uniformM4 "RIGHT_DEPTH_PROJECTION_MATRIX"
            (views.getD 1 view).projectionMatrix,
          GLOp.uniformM4 "RIGHT_DEPTH_VIEW_MATRIX" (views.getD 1 view).viewMatrix,
          GLOp.uniform1f "rawValueToMeters" d0.rawValueToMeters]
        let ov := depthOverrideOps d0 dtail
        match ov.2 with
        | some e => (pre ++ base ++ ov.1, some e)
        | none =>
          (pre ++ base ++ ov.1 ++
            [GLOp.activeTexture (GL_TEXTURE0 + samplerCount),
             GLOp.bindTexture GL_TEXTURE_2D_ARRAY (some d0.texture),
             GLOp.uniform1i "depthColor" (Int.ofNat samplerCount)], none)
      else (pre, none)
    | _ => (pre, none)
  else ([], none)

/-- The instance loop of `_drawRenderPrimitiveSet`: per instance active
this frame, a model-matrix upload followed by the indexed or non-indexed
draw call. -/
def instanceDrawOps (frameId : Nat) (p : RenderPrimitiveM) : List GLOp :=
  (p.instances.filter (fun inst => inst.activeFrameId == frameId)).map (fun inst =>
    GLOp.uniformM4 "MODEL_MATRIX" inst.worldMatrix ::
    (match p.indexBuffer with
     | some _ => [GLOp.drawElementsTagged p.pid inst.iid p.mode p.elementCount
         p.indexType p.indexByteOffset]
     | none => [GLOp.drawArraysTagged p.pid inst.iid p.mode p.elementCount])) |>.flatten

/-- The program-switch block of the primitive loop: when the program
differs from the previous primitive's, `use` it (running any pending
`onNextUse` callback), upload the global light uniforms the program
declares, and — in the single-view case — the per-frame
projection/view/camera/eye uniforms. -/
def programSwitchStep (cfg : DrawCfg) (views : List RenderViewM) (st : DrawLoopState)
    (prog : ProgramM) : List GLOp × DrawLoopState :=
  if (st.program.map (·.id)) ≠ some prog.id then
    let useOps := GLOp.useProgram prog.id ::
      (if st.usedPrograms.contains prog.id then [] else prog.nextUseOps)
    let lightOps :=
      (if prog.uniforms.contains "LIGHT_DIRECTION" then
        [GLOp.uniform3f "LIGHT_DIRECTION" cfg.globalLightDir] else []) ++
      (if prog.uniforms.contains "LIGHT_COLOR" then
        [GLOp.uniform3f "LIGHT_COLOR" cfg.globalLightColor] else [])
    let monoOps :=
      match views with
      | [v] =>
        [GLOp.uniformM4 "PROJECTION_MATRIX" v.projectionMatrix,
         GLOp.uniformM4 "VIEW_MATRIX" v.viewMatrix,
         GLOp.uniform3f "CAMERA_POSITION" (cfg.cameraPositions.getD 0 Vec3.zero),
         GLOp.uniform1i "EYE_INDEX" (Int.ofNat v.eyeIndex)]
      | _ => []
    (useOps ++ lightOps ++ monoOps,
     { st with program := some prog,
               usedPrograms := if st.usedPrograms.contains prog.id then st.usedPrograms
                 else prog.id :: st.usedPrograms })
  else ([], st)

/-- The material-switch block of the primitive loop: when the material
object differs from the previous primitive's, diff-bind its state word and
bind its samplers/uniforms, returning the (possibly first-bind-trimmed)
material.  A throw inside `bind` keeps the needs-reset flags the state
diff already set (and the trimmed material on the primitive), but the
`material` local is only advanced on success — the assignment follows the
`bind` call in the source. -/
def materialSwitchStep (cfg : DrawCfg) (st : DrawLoopState) (mat : RenderMaterialM) :
    List GLOp × RenderMaterialM × DrawLoopState × Option String :=
  if (st.material.map (·.mid)) ≠ some mat.mid then
    let b := Renderer.bindMaterialState st.colorMaskNeedsReset st.depthMaskNeedsReset
      mat.state (st.material.map (·.state))
    let mb := RenderMaterial.bind cfg.textureCache mat
    let st' := { st with colorMaskNeedsReset := b.2.1, depthMaskNeedsReset := b.2.2 }
    (b.1 ++ mb.2.1, mb.1,
     (match mb.2.2 with
      | some _ => st'
      | none => { st' with material := some mb.1 }),
     mb.2.2)
  else ([], st.material.getD mat, st, none)

/-- The geometry-binding block of the primitive loop: through the cached
vertex-array object when the extension is present (creating it on first
use), else via the attribute-mask fallback pass. -/
def vaoBindStep (cfg : DrawCfg) (st : DrawLoopState) (p : RenderPrimitiveM) :
    List GLOp × RenderPrimitiveM × DrawLoopState :=
  if cfg.vaoExt then
    match p.vao with
    | some v => ([GLOp.bindVertexArray (some v)], p, st)
    | none =>
      let v := st.nextVao
      ([GLOp.createVertexArray v, GLOp.bindVertexArray (some v)] ++
         Renderer.bindPrimitiveOps cfg.bufferStore p none,
       { p with vao := some v }, { st with nextVao := v + 1 })
  else
    (Renderer.bindPrimitiveOps cfg.bufferStore p (some st.attribMask), p,
     { st with attribMask := p.attributeMask })

/-- The body of the per-view loop over the (index, view) pairs still to
process: the view header — which may throw, ending the loop (and frame)
with the header's partial trace — then the instance draws, then the next
view. -/
def viewLoopBody (cfg : DrawCfg) (views : List RenderViewM)
    (depthData : Option (List DepthDataM)) (samplerCount : Nat)
    (p : RenderPrimitiveM) : List (Nat × RenderViewM) → List GLOp × Option String
  | [] => ([], none)
  | iv :: rest =>
    let h := viewHeaderOps cfg.multiview views cfg.cameraPositions depthData samplerCount
      iv.1 iv.2
    match h.2 with
    | some e => (h.1, some e)
    | none =>
      let t := viewLoopBody cfg views depthData samplerCount p rest
      (h.1 ++ instanceDrawOps cfg.frameId p ++ t.1, t.2)

/-- The per-view loop of the primitive body: per processed view (only the
first when multiview is active — the source `break`s), the view header
followed by the instance draws. -/
def viewLoopOps (cfg : DrawCfg) (views : List RenderViewM)
    (depthData : Option (List DepthDataM)) (samplerCount : Nat)
    (p : RenderPrimitiveM) : List GLOp × Option String :=
  let viewsProcessed := if cfg.multiview then views.take 1 else views
  viewLoopBody cfg views depthData samplerCount p viewsProcessed.enum

/-- Does every sampler of the list carry a resolvable render texture in
this cache?  Exactly the condition under which the sampler loop of
`RenderMaterial.bind` cannot throw. -/
def samplersResolve (cache : List (String × RenderTextureM))
    (ss : List RenderMaterialSamplerM) : Bool :=
  ss.all (fun s => (s.renderTextureKey.bind (fun k => cache.lookup k)).isSome)

/-- Is the depth payload free of the legacy-override hazard?  True unless
`depthData[0].projectionMatrix` is set while `depthData[1]` is missing or
lacks a `projectionMatrix` — exactly the condition under which
`depthOverrideOps` (hence the first view's header) cannot throw. -/
def depthOverridesSafe : Option (List DepthDataM) → Bool
  | none => true
  | some [] => true
  | some (d0 :: rest) =>
    match d0.projectionMatrix with
    | none => true
    | some _ =>
      match rest with
      | [] => false
      | d1 :: _ => d1.projectionMatrix.isSome

/-- One iteration of the primitive loop of `_drawRenderPrimitiveSet`:
skip inactive primitives; rebind program only when it changed; rebind
material state and material only when the material object changed (a
throw inside `bind` aborts here — no geometry bind, no view loop); bind
geometry; then run the view loop, whose depth block may itself throw. -/
def drawPrimitiveStep (cfg : DrawCfg) (views : List RenderViewM)
    (depthData : Option (List DepthDataM)) (st : DrawLoopState) (p : RenderPrimitiveM) :
    DrawLoopState × RenderPrimitiveM × List GLOp × Option String :=
  if p.activeFrameId ≠ cfg.frameId then (st, p, [], none)
  else
    let ps := programSwitchStep cfg views st p.material.program
    let ms := materialSwitchStep cfg ps.2 p.material
    let p1 : RenderPrimitiveM := { p with material := ms.2.1 }
    match ms.2.2.2 with
    | some e => (ms.2.2.1, p1, ps.1 ++ ms.1, some e)
    | none =>
      let vs := vaoBindStep cfg ms.2.2.1 p1
      let vl := viewLoopOps cfg views depthData ms.2.1.samplers.length vs.2.1
      (vs.2.2, vs.2.1, ps.1 ++ ms.1 ++ vs.1 ++ vl.1, vl.2)

/-- The primitive loop of `_drawRenderPrimitiveSet` over one bucket's
primitive references, threading the loop state and the primitive store; a
throw in a primitive's body stops the loop there, keeping every mutation
made so far. -/
def drawPrimsLoop (cfg : DrawCfg) (views : List RenderViewM)
    (depthData : Option (List DepthDataM)) (store : List RenderPrimitiveM)
    (st : DrawLoopState) :
    List Nat → List RenderPrimitiveM × DrawLoopState × List GLOp × Option String
  | [] => (store, st, [], none)
  | pid :: rest =>
    match findPrim store pid with
    | none => drawPrimsLoop cfg views depthData store st rest
    | some p =>
      let (st', p', ops, err) := drawPrimitiveStep cfg views depthData st p
      let store' := updatePrim store pid (fun _ => p')
      match err with
      | some e => (store', st', ops, some e)
      | none =>
        let (store'', st'', ops', err') := drawPrimsLoop cfg views depthData store' st' rest
        (store'', st'', ops ++ ops', err')

/-- `_drawRenderPrimitiveSet(views, renderPrimitives)`: fresh local
`program`/`material`/`attribMask`, then the primitive loop; a throw
escapes with the renderer mutations made so far. -/
def Renderer.drawRenderPrimitiveSet (r : RendererM) (views : List RenderViewM)
    (pids : List Nat) (depthData : Option (List DepthDataM)) :
    RendererM × List GLOp × Option String :=
  let cfg : DrawCfg :=
    ⟨r.frameId, r.multiview, r.vaoExt, r.globalLightDir, r.globalLightColor,
     r.cameraPositions, r.textureCache, r.bufferStore⟩
  let st : DrawLoopState :=
    ⟨none, none, 0, r.usedPrograms, r.nextVao, r.colorMaskNeedsReset, r.depthMaskNeedsReset⟩
  let (store', st', ops, err) := drawPrimsLoop cfg views depthData r.primStore st pids
  ({ r with primStore := store', usedPrograms := st'.usedPrograms,
            nextVao := st'.nextVao,
            colorMaskNeedsReset := st'.colorMaskNeedsReset,
            depthMaskNeedsReset := st'.depthMaskNeedsReset }, ops, err)

/-- The camera-position write for view index `i`: grow the scratch array by
one entry when it is too short, then overwrite slot `i` in place. -/
def writeCameraPosition (cameraPositions : List Vec3) (i : Nat) (p : Vec3) : List Vec3 :=
  let grown :=
    if cameraPositions.length ≤ i then cameraPositions ++ [Vec3.zero] else cameraPositions
  grown.set i p

/-- The camera-position loop of `drawViews` from index `i` on: per view,
store `views[i].viewTransform.position` into the reusable scratch array
(the inverse-matrix extraction in the source is commented out). -/
def updateCameraPositionsFrom (cameraPositions : List Vec3) (i : Nat) :
    List RenderViewM → List Vec3
  | [] => cameraPositions
  | v :: rest =>
    updateCameraPositionsFrom
      (writeCameraPosition cameraPositions i v.viewTransform.position) (i + 1) rest

/-- The whole camera-position loop of `drawViews`. -/
def updateCameraPositions (cameraPositions : List Vec3) (views : List RenderViewM) :
    List Vec3 :=
  updateCameraPositionsFrom cameraPositions 0 views

/-- The `rootNode.markActive(frameId)` traversal: mark each reached
(primitive, instance) pair in traversal order. -/
def markNodes (frameId : Nat) (r : RendererM) : List (Nat × Nat) → RendererM × List GLOp
  | [] => (r, [])
  | mark :: rest =>
    let (r', ops) := markNode frameId r mark
    let (r'', ops') := markNodes frameId r' rest
    (r'', ops ++ ops')

/-- The bucket loop of `drawViews`: draw each non-empty bucket in array
order (array holes behave like empty buckets and are skipped); a throw in
one bucket's set skips every later bucket. -/
def drawBucketsLoop (views : List RenderViewM) (depthData : Option (List DepthDataM)) :
    RendererM → List (List Nat) → RendererM × List GLOp × Option String
  | r, [] => (r, [], none)
  | r, pids :: rest =>
    if pids.length ≠ 0 then
      let (r', ops, err) := Renderer.drawRenderPrimitiveSet r views pids depthData
      match err with
      | some e => (r', ops, some e)
      | none =>
        let (r'', ops', err') := drawBucketsLoop views depthData r' rest
        (r'', ops ++ ops', err')
    else drawBucketsLoop views depthData r rest

/-- The single-view viewport setup of `drawViews`: with exactly one view
carrying a viewport, set it once up front. -/
def singleViewportOps (views : List RenderViewM) : List GLOp :=
  match views with
  | [v] =>
    (match v.viewport with
     | some vp => [GLOp.viewportSet vp.x vp.y vp.width vp.height]
     | none => [])
  | _ => []

/-- The end-of-frame restores of `drawViews`: unbind the vertex array and
undo any depth/color mask left disabled by the last material. -/
def frameTailOps (r : RendererM) : List GLOp :=
  (if r.vaoExt then [GLOp.bindVertexArray none] else []) ++
  (if r.depthMaskNeedsReset then [GLOp.depthMaskSet true] else []) ++
  (if r.colorMaskNeedsReset then [GLOp.colorMaskSet true] else [])

/-- `drawViews(views, rootNode, depthData)`.  `rootNode` is modelled as the
list of (primitive, instance) pairs its `markActive` traversal reaches
(spec: the sole liveness propagation mechanism), or `none` for a null
root, which returns without even advancing the frame counter.  A throw
escaping the bucket loop skips the end-of-frame restores and propagates to
the caller, with every renderer mutation made so far kept. -/
def Renderer.drawViews (r : RendererM) (views : List RenderViewM)
    (rootNode : Option (List (Nat × Nat))) (depthData : Option (List DepthDataM)) :
    RendererM × List GLOp × Option String :=
  match rootNode with
  | none => (r, [], none)
  | some marks =>
    let r1 := { r with frameId := r.frameId + 1 }
    let frameId := r1.frameId
    let (r2, markOps) := markNodes frameId r1 marks
    let viewportOps := singleViewportOps views
    let r3 := { r2 with cameraPositions := updateCameraPositions r2.cameraPositions views }
    let (r4, drawOps, err) := drawBucketsLoop views depthData r3 r3.renderPrimitives
    let tailOps := if err.isNone then frameTailOps r4 else []
    (r4, markOps ++ viewportOps ++ drawOps ++ tailOps, err)

/-! ## The host event loop

The single-threaded cooperative model: frames and deferred completions
(buffer uploads, texture decodes, primitive completion continuations) run
interleaved in any order the host schedules. -/

inductive HostEvent where
  | resolveBuffer (bid byteLength : Nat)
  | resolveTexture (key : String)
  | runCompletion (pid : Nat)
  | frame (views : List RenderViewM) (rootNode : Option (List (Nat × Nat)))
      (depthData : Option (List DepthDataM))
deriving DecidableEq

/-- Are all buffers a primitive references populated?  (Readiness is
monotone, so this is equivalent to the source's `Promise.all` over the
buffers pending when `waitForComplete` first ran.) -/
def allBuffersReady (store : List RenderBufferM) (p : RenderPrimitiveM) : Bool :=
  p.attributeBuffers.all (fun ab => bufferReadyIn store ab.1) &&
  (match p.indexBuffer with
   | some bid => bufferReadyIn store bid
   | none => true)

/-- One host-scheduled step. `resolveBuffer` is the buffer-population
promise continuation of `createRenderBuffer`; `resolveTexture` is the
texture's `waitForComplete` continuation in `_getRenderTexture` (video
textures additionally gain their per-frame refresh callback);
`runCompletion` is the `Promise.all` continuation of
`RenderPrimitive.waitForComplete`, which may fire only once every
referenced buffer is populated; `frame` is a `drawViews` call, whose
thrown exception (if any) the host's animation-frame boundary swallows —
the mutations and the truncated trace are kept, and later events still
run. -/
def Renderer.step (r : RendererM) : HostEvent → RendererM × List GLOp
  | .resolveBuffer bid len =>
    match r.bufferStore.find? (fun b => b.bid == bid) with
    | none => (r, [])
    | some b =>
      if b.ready then (r, [])
      else
        ({ r with bufferStore := r.bufferStore.map (fun b' =>
             if b'.bid == bid then { b' with ready := true, byteLength := len } else b') },
         [GLOp.bindBuffer b.target (some bid), GLOp.bufferData b.target len])
  | .resolveTexture key =>
    match r.pendingTextures.lookup key with
    | none => (r, [])
    | some t =>
      match r.textureCache.lookup key with
      | none => (r, [])
      | some rt =>
        let isVideo := t.kind == TextureKind.video
        ({ r with textureCache := updateTexture r.textureCache key (fun rt' =>
             { rt' with complete := true, hasActiveCallback := isVideo }),
                  pendingTextures := r.pendingTextures.filter (fun e => e.1 ≠ key) },
         [GLOp.bindTexture GL_TEXTURE_2D (some rt.texture),
          GLOp.texImage2D GL_TEXTURE_2D rt.texture] ++ Renderer.setSamplerParameters t)
  | .runCompletion pid =>
    match findPrim r.primStore pid with
    | none => (r, [])
    | some p =>
      if p.promiseStarted && allBuffersReady r.bufferStore p then
        ({ r with primStore := updatePrim r.primStore pid (fun p' =>
             { p' with complete := true }) }, [])
      else (r, [])
  | .frame views rootNode depthData =>
    let t := Renderer.drawViews r views rootNode depthData
    (t.1, t.2.1)

/-- Run a host schedule, concatenating the GL traces of its steps. -/
def Renderer.runEvents (r : RendererM) : List HostEvent → RendererM × List GLOp
  | [] => (r, [])
  | e :: rest =>
    let (r', ops) := Renderer.step r e
    let (r'', ops') := Renderer.runEvents r' rest
    (r'', ops ++ ops')

/-! ## Scene setup sequences -/

/-- A resource-creation call the external scene graph makes before/between
frames: buffer creation, primitive creation (`createRenderPrimitive`), or
attaching a node as a draw instance. -/
inductive SetupOp where
  | mkBuffer (target : Nat) (dataAsync : Bool) (byteLength : Nat)
  | mkPrimitive (desc : PrimitiveDescM) (material : MaterialM)
  | mkInstance (pid : Nat) (worldMatrix : Mat4)
deriving DecidableEq

def Renderer.applySetup (r : RendererM) : SetupOp → RendererM
  | .mkBuffer target dataAsync len => (Renderer.createRenderBuffer r target dataAsync len).2.1
  | .mkPrimitive desc material => (Renderer.createRenderPrimitive r desc material).2.1
  | .mkInstance pid m => Renderer.addInstance r pid m

/-- A renderer reached from a fresh context by a sequence of scene-graph
creation calls. -/
def mkRenderer (g : GLContextM) (multiview multisampledMultiview useDepth : Bool)
    (setup : List SetupOp) : RendererM :=
  setup.foldl Renderer.applySetup (Renderer.init g multiview multisampledMultiview useDepth)

/-! ## Miscellaneous helpers for stating properties -/

/-- Did this `Except` result carry a thrown exception? -/
def isErrE {ε α : Type} : Except ε α → Bool
  | .error _ => true
  | .ok _ => false

/-- Is this op an upload of any 4×4 matrix uniform? -/
def GLOp.isM4 : GLOp → Bool
  | .uniformM4 .. => true
  | _ => false

/-- Total draw-call count for one primitive id across a trace. -/
def countPidIn (buckets : List (List Nat)) (pid : Nat) : Nat :=
  (buckets.map (fun b => b.count pid)).sum

/-! ## Concrete instances used by counterexamples and witnesses -/

/-- A minimal GL context for concrete runs. -/
def testCtx : GLContextM := ⟨false, true, 1, []⟩

/-- A data texture of width 0 and (non-power-of-two) height 3 with no
sampler overrides and mipmapping requested. -/
def texZeroByThree : TextureDescM :=
  { textureKey := some "tex0x3", kind := .data, width := 0, height := 3,
    mipmap := true, format := 0x1908, sampler := ⟨none, none, none, none⟩ }

/-- A 0×0 data texture with no sampler overrides and mipmapping requested. -/
def texZeroZero : TextureDescM :=
  { texZeroByThree with textureKey := some "tex0x0", height := 0 }

/-- A data texture with a usable key. -/
def texKeyed : TextureDescM :=
  { textureKey := some "shared-key", kind := .data, width := 2, height := 2,
    mipmap := false, format := 0x1908, sampler := ⟨none, none, none, none⟩ }

def definesAB : List (String × String) := [("A", "1"), ("B", "2")]

def definesBA : List (String × String) := [("B", "2"), ("A", "1")]

/-- A complete material whose defines dictionary was populated A-then-B. -/
def matDefinesAB : MaterialM :=
  { materialName := some "m", vertexSource := some "v", fragmentSource := some "f",
    defines := definesAB, samplers := [], uniforms := [],
    state := 0, renderOrder := RENDER_ORDER.DEFAULT }

/-- The same define set populated B-then-A. -/
def matDefinesBA : MaterialM := { matDefinesAB with defines := definesBA }

/-- Translation by (1, 2, 3). -/
def translate123 : Mat4 := { Mat4.id with m03 := 1, m13 := 2, m23 := 3 }

/-- Translation by (-1, -2, -3): the inverse of `translate123`. -/
def translateNeg123 : Mat4 := { Mat4.id with m03 := -1, m13 := -2, m23 := -3 }

/-- The rigid transform translating by (1, 2, 3). -/
def rigid123 : XRRigidTransformM := ⟨⟨1, 2, 3⟩, translate123, translateNeg123⟩

/-- The program id carried by a successful resolution. -/
def programIdE : Except String ProgramM → Option Nat
  | .ok p => some p.id
  | .error _ => none

/-- The renderer cache state after resolving `matDefinesAB` once. -/
def cacheAB : RendererM :=
  (Renderer.getMaterialProgram (Renderer.init testCtx false false false) matDefinesAB).2

/-- The program `matDefinesAB` resolves to from a fresh renderer. -/
def progAB : ProgramM :=
  ⟨0, "m:A=1,B=2,", false, false, [], []⟩

/-- The first resolution of `texKeyed` from a fresh renderer. -/
def texResolve1 :
    Except String (Option RenderTextureM) × RendererM × List GLOp :=
  Renderer.getRenderTexture (Renderer.init testCtx false false false) (some texKeyed)

/-- The `RenderTexture` that first resolution creates. -/
def rtKeyed : RenderTextureM := ⟨0, true, 0, false, false, false⟩

/-- A two-view hardware-multiview draw configuration in frame 1. -/
def mvCfg : DrawCfg := ⟨1, true, true, DEF_LIGHT_DIR, DEF_LIGHT_COLOR, [], [], []⟩

/-- A left identity view. -/
def mvView0 : RenderViewM := ⟨Mat4.id, none, "left", 0, Mat4.id, XRRigidTransformM.identityT⟩

/-- A right identity view. -/
def mvView1 : RenderViewM := ⟨Mat4.id, none, "right", 1, Mat4.id, XRRigidTransformM.identityT⟩

/-- A multiview-compiled program with no declared light uniforms. -/
def mvProg : ProgramM := ⟨1, "m:", true, false, [], []⟩

/-- An opaque render material using `mvProg`, already bound once. -/
def mvMat : RenderMaterialM := ⟨1, mvProg, 0x1D, RENDER_ORDER.OPAQUE, [], [], false, 1, true⟩

/-- The fresh per-bucket loop state. -/
def mvSt : DrawLoopState := ⟨none, none, 0, [], 0, false, false⟩

/-- A complete primitive, active in frame 1, with one active instance. -/
def mvPrim : RenderPrimitiveM :=
  ⟨5, 1, [⟨7, 1, Mat4.id⟩], mvMat, 4, 3, [], 0, none, 0, 0, some 0, true, true⟩

/-- A minimal default-order opaque material (no blend bit). -/
def c1Mat : MaterialM :=
  { materialName := some "m", vertexSource := some "v", fragmentSource := some "f",
    defines := [], samplers := [], uniforms := [], state := 0,
    renderOrder := RENDER_ORDER.DEFAULT }

/-- A minimal non-indexed triangle-list descriptor with no attributes. -/
def c1Desc : PrimitiveDescM := ⟨4, 3, [], none, 0, 0⟩

/-- A fresh renderer for creation runs. -/
def c1R0 : RendererM := Renderer.init testCtx false false false

/-- A renderer whose opaque bucket holds primitive 0 and whose transparent
bucket holds primitive 1. -/
def c1R2 : RendererM :=
  { Renderer.init testCtx false false false with
      renderPrimitives := [[0], [], [1], []] }

/-- The starved-primitive invariant: buffer `bid0` is still unpopulated,
and the primitive `pid0` sits in the store incomplete, with its activity
stamp frozen at `a0` (a past frame) and its buffer references unchanged. -/
def StarvedInvAt (pid0 bid0 a0 : Nat) (ab0 : List (Nat × List AttributeRecM))
    (ib0 : Option Nat) (r : RendererM) : Prop :=
  bufferReadyIn r.bufferStore bid0 = false ∧
  a0 ≤ r.frameId ∧
  ∃ p, findPrim r.primStore pid0 = some p ∧ p.complete = false ∧
    p.activeFrameId = a0 ∧ p.attributeBuffers = ab0 ∧ p.indexBuffer = ib0

/-- A buffer whose asynchronous population never arrives. -/
def c6Buf : RenderBufferM := ⟨0, GL_ARRAY_BUFFER, GL_STATIC_DRAW, false, 0⟩

/-- An incomplete primitive referencing the unpopulated buffer 0, with one
instance attached. -/
def c6Prim : RenderPrimitiveM :=
  ⟨0, 0, [⟨0, 0, Mat4.id⟩], mvMat, 4, 3, [(0, [])], 0, none, 0, 0, none, false, true⟩

/-- A renderer holding the starved primitive in its opaque bucket. -/
def c6R : RendererM :=
  { Renderer.init testCtx false false false with
      renderPrimitives := [[0], [], [], []],
      primStore := [c6Prim],
      bufferStore := [c6Buf] }

/-- A host schedule that retries completion and draws two frames but never
populates buffer 0. -/
def c6Events : List HostEvent :=
  [HostEvent.runCompletion 0,
   HostEvent.frame [] (some [(0, 0)]) none,
   HostEvent.runCompletion 0,
   HostEvent.frame [] (some [(0, 0)]) none]

/-! # Theorems -/

/-! ## Matrix algebra -/

theorem Mat4.mul_assoc (a b c : Mat4) :
    Mat4.mul (Mat4.mul a b) c = Mat4.mul a (Mat4.mul b c) := by
  simp only [Mat4.mul]
  congr 1 <;> ring

theorem Mat4.id_mul (a : Mat4) : Mat4.mul Mat4.id a = a := by
  simp only [Mat4.mul, Mat4.id]
  cases a
  congr 1 <;> ring

theorem Mat4.mul_id (a : Mat4) : Mat4.mul a Mat4.id = a := by
  simp only [Mat4.mul, Mat4.id]
  cases a
  congr 1 <;> ring

/-- A two-sided inverse is unique: any right factor producing the identity
against a left-invertible matrix is that matrix's left inverse. -/
theorem Mat4.inverse_unique {m minv n : Mat4}
    (h₁ : Mat4.mul m minv = Mat4.id) (h₂ : Mat4.mul minv n = Mat4.id) :
    n = m := by
  calc n = Mat4.mul Mat4.id n := (Mat4.id_mul n).symm
    _ = Mat4.mul (Mat4.mul m minv) n := by rw [h₁]
    _ = Mat4.mul m (Mat4.mul minv n) := Mat4.mul_assoc m minv n
    _ = Mat4.mul m Mat4.id := by rw [h₂]
    _ = m := Mat4.mul_id m

/-! ## C10 -/

/-- C10: constructing a `Renderer` with a null/undefined `gl` always throws
(the fallback context assigned to `this._gl` is never consulted, so the
result does not depend on it), and the constructor completes exactly when a
caller-supplied context is present. -/
theorem renderer_construct_null_gl_throws
    (fb₁ fb₂ : Option GLContextM) (gl : Option GLContextM) (mv mm ud : Bool) :
    Renderer.construct fb₁ none mv mm ud
        = .error "TypeError: gl is null (reading gl.getExtension)" ∧
    Renderer.construct fb₁ none mv mm ud = Renderer.construct fb₂ none mv mm ud ∧
    (isErrE (Renderer.construct fb₁ gl mv mm ud) = false ↔ gl.isSome = true) := by
  refine ⟨rfl, rfl, ?_⟩
  cases gl <;> simp [Renderer.construct, isErrE]

/-! ## C9 -/

/-- C9 counterexample: `isPowerOfTwo 0 = true`, yet a texture of width 0
and height 3 — a texture "whose width or height is 0" — is *not* classified
power-of-two by `_setSamplerParameters`: it receives the `CLAMP_TO_EDGE`
non-mipmapped fallback, not `REPEAT` wraps or mipmap generation, because
the classification requires *both* dimensions to pass `isPowerOfTwo`. -/
theorem setSamplerParameters_zero_width_cex :
    isPowerOfTwo 0 = true ∧ isPowerOfTwo 3 = false ∧
    Renderer.setSamplerParameters texZeroByThree =
      [GLOp.texParameteri GL_TEXTURE_MAG_FILTER GL_LINEAR,
       GLOp.texParameteri GL_TEXTURE_MIN_FILTER GL_LINEAR,
       GLOp.texParameteri GL_TEXTURE_WRAP_S GL_CLAMP_TO_EDGE,
       GLOp.texParameteri GL_TEXTURE_WRAP_T GL_CLAMP_TO_EDGE] ∧
    GLOp.texParameteri GL_TEXTURE_WRAP_S GL_REPEAT
        ∉ Renderer.setSamplerParameters texZeroByThree ∧
    GLOp.generateMipmap GL_TEXTURE_2D ∉ Renderer.setSamplerParameters texZeroByThree := by
  refine ⟨rfl, rfl, by decide, by decide, by decide⟩

/-- C9 (amended): `isPowerOfTwo` returns true on 0, so a texture with a
zero dimension is classified power-of-two by `_setSamplerParameters`
provided its other dimension also passes `isPowerOfTwo` (e.g. a 0×0
texture); with no explicit sampler overrides and mipmapping requested it
then receives mipmap generation, `LINEAR_MIPMAP_LINEAR` min filtering and
`REPEAT` wrap modes instead of the `CLAMP_TO_EDGE` fallback. -/
theorem setSamplerParameters_zero_dims_pow2 (t : TextureDescM)
    (hzero : t.width = 0 ∨ t.height = 0)
    (hpw : isPowerOfTwo t.width = true) (hph : isPowerOfTwo t.height = true)
    (hmip : t.mipmap = true)
    (hs : t.sampler = ⟨none, none, none, none⟩) :
    isPowerOfTwo 0 = true ∧
    Renderer.setSamplerParameters t =
      [GLOp.generateMipmap GL_TEXTURE_2D,
       GLOp.texParameteri GL_TEXTURE_MAG_FILTER GL_LINEAR,
       GLOp.texParameteri GL_TEXTURE_MIN_FILTER GL_LINEAR_MIPMAP_LINEAR,
       GLOp.texParameteri GL_TEXTURE_WRAP_S GL_REPEAT,
       GLOp.texParameteri GL_TEXTURE_WRAP_T GL_REPEAT] := by
  refine ⟨rfl, ?_⟩
  simp [Renderer.setSamplerParameters, hpw, hph, hmip, hs]

theorem setSamplerParameters_zero_dims_pow2_witness :
    (texZeroZero.width = 0 ∨ texZeroZero.height = 0) ∧
    isPowerOfTwo texZeroZero.width = true ∧
    Renderer.setSamplerParameters texZeroZero =
      [GLOp.generateMipmap GL_TEXTURE_2D,
       GLOp.texParameteri GL_TEXTURE_MAG_FILTER GL_LINEAR,
       GLOp.texParameteri GL_TEXTURE_MIN_FILTER GL_LINEAR_MIPMAP_LINEAR,
       GLOp.texParameteri GL_TEXTURE_WRAP_S GL_REPEAT,
       GLOp.texParameteri GL_TEXTURE_WRAP_T GL_REPEAT] :=
  ⟨by decide,
   by decide,
   (setSamplerParameters_zero_dims_pow2 texZeroZero (by decide) (by decide)
      (by decide) (by decide) (by decide)).2⟩

/-! ## C2 -/

/-- C2 counterexample: two define dictionaries holding exactly the same
`define=value` pairs but populated in different orders produce *different*
cache keys — `_getProgramKey` concatenates pairs in enumeration (insertion)
order and performs no sorting — and resolving the same material name with
the two dictionaries from a fresh renderer compiles two distinct programs
(cache ends with two entries) instead of sharing one. -/
theorem getProgramKey_order_dependent_cex :
    definesAB.Perm definesBA ∧
    Renderer.getProgramKey "m" definesAB ≠ Renderer.getProgramKey "m" definesBA ∧
    (programIdE (Renderer.getMaterialProgram
        (Renderer.init testCtx false false false) matDefinesAB).1 = some 0 ∧
     programIdE (Renderer.getMaterialProgram cacheAB matDefinesBA).1 = some 1 ∧
     (Renderer.getMaterialProgram cacheAB matDefinesBA).2.programCache.length = 2) := by
  refine ⟨List.Perm.swap ("B", "2") ("A", "1") [], by decide, by decide, by decide, by decide⟩

/-- C2 (amended): for one material name and two define dictionaries holding
the same `define=value` pairs in the same enumeration order, the cache key
agrees, so once the first material has resolved, resolving the second
returns the very same compiled program and leaves the renderer unchanged
(one shared program, no second compile). -/
theorem getMaterialProgram_same_defines_shared
    (r r₁ : RendererM) (m₁ m₂ : MaterialM) (p : ProgramM)
    (hname : m₂.materialName = m₁.materialName)
    (hdef : m₂.defines = m₁.defines)
    (hv₂ : m₂.vertexSource.isSome = true) (hf₂ : m₂.fragmentSource.isSome = true)
    (h₁ : Renderer.getMaterialProgram r m₁ = (.ok p, r₁)) :
    Renderer.getMaterialProgram r₁ m₂ = (.ok p, r₁) := by
  rcases hn : m₁.materialName with _ | name
  · simp [Renderer.getMaterialProgram, hn] at h₁
  rcases hv : m₁.vertexSource with _ | vs
  · simp [Renderer.getMaterialProgram, hn, hv] at h₁
  rcases hf : m₁.fragmentSource with _ | fs
  · simp [Renderer.getMaterialProgram, hn, hv, hf] at h₁
  simp only [Renderer.getMaterialProgram, hn, hv, hf] at h₁
  rcases hv₂' : m₂.vertexSource with _ | vs₂
  · rw [hv₂'] at hv₂; simp at hv₂
  rcases hf₂' : m₂.fragmentSource with _ | fs₂
  · rw [hf₂'] at hf₂; simp at hf₂
  have hkey : r₁.programCache.lookup (Renderer.getProgramKey name m₁.defines) = some p := by
    rcases hc : r.programCache.lookup (Renderer.getProgramKey name m₁.defines) with _ | q
    · simp only [hc] at h₁
      rw [Prod.mk.injEq] at h₁
      obtain ⟨hp, hr⟩ := h₁
      rw [Except.ok.injEq] at hp
      rw [← hr]
      simp [List.lookup_append, hc, ← hp]
    · simp only [hc] at h₁
      rw [Prod.mk.injEq] at h₁
      obtain ⟨hp, hr⟩ := h₁
      rw [Except.ok.injEq] at hp
      rw [← hr, hc, ← hp]
  simp only [Renderer.getMaterialProgram, hname, hn, hv₂', hf₂', hdef, hkey]

theorem getMaterialProgram_same_defines_shared_witness :
    Renderer.getMaterialProgram cacheAB matDefinesAB = (.ok progAB, cacheAB) :=
  getMaterialProgram_same_defines_shared
    (Renderer.init testCtx false false false) cacheAB matDefinesAB matDefinesAB progAB
    rfl rfl (by decide) (by decide) rfl

/-! ## C5 -/

/-- C5: two texture descriptors with the same `textureKey` resolve to the
same `RenderTexture` (hence the same GL texture handle): once the first has
resolved, resolving the second returns the first's cache entry unchanged,
mutates nothing, and issues no GL call at all — no allocation, no upload,
no sampler-parameter call. -/
theorem getRenderTexture_cache_hit_shared
    (r r₁ : RendererM) (t₁ t₂ : TextureDescM)
    (rt? : Option RenderTextureM) (ops₁ : List GLOp)
    (hkey : t₂.textureKey = t₁.textureKey)
    (h₁ : Renderer.getRenderTexture r (some t₁) = (.ok rt?, r₁, ops₁)) :
    ∃ rt, rt? = some rt ∧
      Renderer.getRenderTexture r₁ (some t₂) = (.ok (some rt), r₁, []) := by
  rcases hfal : jsFalsyKey t₁.textureKey with _ | _
  case true =>
    simp [Renderer.getRenderTexture, hfal] at h₁
  rw [Renderer.getRenderTexture] at h₁
  rw [if_neg (by simp [hfal])] at h₁
  have hfal₂ : jsFalsyKey t₂.textureKey = false := by rw [hkey]; exact hfal
  have hgoal : ∀ rtv, r₁.textureCache.lookup (t₁.textureKey.getD "") = some rtv →
      rt? = some rtv →
      ∃ rt, rt? = some rt ∧
        Renderer.getRenderTexture r₁ (some t₂) = (.ok (some rt), r₁, []) := by
    intro rtv hlook hrt
    refine ⟨rtv, hrt, ?_⟩
    rw [Renderer.getRenderTexture]
    rw [if_neg (by simp [hfal₂])]
    rw [hkey]
    simp only [hlook]
  rcases hc : r.textureCache.lookup (t₁.textureKey.getD "") with _ | rtv
  · rcases hk : t₁.kind
    all_goals
      simp only [hc, hk] at h₁
      rw [Prod.mk.injEq, Prod.mk.injEq] at h₁
      obtain ⟨ha, hb, _⟩ := h₁
      rw [Except.ok.injEq] at ha
      refine hgoal _ ?_ ha.symm
      rw [← hb]
      simp [List.lookup_append, hc]
  · simp only [hc] at h₁
    rw [Prod.mk.injEq, Prod.mk.injEq] at h₁
    obtain ⟨ha, hb, _⟩ := h₁
    rw [Except.ok.injEq] at ha
    refine hgoal rtv ?_ ha.symm
    rw [← hb]
    exact hc

theorem getRenderTexture_cache_hit_shared_witness :
    ∃ rt, some rtKeyed = some rt ∧
      Renderer.getRenderTexture texResolve1.2.1 (some texKeyed) =
        (.ok (some rt), texResolve1.2.1, []) :=
  getRenderTexture_cache_hit_shared (Renderer.init testCtx false false false)
    texResolve1.2.1 texKeyed texKeyed (some rtKeyed) texResolve1.2.2 rfl rfl

/-! ## C4 -/

theorem getMaterialProgram_isErr_iff (r : RendererM) (m : MaterialM) :
    isErrE (Renderer.getMaterialProgram r m).1 = true ↔
      (m.materialName = none ∨ m.vertexSource = none ∨ m.fragmentSource = none) := by
  rcases hn : m.materialName with _ | name
  · simp [Renderer.getMaterialProgram, hn, isErrE]
  rcases hv : m.vertexSource with _ | vs
  · simp [Renderer.getMaterialProgram, hn, hv, isErrE]
  rcases hf : m.fragmentSource with _ | fs
  · simp [Renderer.getMaterialProgram, hn, hv, hf, isErrE]
  rcases hl : r.programCache.lookup (Renderer.getProgramKey name m.defines) with _ | q <;>
    simp [Renderer.getMaterialProgram, hn, hv, hf, hl, isErrE]

theorem getRenderTexture_isErr_iff (r : RendererM) (t : TextureDescM) :
    isErrE (Renderer.getRenderTexture r (some t)).1 = true ↔
      jsFalsyKey t.textureKey = true := by
  rcases hfal : jsFalsyKey t.textureKey with _ | _
  · rcases hl : r.textureCache.lookup (t.textureKey.getD "") with _ | rt
    · rcases hk : t.kind <;>
        simp [Renderer.getRenderTexture, hfal, hl, hk, isErrE]
    · simp [Renderer.getRenderTexture, hfal, hl, isErrE]
  · simp [Renderer.getRenderTexture, hfal, isErrE]

theorem makeSamplers_isErr_iff (ss : List MaterialSamplerDescM) (r : RendererM) (i : Nat) :
    isErrE (RenderMaterial.makeSamplers r ss i).1 = true ↔
      ∃ s ∈ ss, ∃ td, s.texture = some td ∧ jsFalsyKey td.textureKey = true := by
  induction ss generalizing r i with
  | nil => simp [RenderMaterial.makeSamplers, isErrE]
  | cons s rest ih =>
    rcases hg : Renderer.getRenderTexture r s.texture with ⟨e | rt?, r', ops⟩
    · have herr : ∃ td, s.texture = some td ∧ jsFalsyKey td.textureKey = true := by
        rcases ht : s.texture with _ | td
        · rw [ht] at hg
          simp [Renderer.getRenderTexture] at hg
        · refine ⟨td, rfl, ?_⟩
          have h := getRenderTexture_isErr_iff r td
          rw [← ht, hg] at h
          simpa [isErrE] using h.mp rfl
      simp only [RenderMaterial.makeSamplers, hg]
      simp only [isErrE, true_iff]
      exact ⟨s, List.mem_cons_self s rest, herr⟩
    · have hok : ∀ td, s.texture = some td → jsFalsyKey td.textureKey = false := by
        intro td ht
        have h := getRenderTexture_isErr_iff r td
        rw [← ht, hg] at h
        rcases hfal : jsFalsyKey td.textureKey with _ | _
        · rfl
        · exact absurd (h.mpr hfal) (by simp [isErrE])
      simp only [RenderMaterial.makeSamplers, hg]
      rcases hrec : RenderMaterial.makeSamplers r' rest (i + 1) with ⟨res, r'', ops'⟩
      have hih := ih r' (i + 1)
      rw [hrec] at hih
      cases res with
      | error e' =>
        simp only [isErrE] at hih ⊢
        constructor
        · intro _
          obtain ⟨s', hs', td, htd, hfal⟩ := hih.mp trivial
          exact ⟨s', List.mem_cons_of_mem _ hs', td, htd, hfal⟩
        · intro _
          trivial
      | ok tail =>
        simp only [isErrE] at hih ⊢
        constructor
        · intro h
          exact absurd h (by simp)
        · rintro ⟨s', hs', td, htd, hfal⟩
          rcases List.mem_cons.mp hs' with heq | hs'
          · rw [heq] at htd
            rw [hok td htd] at hfal
            exact absurd hfal (by simp)
          · exact absurd (hih.mpr ⟨s', hs', td, htd, hfal⟩) (by simp)

theorem make_isErr_iff (r : RendererM) (m : MaterialM) (prog : ProgramM) :
    isErrE (RenderMaterial.make r m prog).1 = true ↔
      ∃ s ∈ m.samplers, ∃ td, s.texture = some td ∧ jsFalsyKey td.textureKey = true := by
  have h := makeSamplers_isErr_iff m.samplers r 0
  rcases hs : RenderMaterial.makeSamplers r m.samplers 0 with ⟨res, r', ops⟩
  rw [hs] at h
  cases res <;> simp only [RenderMaterial.make, hs, isErrE] at h ⊢ <;> exact h

theorem createRenderPrimitive_isErr_iff (r : RendererM) (desc : PrimitiveDescM)
    (m : MaterialM) :
    isErrE (Renderer.createRenderPrimitive r desc m).1 = true ↔
      (m.materialName = none ∨ m.vertexSource = none ∨ m.fragmentSource = none
        ∨ ∃ s ∈ m.samplers, ∃ td, s.texture = some td ∧ jsFalsyKey td.textureKey = true) := by
  rcases hp : Renderer.getMaterialProgram r m with ⟨pe | prog, r'⟩
  · have h1 := getMaterialProgram_isErr_iff r m
    rw [hp] at h1
    simp only [isErrE] at h1
    simp only [Renderer.createRenderPrimitive, hp, isErrE]
    constructor
    · intro _
      rcases h1.mp trivial with a | b | c
      · exact .inl a
      · exact .inr (.inl b)
      · exact .inr (.inr (.inl c))
    · intro _
      trivial
  · have h1 := getMaterialProgram_isErr_iff r m
    rw [hp] at h1
    simp only [isErrE] at h1
    have hnone : ¬(m.materialName = none ∨ m.vertexSource = none ∨ m.fragmentSource = none) := by
      intro hc
      exact absurd (h1.mpr hc) (by simp)
    have h2 := make_isErr_iff r' m prog
    rcases hm : RenderMaterial.make r' m prog with ⟨res, r'', ops⟩
    rw [hm] at h2
    cases res with
    | error e =>
      simp only [isErrE] at h2
      simp only [Renderer.createRenderPrimitive, hp, hm, isErrE]
      constructor
      · intro _
        exact .inr (.inr (.inr (h2.mp trivial)))
      · intro _
        trivial
    | ok rm =>
      simp only [isErrE] at h2
      simp only [Renderer.createRenderPrimitive, hp, hm, isErrE]
      constructor
      · intro h
        exact absurd h (by simp)
      · rintro (a | b | c | d)
        · exact absurd (.inl a) hnone
        · exact absurd (.inr (.inl b)) hnone
        · exact absurd (.inr (.inr c)) hnone
        · exact absurd (h2.mpr d) (by simp)

/-- C4: identity errors are fatal at construction and surface immediately:
`_getMaterialProgram` throws exactly when the material's name, vertex
source or fragment source is null (and `createRenderPrimitive` propagates
this, additionally throwing exactly when a sampler's non-null texture
descriptor lacks a usable key, again via `_getRenderTexture`);
`_getRenderTexture` throws exactly when a non-null descriptor's
`textureKey` is falsy, and resolves a null descriptor to null without
error.  Each function is evaluated once per call — no retry exists. -/
theorem identity_errors_iff (r : RendererM) (desc : PrimitiveDescM) (m : MaterialM)
    (t : TextureDescM) :
    (isErrE (Renderer.getMaterialProgram r m).1 = true ↔
      (m.materialName = none ∨ m.vertexSource = none ∨ m.fragmentSource = none)) ∧
    (isErrE (Renderer.getRenderTexture r (some t)).1 = true ↔
      jsFalsyKey t.textureKey = true) ∧
    (Renderer.getRenderTexture r none = (.ok none, r, [])) ∧
    (isErrE (Renderer.createRenderPrimitive r desc m).1 = true ↔
      (m.materialName = none ∨ m.vertexSource = none ∨ m.fragmentSource = none
        ∨ ∃ s ∈ m.samplers, ∃ td, s.texture = some td ∧ jsFalsyKey td.textureKey = true)) :=
  ⟨getMaterialProgram_isErr_iff r m, getRenderTexture_isErr_iff r t, rfl,
   createRenderPrimitive_isErr_iff r desc m⟩

/-! ## C3 -/

theorem writeCameraPosition_length (camPos : List Vec3) (i : Nat) (p : Vec3)
    (h : i ≤ camPos.length) :
    (writeCameraPosition camPos i p).length = max camPos.length (i + 1) := by
  unfold writeCameraPosition
  by_cases hc : camPos.length ≤ i
  · rw [if_pos hc]
    simp only [List.length_set, List.length_append, List.length_cons, List.length_nil]
    omega
  · rw [if_neg hc]
    simp only [List.length_set]
    omega

theorem writeCameraPosition_getD_self (camPos : List Vec3) (i : Nat) (p : Vec3)
    (h : i ≤ camPos.length) :
    (writeCameraPosition camPos i p).getD i Vec3.zero = p := by
  unfold writeCameraPosition
  by_cases hc : camPos.length ≤ i
  · rw [if_pos hc]
    have hi : i < (camPos ++ [Vec3.zero]).length := by
      simp only [List.length_append, List.length_cons, List.length_nil]
      omega
    simp [List.getD_eq_getElem?_getD, List.getElem?_set_self hi]
  · rw [if_neg hc]
    have hi : i < camPos.length := by omega
    simp [List.getD_eq_getElem?_getD, List.getElem?_set_self hi]

theorem writeCameraPosition_getD_lt (camPos : List Vec3) (i m : Nat) (p : Vec3)
    (h : m < i) :
    (writeCameraPosition camPos i p).getD m Vec3.zero = camPos.getD m Vec3.zero := by
  unfold writeCameraPosition
  by_cases hc : camPos.length ≤ i
  · rw [if_pos hc]
    rw [List.getD_eq_getElem?_getD, List.getD_eq_getElem?_getD]
    rw [List.getElem?_set_ne (by omega)]
    by_cases hm : m < camPos.length
    · rw [List.getElem?_append_left hm]
    · rw [List.getElem?_append_right (by omega)]
      by_cases hm2 : m = camPos.length
      · subst hm2
        simp
      · rw [List.getElem?_eq_none (l := [Vec3.zero]) (by simp; omega),
            List.getElem?_eq_none (by omega)]
  · rw [if_neg hc]
    rw [List.getD_eq_getElem?_getD, List.getD_eq_getElem?_getD,
        List.getElem?_set_ne (by omega)]

theorem updateCameraPositionsFrom_getD_lt (views : List RenderViewM) :
    ∀ (camPos : List Vec3) (k m : Nat), m < k →
      (updateCameraPositionsFrom camPos k views).getD m Vec3.zero =
        camPos.getD m Vec3.zero := by
  induction views with
  | nil =>
    intro camPos k m _
    rfl
  | cons v rest ih =>
    intro camPos k m h
    rw [updateCameraPositionsFrom]
    rw [ih _ (k + 1) m (by omega)]
    exact writeCameraPosition_getD_lt camPos k m _ h

theorem updateCameraPositionsFrom_getD (views : List RenderViewM) :
    ∀ (camPos : List Vec3) (i : Nat), i ≤ camPos.length →
      ∀ j (hj : j < views.length),
        (updateCameraPositionsFrom camPos i views).getD (i + j) Vec3.zero =
          (views.get ⟨j, hj⟩).viewTransform.position := by
  induction views with
  | nil =>
    intro _ _ _ j hj
    exact absurd hj (by simp)
  | cons v rest ih =>
    intro camPos i hi j hj
    cases j with
    | zero =>
      rw [updateCameraPositionsFrom]
      simp only [Nat.add_zero]
      rw [updateCameraPositionsFrom_getD_lt rest _ (i + 1) i (by omega)]
      rw [writeCameraPosition_getD_self camPos i _ hi]
      rfl
    | succ j' =>
      rw [updateCameraPositionsFrom]
      have hlen : i + 1 ≤ (writeCameraPosition camPos i v.viewTransform.position).length := by
        rw [writeCameraPosition_length camPos i _ hi]
        omega
      have hrec := ih _ (i + 1) hlen j' (by simpa using hj)
      rw [show i + (j' + 1) = (i + 1) + j' by omega, hrec]
      rfl

theorem updateCameraPositionsFrom_length (views : List RenderViewM) :
    ∀ (camPos : List Vec3) (i : Nat), i ≤ camPos.length →
      (updateCameraPositionsFrom camPos i views).length
        = max camPos.length (i + views.length) := by
  induction views with
  | nil =>
    intro camPos i h
    simp only [updateCameraPositionsFrom, List.length_nil]
    omega
  | cons v rest ih =>
    intro camPos i h
    rw [updateCameraPositionsFrom]
    rw [ih _ (i + 1) (by rw [writeCameraPosition_length _ _ _ h]; omega)]
    rw [writeCameraPosition_length _ _ _ h]
    simp only [List.length_cons]
    omega

/-- C3 counterexample: a `RenderView` built from a raw `Float32Array` view
matrix (here: the translation by (1,2,3), whose two-sided inverse is the
translation by (-1,-2,-3)) stores the zero vector as its per-view camera
position — `drawViews` reads `viewTransform.position`, and the
`Float32Array` constructor path installs `new XRRigidTransform()` — so the
stored position is *not* the translation component of the inverse of the
view matrix. -/
theorem cameraPosition_floatArray_cex :
    Mat4.mul translate123 translateNeg123 = Mat4.id ∧
    Mat4.mul translateNeg123 translate123 = Mat4.id ∧
    (RenderView.make Mat4.id (.floatArray translate123)).viewMatrix = translate123 ∧
    updateCameraPositions [] [RenderView.make Mat4.id (.floatArray translate123)]
      = [Vec3.zero] ∧
    Mat4.translation translateNeg123 ≠ Vec3.zero := by
  refine ⟨by norm_num [Mat4.mul, translate123, translateNeg123, Mat4.id],
    by norm_num [Mat4.mul, translate123, translateNeg123, Mat4.id], rfl, rfl,
    by norm_num [Mat4.translation, translateNeg123, Mat4.id, Vec3.zero]⟩

/-- C3 (amended): the per-view scratch slot `_cameraPositions[i]` receives
`views[i].viewTransform.position`.  For a view constructed from a
rigid-transform-like object (whose matrix carries its position as
translation and is inverted by `inverse.matrix`), this equals the
translation component of the inverse of that view's view matrix; for a
view constructed from a raw `Float32Array`, it is the zero vector (the
identity transform's position) instead.  Once the scratch array has grown
to the view count it stops growing (reuse across frames). -/
theorem cameraPosition_rigid_inverse_translation
    (t : XRRigidTransformM) (proj : Mat4) (vp : Option ViewportM) (eye : String)
    (camPos : List Vec3) (views : List RenderViewM) (i : Nat) (minv : Mat4)
    (hi : i < views.length)
    (hv : views.get ⟨i, hi⟩ = RenderView.make proj (.rigid t) vp eye)
    (hpos : Mat4.translation t.matrix = t.position)
    (hinv : Mat4.mul t.matrix t.invMatrix = Mat4.id)
    (hminv : Mat4.mul (views.get ⟨i, hi⟩).viewMatrix minv = Mat4.id) :
    ((updateCameraPositions camPos views).getD i Vec3.zero = Mat4.translation minv) ∧
    (∀ (m proj' : Mat4) (vp' : Option ViewportM) (eye' : String),
      (RenderView.make proj' (.floatArray m) vp' eye').viewTransform.position
        = Vec3.zero) ∧
    (views.length ≤ camPos.length →
      (updateCameraPositions camPos views).length = camPos.length) := by
  refine ⟨?_, ?_, ?_⟩
  · have h1 := updateCameraPositionsFrom_getD views camPos 0 (by omega) i hi
    rw [Nat.zero_add] at h1
    rw [updateCameraPositions, h1, hv]
    have hvm : (views.get ⟨i, hi⟩).viewMatrix = t.invMatrix := by
      rw [hv]
      rfl
    rw [hvm] at hminv
    rw [Mat4.inverse_unique hinv hminv, hpos]
    rfl
  · intro m proj' vp' eye'
    rfl
  · intro hle
    rw [updateCameraPositions, updateCameraPositionsFrom_length views camPos 0 (by omega)]
    omega

theorem cameraPosition_rigid_inverse_translation_witness :
    (updateCameraPositions []
        [RenderView.make Mat4.id (.rigid rigid123) none "left"]).getD 0 Vec3.zero
      = Mat4.translation translate123 :=
  (cameraPosition_rigid_inverse_translation rigid123 Mat4.id none "left" []
    [RenderView.make Mat4.id (.rigid rigid123) none "left"] 0 translate123
    (by decide) rfl
    (by norm_num [Mat4.translation, translate123, rigid123, Mat4.id])
    (by norm_num [Mat4.mul, translate123, translateNeg123, rigid123, Mat4.id])
    (by norm_num [RenderView.make, Mat4.mul, translate123, translateNeg123, rigid123,
      Mat4.id])).1

/-! ## C7 -/

theorem complement32_testBit (s i : Nat) (h : i < 32) :
    (complement32 s).testBit i = !(s.testBit i) := by
  rw [complement32, Nat.testBit_xor, Nat.testBit_two_pow_sub_one]
  simp [h]

theorem and_two_pow_ite (s i : Nat) :
    s &&& 2 ^ i = if s.testBit i then 2 ^ i else 0 := by
  rw [Nat.and_two_pow]
  cases hb : s.testBit i <;> simp

theorem state_ne_complement (s : Nat) : s ≠ complement32 s := by
  intro h
  have h0 := congrArg (fun x => x.testBit 0) h
  simp only at h0
  rw [complement32_testBit s 0 (by norm_num)] at h0
  cases hb : s.testBit 0 <;> rw [hb] at h0 <;> simp at h0

theorem setCap_enable (g c pv sv : Nat) (hc : 0 < c) (hpv : pv &&& c = 0)
    (hsv : sv &&& c = c) : setCap g c pv sv = [GLOp.enable g] := by
  rw [setCap, hpv, hsv]
  rw [if_neg (by push_cast; omega), if_pos (by push_cast; omega)]

theorem setCap_disable (g c pv sv : Nat) (hc : 0 < c) (hpv : pv &&& c = c)
    (hsv : sv &&& c = 0) : setCap g c pv sv = [GLOp.disable g] := by
  rw [setCap, hpv, hsv]
  rw [if_neg (by push_cast; omega), if_neg (by push_cast; omega)]

theorem setCap_complement (g i s : Nat) (h : i < 32) :
    setCap g (2 ^ i) (complement32 s) s
      = [if s.testBit i then GLOp.enable g else GLOp.disable g] := by
  have h1 := and_two_pow_ite s i
  have h2 := and_two_pow_ite (complement32 s) i
  rw [complement32_testBit s i h] at h2
  have hp : 0 < 2 ^ i := Nat.pos_pow_of_pos i (by norm_num)
  cases hb : s.testBit i
  · rw [hb] at h1 h2
    simp only [Bool.not_false, if_true, if_false, ite_true, ite_false] at h1 h2
    rw [if_neg (by simp)]
    exact setCap_disable g (2 ^ i) _ _ hp h2 h1
  · rw [hb] at h1 h2
    simp only [Bool.not_true, if_true, if_false, ite_true, ite_false] at h1 h2
    rw [if_pos rfl]
    exact setCap_enable g (2 ^ i) _ _ hp h2 h1

theorem xor_masked_complement_ne (s mask j : Nat) (hj : j < 32)
    (hmask : mask.testBit j = true) :
    (complement32 s &&& mask) ^^^ (s &&& mask) ≠ 0 := by
  intro hcon
  have h0 := congrArg (fun x => x.testBit j) hcon
  simp only [Nat.testBit_xor, Nat.testBit_and, Nat.zero_testBit,
    complement32_testBit s j hj, hmask] at h0
  cases hb : s.testBit j <;> rw [hb] at h0 <;> simp at h0

theorem capsDiff_complement_ne (s : Nat) : capsDiff s (complement32 s) ≠ 0 := by
  rw [capsDiff]
  exact xor_masked_complement_ne s MAT_STATE.CAPS_RANGE 0 (by norm_num) (by decide)

theorem blendDiff_complement_ne (s : Nat) (hb : s.testBit 1 = true) :
    blendDiff s (complement32 s) ≠ 0 := by
  rw [blendDiff, if_neg (by rw [show CAP.BLEND = 2 ^ 1 from rfl, and_two_pow_ite, hb]; norm_num)]
  exact xor_masked_complement_ne s MAT_STATE.BLEND_FUNC_RANGE 8 (by norm_num) (by decide)

theorem blendDiff_of_blend_clear (s other : Nat) (hb : s.testBit 1 = false) :
    blendDiff s other = 0 := by
  rw [blendDiff, if_pos (by rw [show CAP.BLEND = 2 ^ 1 from rfl, and_two_pow_ite, hb]; simp)]

theorem depthFuncDiff_complement_ne (s : Nat) (hb : s.testBit 2 = true) :
    depthFuncDiff s (complement32 s) ≠ 0 := by
  rw [depthFuncDiff,
    if_neg (by rw [show CAP.DEPTH_TEST = 2 ^ 2 from rfl, and_two_pow_ite, hb]; norm_num)]
  exact xor_masked_complement_ne s MAT_STATE.DEPTH_FUNC_RANGE 16 (by norm_num) (by decide)

theorem depthFuncDiff_of_depth_clear (s other : Nat) (hb : s.testBit 2 = false) :
    depthFuncDiff s other = 0 := by
  rw [depthFuncDiff,
    if_pos (by rw [show CAP.DEPTH_TEST = 2 ^ 2 from rfl, and_two_pow_ite, hb]; simp)]

/-- C7: binding the very first material of a frame (`prevMaterial = null`)
diffs against the bitwise complement of the material's own state word, so
the emitted trace re-applies *every* capability and mask bit according to
the material's own state — one enable/disable per capability, one
colour/depth/stencil mask call each — and emits the blend function exactly
once when blending is enabled and the depth function exactly once when
depth testing is enabled, independent of any GPU state left by prior
frames.  (`hs` records the JavaScript 32-bit domain of the state word.) -/
theorem bindMaterialState_first_material (cmr dmr : Bool) (s : Nat) (hs : s < 2 ^ 32) :
    (Renderer.bindMaterialState cmr dmr s none).1
      = [(if s.testBit 0 then GLOp.enable GL_CULL_FACE else GLOp.disable GL_CULL_FACE),
         (if s.testBit 1 then GLOp.enable GL_BLEND else GLOp.disable GL_BLEND),
         (if s.testBit 2 then GLOp.enable GL_DEPTH_TEST else GLOp.disable GL_DEPTH_TEST),
         (if s.testBit 3 then GLOp.enable GL_STENCIL_TEST
          else GLOp.disable GL_STENCIL_TEST),
         GLOp.colorMaskSet (s.testBit 4),
         GLOp.depthMaskSet (s.testBit 5),
         GLOp.stencilMaskSet (if s.testBit 6 then 0xff else 0x00)]
        ++ (if s.testBit 1 then [GLOp.blendFuncSet (blendFuncSrc s) (blendFuncDst s)]
            else [])
        ++ (if s.testBit 2 then [GLOp.depthFuncSet (materialDepthFunc s)] else []) := by
  have h4s := and_two_pow_ite s 4
  have h4c := and_two_pow_ite (complement32 s) 4
  rw [complement32_testBit s 4 (by norm_num)] at h4c
  have h5s := and_two_pow_ite s 5
  have h5c := and_two_pow_ite (complement32 s) 5
  rw [complement32_testBit s 5 (by norm_num)] at h5c
  have h6s := and_two_pow_ite s 6
  have h6c := and_two_pow_ite (complement32 s) 6
  rw [complement32_testBit s 6 (by norm_num)] at h6c
  rw [Renderer.bindMaterialState]
  simp only [Option.getD_none]
  rw [if_neg (state_ne_complement s)]
  rw [if_pos (capsDiff_complement_ne s)]
  rw [show CAP.CULL_FACE = 2 ^ 0 from rfl, show CAP.BLEND = 2 ^ 1 from rfl,
      show CAP.DEPTH_TEST = 2 ^ 2 from rfl, show CAP.STENCIL_TEST = 2 ^ 3 from rfl,
      show CAP.COLOR_MASK = 2 ^ 4 from rfl, show CAP.DEPTH_MASK = 2 ^ 5 from rfl,
      show CAP.STENCIL_MASK = 2 ^ 6 from rfl]
  rw [setCap_complement GL_CULL_FACE 0 s (by norm_num),
      setCap_complement GL_BLEND 1 s (by norm_num),
      setCap_complement GL_DEPTH_TEST 2 s (by norm_num),
      setCap_complement GL_STENCIL_TEST 3 s (by norm_num)]
  simp only [h4s, h4c, h5s, h5c, h6s, h6c]
  rcases hb1 : s.testBit 1 with _ | _ <;>
  rcases hb2 : s.testBit 2 with _ | _ <;>
  rcases hb4 : s.testBit 4 with _ | _ <;>
  rcases hb5 : s.testBit 5 with _ | _ <;>
  rcases hb6 : s.testBit 6 with _ | _ <;>
  first
  | norm_num [blendDiff_of_blend_clear s (complement32 s) hb1,
              depthFuncDiff_of_depth_clear s (complement32 s) hb2]
  | norm_num [blendDiff_of_blend_clear s (complement32 s) hb1,
              depthFuncDiff_complement_ne s hb2]
  | norm_num [blendDiff_complement_ne s hb1,
              depthFuncDiff_of_depth_clear s (complement32 s) hb2]
  | norm_num [blendDiff_complement_ne s hb1,
              depthFuncDiff_complement_ne s hb2]

theorem bindMaterialState_first_material_witness :
    (Renderer.bindMaterialState false false 54 none).1
      = [GLOp.disable GL_CULL_FACE, GLOp.enable GL_BLEND, GLOp.enable GL_DEPTH_TEST,
         GLOp.disable GL_STENCIL_TEST, GLOp.colorMaskSet true, GLOp.depthMaskSet true,
         GLOp.stencilMaskSet 0x00,
         GLOp.blendFuncSet (blendFuncSrc 54) (blendFuncDst 54),
         GLOp.depthFuncSet (materialDepthFunc 54)] :=
  (bindMaterialState_first_material false false 54 (by norm_num)).trans (by decide)

/-! ## Trace classification lemmas -/

theorem drawTag_eq_none (op : GLOp) (h : op.isDraw = false) : op.drawTag = none := by
  cases op <;> simp_all [GLOp.isDraw, GLOp.drawTag]

theorem drawPairs_append (a b : List GLOp) :
    drawPairs (a ++ b) = drawPairs a ++ drawPairs b := by
  simp [drawPairs]

theorem drawPids_append (a b : List GLOp) :
    drawPids (a ++ b) = drawPids a ++ drawPids b := by
  simp [drawPids]

theorem drawPids_eq_map_fst (tr : List GLOp) :
    drawPids tr = (drawPairs tr).map Prod.fst := by
  induction tr with
  | nil => rfl
  | cons op rest ih =>
    rcases hop : op.drawTag with _ | pr <;>
      simp [drawPids, drawPairs, List.filterMap_cons, hop] <;>
      simpa [drawPids, drawPairs] using ih

theorem drawPairs_nil (tr : List GLOp) (h : ∀ op ∈ tr, op.isDraw = false) :
    drawPairs tr = [] := by
  induction tr with
  | nil => rfl
  | cons op rest ih =>
    have h1 : op.drawTag = none := drawTag_eq_none op (h op (List.mem_cons_self _ _))
    have h2 := ih (fun o ho => h o (List.mem_cons_of_mem _ ho))
    simp only [drawPairs, List.filterMap_cons, h1] at h2 ⊢
    exact h2

theorem setCap_plain (g c pv sv : Nat) :
    ∀ op ∈ setCap g c pv sv, op.isDraw = false ∧ op.isM4 = false := by
  intro op hop
  simp only [setCap] at hop
  split at hop
  · simp at hop
  · split at hop <;> simp at hop <;> subst hop <;> exact ⟨rfl, rfl⟩

theorem bindMaterialState_plain (c d : Bool) (s : Nat) (pv : Option Nat) :
    ∀ op ∈ (Renderer.bindMaterialState c d s pv).1, op.isDraw = false ∧ op.isM4 = false := by
  intro op hop
  simp only [Renderer.bindMaterialState] at hop
  split at hop
  · simp at hop
  · simp only [List.mem_append] at hop
    rcases hop with (h | h) | h
    · split at h
      · simp only [List.mem_append] at h
        rcases h with (((((h | h) | h) | h) | h) | h) | h
        · exact setCap_plain _ _ _ _ _ h
        · exact setCap_plain _ _ _ _ _ h
        · exact setCap_plain _ _ _ _ _ h
        · exact setCap_plain _ _ _ _ _ h
        · split at h <;> simp at h <;> subst h <;> exact ⟨rfl, rfl⟩
        · split at h <;> simp at h <;> subst h <;> exact ⟨rfl, rfl⟩
        · split at h <;> simp at h <;> subst h <;> exact ⟨rfl, rfl⟩
      · simp at h
    · split at h <;> simp at h <;> subst h <;> exact ⟨rfl, rfl⟩
    · split at h <;> simp at h <;> subst h <;> exact ⟨rfl, rfl⟩

theorem bindPrimitiveOps_plain (bs : List RenderBufferM) (p : RenderPrimitiveM)
    (am : Option Nat) :
    ∀ op ∈ Renderer.bindPrimitiveOps bs p am, op.isDraw = false ∧ op.isM4 = false := by
  intro op hop
  simp only [Renderer.bindPrimitiveOps, List.mem_append] at hop
  rcases hop with (h | h) | h
  · split at h
    · rcases List.mem_map.mp h with ⟨name, _, rfl⟩
      split <;> exact ⟨rfl, rfl⟩
    · simp at h
  · rcases List.mem_flatten.mp h with ⟨l, hl, hop⟩
    rcases List.mem_map.mp hl with ⟨ab, _, rfl⟩
    rcases List.mem_cons.mp hop with rfl | hop
    · exact ⟨rfl, rfl⟩
    · rcases List.mem_map.mp hop with ⟨a, _, rfl⟩
      exact ⟨rfl, rfl⟩
  · split at h <;> simp at h <;> subst h <;> exact ⟨rfl, rfl⟩

theorem bindSamplerOps_plain (cache : List (String × RenderTextureM)) :
    ∀ (ss : List RenderMaterialSamplerM),
      ∀ op ∈ (bindSamplerOps cache ss).1, op.isDraw = false ∧ op.isM4 = false := by
  intro ss
  induction ss with
  | nil =>
    intro op hop
    simp [bindSamplerOps] at hop
  | cons s rest ih =>
    intro op hop
    rw [bindSamplerOps] at hop
    rcases hrt : s.renderTextureKey.bind (fun k => cache.lookup k) with _ | rt
    · rw [hrt] at hop
      simp at hop
    · rw [hrt] at hop
      rcases List.mem_append.mp hop with h | h
      · rcases List.mem_cons.mp h with rfl | h
        · exact ⟨rfl, rfl⟩
        · rcases List.mem_cons.mp h with rfl | h
          · split <;> exact ⟨rfl, rfl⟩
          · simp at h
      · exact ih op h

theorem bind_plain (cache : List (String × RenderTextureM)) (mat : RenderMaterialM) :
    ∀ op ∈ (RenderMaterial.bind cache mat).2.1, op.isDraw = false ∧ op.isM4 = false := by
  intro op hop
  simp only [RenderMaterial.bind] at hop
  split at hop
  · exact bindSamplerOps_plain cache _ op hop
  · rcases List.mem_append.mp hop with h | h
    · exact bindSamplerOps_plain cache _ op h
    · rcases List.mem_filterMap.mp h with ⟨u, _, hu⟩
      split at hu
      · rw [Option.some.injEq] at hu
        subst hu
        exact ⟨rfl, rfl⟩
      · simp at hu

theorem nextUseOps_plain (prog : ProgramM) :
    ∀ op ∈ prog.nextUseOps, op.isDraw = false ∧ op.isM4 = false := by
  intro op hop
  rcases List.mem_map.mp hop with ⟨nb, _, rfl⟩
  exact ⟨rfl, rfl⟩

theorem programSwitchStep_noDraw (cfg : DrawCfg) (views : List RenderViewM)
    (st : DrawLoopState) (prog : ProgramM) :
    ∀ op ∈ (programSwitchStep cfg views st prog).1, op.isDraw = false := by
  intro op hop
  simp only [programSwitchStep] at hop
  split at hop
  · simp only [List.mem_append] at hop
    rcases hop with (h | h) | h
    · rcases List.mem_cons.mp h with rfl | h
      · rfl
      · split at h
        · simp at h
        · exact (nextUseOps_plain prog op h).1
    · rcases h with h | h <;>
        (split at h <;> simp at h <;> subst h <;> rfl)
    · split at h
      · simp only [List.mem_cons, List.mem_singleton] at h
        rcases h with rfl | rfl | rfl | h
        · rfl
        · rfl
        · rfl
        · simp at h
          subst h
          rfl
      · simp at h
  · simp at hop

theorem programSwitchStep_noM4_of_many (cfg : DrawCfg) (views : List RenderViewM)
    (st : DrawLoopState) (prog : ProgramM) (hv : views.length ≠ 1) :
    ∀ op ∈ (programSwitchStep cfg views st prog).1, op.isM4 = false := by
  intro op hop
  simp only [programSwitchStep] at hop
  split at hop
  · simp only [List.mem_append] at hop
    rcases hop with (h | h) | h
    · rcases List.mem_cons.mp h with rfl | h
      · rfl
      · split at h
        · simp at h
        · exact (nextUseOps_plain prog op h).2
    · rcases h with h | h <;>
        (split at h <;> simp at h <;> subst h <;> rfl)
    · split at h
      next =>
        simp at hv
      next =>
        simp at h
  · simp at hop

theorem materialSwitchStep_plain (cfg : DrawCfg) (st : DrawLoopState)
    (mat : RenderMaterialM) :
    ∀ op ∈ (materialSwitchStep cfg st mat).1, op.isDraw = false ∧ op.isM4 = false := by
  intro op hop
  simp only [materialSwitchStep] at hop
  split at hop
  · rcases List.mem_append.mp hop with h | h
    · exact bindMaterialState_plain _ _ _ _ op h
    · exact bind_plain _ _ op h
  · simp at hop

theorem vaoBindStep_plain (cfg : DrawCfg) (st : DrawLoopState) (p : RenderPrimitiveM) :
    ∀ op ∈ (vaoBindStep cfg st p).1, op.isDraw = false ∧ op.isM4 = false := by
  intro op hop
  simp only [vaoBindStep] at hop
  split at hop
  · split at hop
    · simp at hop
      subst hop
      exact ⟨rfl, rfl⟩
    · rcases List.mem_cons.mp hop with rfl | hop
      · exact ⟨rfl, rfl⟩
      · rcases List.mem_cons.mp hop with rfl | hop
        · exact ⟨rfl, rfl⟩
        · exact bindPrimitiveOps_plain _ _ _ op hop
  · exact bindPrimitiveOps_plain _ _ _ op hop

theorem viewHeaderPreOps_noDraw (mv : Bool) (views : List RenderViewM)
    (camPos : List Vec3) (dd : Option (List DepthDataM)) (i : Nat) (v : RenderViewM) :
    ∀ op ∈ viewHeaderPreOps mv views camPos dd i v, op.isDraw = false := by
  intro op hop
  simp only [viewHeaderPreOps, List.mem_append] at hop
  rcases hop with (h | h) | h
  · split at h
    · simp at h
      subst h
      rfl
    · simp at h
  · split at h
    · rcases List.mem_append.mp h with h | h
      · split at h
        · simp at h
          rcases h with rfl | rfl | rfl | rfl <;> rfl
        · simp at h
      · simp at h
        rcases h with rfl | rfl <;> rfl
    · rcases List.mem_append.mp h with h | h
      · simp at h
        rcases h with rfl | rfl | rfl | rfl <;> rfl
      · split at h
        · split at h
          · simp at h
            subst h
            rfl
          · simp at h
        · simp at h
  · split at h
    · simp at h
      subst h
      rfl
    · simp at h

theorem depthOverrideOps_noDraw (d0 : DepthDataM) (rest : List DepthDataM) :
    ∀ op ∈ (depthOverrideOps d0 rest).1, op.isDraw = false := by
  intro op hop
  rw [depthOverrideOps] at hop
  split at hop
  · simp at hop
  · split at hop
    · simp at hop
      rcases hop with rfl | rfl <;> rfl
    · split at hop
      · simp at hop
        rcases hop with rfl | rfl <;> rfl
      · simp at hop
        rcases hop with rfl | rfl | rfl | rfl <;> rfl

theorem viewHeaderOps_noDraw (mv : Bool) (views : List RenderViewM)
    (camPos : List Vec3) (dd : Option (List DepthDataM)) (k i : Nat) (v : RenderViewM) :
    ∀ op ∈ (viewHeaderOps mv views camPos dd k i v).1, op.isDraw = false := by
  intro op hop
  simp only [viewHeaderOps] at hop
  split at hop
  · split at hop
    next d0 dtail =>
      split at hop
      · split at hop
        · simp only [List.mem_append] at hop
          rcases hop with ((h | h) | h)
          · exact viewHeaderPreOps_noDraw mv views camPos (some (d0 :: dtail)) i v op h
          · simp at h
            rcases h with rfl | rfl | rfl | rfl | rfl <;> rfl
          · exact depthOverrideOps_noDraw d0 dtail op h
        · simp only [List.mem_append] at hop
          rcases hop with (((h | h) | h) | h)
          · exact viewHeaderPreOps_noDraw mv views camPos (some (d0 :: dtail)) i v op h
          · simp at h
            rcases h with rfl | rfl | rfl | rfl | rfl <;> rfl
          · exact depthOverrideOps_noDraw d0 dtail op h
          · simp at h
            rcases h with rfl | rfl | rfl <;> rfl
      · exact viewHeaderPreOps_noDraw mv views camPos (some (d0 :: dtail)) i v op hop
    next =>
      exact viewHeaderPreOps_noDraw mv views camPos dd i v op hop
  · simp at hop

theorem instanceDrawOps_pairs (f : Nat) (p : RenderPrimitiveM) :
    drawPairs (instanceDrawOps f p)
      = (p.instances.filter (fun inst => inst.activeFrameId == f)).map
          (fun inst => (p.pid, inst.iid)) := by
  rw [instanceDrawOps]
  generalize p.instances.filter (fun inst => inst.activeFrameId == f) = l
  induction l with
  | nil => rfl
  | cons a t ih =>
    rw [List.map_cons, List.flatten_cons, drawPairs_append, List.map_cons, ih]
    rcases hidx : p.indexBuffer with _ | bid <;>
      simp [drawPairs, GLOp.drawTag, hidx]

theorem instanceDrawOps_pairs_fst (f : Nat) (p : RenderPrimitiveM) :
    ∀ pr ∈ drawPairs (instanceDrawOps f p), pr.1 = p.pid := by
  intro pr hpr
  rw [instanceDrawOps_pairs] at hpr
  rcases List.mem_map.mp hpr with ⟨inst, _, rfl⟩
  rfl

theorem instanceDrawOps_M4_only_model (f : Nat) (p : RenderPrimitiveM) (nm : String)
    (h : ("MODEL_MATRIX" == nm) = false) :
    ∀ op ∈ instanceDrawOps f p, GLOp.isM4Named nm op = false := by
  intro op hop
  rw [instanceDrawOps] at hop
  rcases List.mem_flatten.mp hop with ⟨l, hl, hop⟩
  rcases List.mem_map.mp hl with ⟨inst, _, rfl⟩
  rcases List.mem_cons.mp hop with rfl | hop
  · simpa [GLOp.isM4Named] using h
  · split at hop <;> simp at hop <;> subst hop <;> rfl

theorem drawPairs_flatten (L : List (List GLOp)) :
    drawPairs L.flatten = (L.map drawPairs).flatten := by
  rw [drawPairs, List.filterMap_flatten]
  rfl

theorem viewLoopBody_pairs_fst (cfg : DrawCfg) (views : List RenderViewM)
    (dd : Option (List DepthDataM)) (k : Nat) (p : RenderPrimitiveM) :
    ∀ (ivs : List (Nat × RenderViewM)),
      ∀ pr ∈ drawPairs (viewLoopBody cfg views dd k p ivs).1, pr.1 = p.pid := by
  intro ivs
  induction ivs with
  | nil =>
    intro pr hpr
    simp [viewLoopBody, drawPairs] at hpr
  | cons iv rest ih =>
    intro pr hpr
    rw [viewLoopBody] at hpr
    rcases herr : (viewHeaderOps cfg.multiview views cfg.cameraPositions dd k
        iv.1 iv.2).2 with _ | e
    · simp only [herr] at hpr
      rw [drawPairs_append, drawPairs_append] at hpr
      rcases List.mem_append.mp hpr with hpr | hpr
      · rcases List.mem_append.mp hpr with hpr | hpr
        · rw [drawPairs_nil _ (viewHeaderOps_noDraw _ _ _ _ _ _ _)] at hpr
          simp at hpr
        · exact instanceDrawOps_pairs_fst _ _ _ hpr
      · exact ih pr hpr
    · simp only [herr] at hpr
      rw [drawPairs_nil _ (viewHeaderOps_noDraw _ _ _ _ _ _ _)] at hpr
      simp at hpr

theorem viewLoopOps_pairs_fst (cfg : DrawCfg) (views : List RenderViewM)
    (dd : Option (List DepthDataM)) (k : Nat) (p : RenderPrimitiveM) :
    ∀ pr ∈ drawPairs (viewLoopOps cfg views dd k p).1, pr.1 = p.pid := by
  intro pr hpr
  rw [viewLoopOps] at hpr
  exact viewLoopBody_pairs_fst cfg views dd k p _ pr hpr

theorem viewLoopOps_mv_two (cfg : DrawCfg) (v₀ v₁ : RenderViewM)
    (dd : Option (List DepthDataM)) (k : Nat) (p : RenderPrimitiveM)
    (hmv : cfg.multiview = true)
    (herr : (viewHeaderOps true [v₀, v₁] cfg.cameraPositions dd k 0 v₀).2 = none) :
    viewLoopOps cfg [v₀, v₁] dd k p
      = ((viewHeaderOps true [v₀, v₁] cfg.cameraPositions dd k 0 v₀).1 ++
          instanceDrawOps cfg.frameId p, none) := by
  rw [viewLoopOps, hmv]
  simp [viewLoopBody, herr, hmv]

theorem isM4Named_false_of_isM4_false (nm : String) (op : GLOp) (h : op.isM4 = false) :
    op.isM4Named nm = false := by
  cases op <;> simp_all [GLOp.isM4, GLOp.isM4Named]

theorem countP_isM4Named_zero_of_plain (nm : String) (l : List GLOp)
    (h : ∀ op ∈ l, op.isM4 = false) : l.countP (GLOp.isM4Named nm) = 0 := by
  rw [List.countP_eq_zero]
  intro op hop
  rw [isM4Named_false_of_isM4_false nm op (h op hop)]
  exact Bool.false_ne_true

theorem vaoBindStep_pid_instances (cfg : DrawCfg) (st : DrawLoopState)
    (p : RenderPrimitiveM) :
    (vaoBindStep cfg st p).2.1.pid = p.pid ∧
    (vaoBindStep cfg st p).2.1.instances = p.instances := by
  rw [vaoBindStep]
  split
  · split <;> exact ⟨rfl, rfl⟩
  · exact ⟨rfl, rfl⟩

theorem viewHeaderPreOps_mv_two_count (camPos : List Vec3)
    (dd : Option (List DepthDataM)) (v₀ v₁ : RenderViewM) (nm : String)
    (hnm : nm = "LEFT_PROJECTION_MATRIX" ∨ nm = "LEFT_VIEW_MATRIX" ∨
           nm = "RIGHT_PROJECTION_MATRIX" ∨ nm = "RIGHT_VIEW_MATRIX") :
    (viewHeaderPreOps true [v₀, v₁] camPos dd 0 v₀).countP (GLOp.isM4Named nm) = 1 := by
  rcases hnm with rfl | rfl | rfl | rfl <;>
    (simp only [viewHeaderPreOps]
     rcases hvp : v₀.viewport with _ | vp <;>
       rcases hdd : dd with _ | l <;>
       simp [GLOp.isM4Named, List.countP_append, List.countP_cons])

theorem depthOverrideOps_countM4_zero (d0 : DepthDataM) (rest : List DepthDataM)
    (nm : String)
    (hnm : nm = "LEFT_PROJECTION_MATRIX" ∨ nm = "LEFT_VIEW_MATRIX" ∨
           nm = "RIGHT_PROJECTION_MATRIX" ∨ nm = "RIGHT_VIEW_MATRIX") :
    (depthOverrideOps d0 rest).1.countP (GLOp.isM4Named nm) = 0 := by
  rcases hnm with rfl | rfl | rfl | rfl <;>
    (rw [depthOverrideOps]
     rcases hpm : d0.projectionMatrix with _ | pm <;>
       [simp;
        (rcases rest with _ | ⟨d1, rest'⟩ <;>
          [simp [GLOp.isM4Named, List.countP_cons];
           (rcases hpm1 : d1.projectionMatrix with _ | pm1 <;>
             simp [GLOp.isM4Named, List.countP_cons, List.countP_append, hpm1])])])

theorem viewHeaderOps_mv_two_count (camPos : List Vec3) (dd : Option (List DepthDataM))
    (k : Nat) (v₀ v₁ : RenderViewM) (nm : String)
    (hnm : nm = "LEFT_PROJECTION_MATRIX" ∨ nm = "LEFT_VIEW_MATRIX" ∨
           nm = "RIGHT_PROJECTION_MATRIX" ∨ nm = "RIGHT_VIEW_MATRIX") :
    (viewHeaderOps true [v₀, v₁] camPos dd k 0 v₀).1.countP (GLOp.isM4Named nm) = 1 := by
  have hpre := viewHeaderPreOps_mv_two_count camPos dd v₀ v₁ nm hnm
  simp only [viewHeaderOps]
  rcases hdd : dd with _ | (_ | ⟨d0, dtail⟩)
  · subst hdd
    simpa using hpre
  · subst hdd
    simpa using hpre
  · subst hdd
    have hov := depthOverrideOps_countM4_zero d0 dtail nm hnm
    rcases herr : (depthOverrideOps d0 dtail).2 with _ | e <;>
      simp only [herr] <;>
      rcases hnm with rfl | rfl | rfl | rfl <;>
      simp [List.countP_append, List.countP_cons, GLOp.isM4Named, hpre, hov]

theorem depthOverrideOps_err_none (d0 : DepthDataM) (rest : List DepthDataM)
    (h : depthOverridesSafe (some (d0 :: rest)) = true) :
    (depthOverrideOps d0 rest).2 = none := by
  rw [depthOverrideOps]
  rcases hpm : d0.projectionMatrix with _ | pm
  · rfl
  · rcases rest with _ | ⟨d1, rest'⟩
    · simp [depthOverridesSafe, hpm] at h
    · rcases hpm1 : d1.projectionMatrix with _ | pm1
      · simp [depthOverridesSafe, hpm, hpm1] at h
      · simp [hpm1]

theorem viewHeaderOps_err_none (mv : Bool) (views : List RenderViewM)
    (camPos : List Vec3) (dd : Option (List DepthDataM)) (k i : Nat) (v : RenderViewM)
    (hdd : depthOverridesSafe dd = true) :
    (viewHeaderOps mv views camPos dd k i v).2 = none := by
  simp only [viewHeaderOps]
  split
  · split
    next d0 dtail =>
      split
      · split
        next e heq =>
          rw [depthOverrideOps_err_none d0 dtail hdd] at heq
          simp at heq
        next => rfl
      · rfl
    next => rfl
  · rfl

theorem bindSamplerOps_err_none (cache : List (String × RenderTextureM)) :
    ∀ ss : List RenderMaterialSamplerM, samplersResolve cache ss = true →
      (bindSamplerOps cache ss).2 = none := by
  intro ss
  induction ss with
  | nil => intro h; rfl
  | cons s rest ih =>
    intro h
    rw [samplersResolve, List.all_cons, Bool.and_eq_true] at h
    obtain ⟨h1, h2⟩ := h
    rw [bindSamplerOps]
    rcases hrt : s.renderTextureKey.bind (fun k => cache.lookup k) with _ | rt
    · rw [hrt] at h1
      simp at h1
    · exact ih h2

theorem samplersResolve_filter (cache : List (String × RenderTextureM))
    (q : RenderMaterialSamplerM → Bool) (ss : List RenderMaterialSamplerM)
    (h : samplersResolve cache ss = true) :
    samplersResolve cache (ss.filter q) = true := by
  rw [samplersResolve, List.all_eq_true] at h ⊢
  intro s hs
  exact h s (List.mem_of_mem_filter hs)

theorem bind_err_none (cache : List (String × RenderTextureM)) (mat : RenderMaterialM)
    (h : samplersResolve cache mat.samplers = true) :
    (RenderMaterial.bind cache mat).2.2 = none := by
  rcases hfb : mat.firstBind with _ | _
  · simp only [RenderMaterial.bind, hfb, Bool.false_eq_true, if_false]
    rw [bindSamplerOps_err_none cache mat.samplers h]
  · simp only [RenderMaterial.bind, hfb, if_true]
    rw [bindSamplerOps_err_none cache _
      (samplersResolve_filter cache _ mat.samplers h)]

theorem materialSwitchStep_err_none (cfg : DrawCfg) (st : DrawLoopState)
    (mat : RenderMaterialM)
    (h : samplersResolve cfg.textureCache mat.samplers = true) :
    (materialSwitchStep cfg st mat).2.2.2 = none := by
  rw [materialSwitchStep]
  split
  · exact bind_err_none cfg.textureCache mat h
  · rfl

/-- C8: when the primitive body of `_drawRenderPrimitiveSet` runs with
exactly two views, hardware multiview active, every material sampler
resolvable (so `bind` cannot throw) and the depth payload free of the
legacy-override hazard (so the first view's header cannot throw), it
completes without an exception and its trace splits into a draw-free
prefix that uploads each of the LEFT/RIGHT projection/view matrix uniforms
exactly once (on view index 0), followed by exactly one draw call per
instance active this frame — the per-view loop breaks after the first
view, so no second round of draws occurs. -/
theorem multiview_single_draw_per_instance (cfg : DrawCfg) (v₀ v₁ : RenderViewM)
    (dd : Option (List DepthDataM)) (st : DrawLoopState) (p : RenderPrimitiveM)
    (hmv : cfg.multiview = true) (hact : p.activeFrameId = cfg.frameId)
    (hsamp : samplersResolve cfg.textureCache p.material.samplers = true)
    (hdd : depthOverridesSafe dd = true) :
    (drawPrimitiveStep cfg [v₀, v₁] dd st p).2.2.2 = none ∧
    ∃ front rest,
      (drawPrimitiveStep cfg [v₀, v₁] dd st p).2.2.1 = front ++ rest ∧
      drawPairs front = [] ∧
      (∀ nm, (nm = "LEFT_PROJECTION_MATRIX" ∨ nm = "LEFT_VIEW_MATRIX" ∨
              nm = "RIGHT_PROJECTION_MATRIX" ∨ nm = "RIGHT_VIEW_MATRIX") →
        front.countP (GLOp.isM4Named nm) = 1 ∧
        rest.countP (GLOp.isM4Named nm) = 0) ∧
      drawPairs rest
        = (p.instances.filter (fun inst => inst.activeFrameId == cfg.frameId)).map
            (fun inst => (p.pid, inst.iid)) := by
  set ps := programSwitchStep cfg [v₀, v₁] st p.material.program with hps
  set ms := materialSwitchStep cfg ps.2 p.material with hms
  set p1 := ({ p with material := ms.2.1 } : RenderPrimitiveM) with hp1
  set vs := vaoBindStep cfg ms.2.2.1 p1 with hvs
  have hmserr : ms.2.2.2 = none := materialSwitchStep_err_none cfg ps.2 p.material hsamp
  have hmserr' : (materialSwitchStep cfg (programSwitchStep cfg [v₀, v₁] st
      p.material.program).2 p.material).2.2.2 = none := hmserr
  have hherr : (viewHeaderOps true [v₀, v₁] cfg.cameraPositions dd
      ms.2.1.samplers.length 0 v₀).2 = none :=
    viewHeaderOps_err_none true [v₀, v₁] cfg.cameraPositions dd
      ms.2.1.samplers.length 0 v₀ hdd
  have hvl := viewLoopOps_mv_two cfg v₀ v₁ dd ms.2.1.samplers.length vs.2.1 hmv hherr
  have hstep : drawPrimitiveStep cfg [v₀, v₁] dd st p
      = (vs.2.2, vs.2.1,
         ps.1 ++ ms.1 ++ vs.1 ++
           (viewLoopOps cfg [v₀, v₁] dd ms.2.1.samplers.length vs.2.1).1,
         (viewLoopOps cfg [v₀, v₁] dd ms.2.1.samplers.length vs.2.1).2) := by
    rw [drawPrimitiveStep, if_neg (by simp [hact])]
    simp only [hmserr']
  constructor
  · rw [hstep]
    show (viewLoopOps cfg [v₀, v₁] dd ms.2.1.samplers.length vs.2.1).2 = none
    rw [hvl]
  refine ⟨ps.1 ++ ms.1 ++ vs.1 ++
      (viewHeaderOps true [v₀, v₁] cfg.cameraPositions dd
        ms.2.1.samplers.length 0 v₀).1,
    instanceDrawOps cfg.frameId vs.2.1, ?_, ?_, ?_, ?_⟩
  · rw [hstep]
    show ps.1 ++ ms.1 ++ vs.1 ++
        (viewLoopOps cfg [v₀, v₁] dd ms.2.1.samplers.length vs.2.1).1 = _
    rw [hvl]
    simp [List.append_assoc]
  · apply drawPairs_nil
    intro op hop
    simp only [List.mem_append] at hop
    rcases hop with ((h | h) | h) | h
    · exact programSwitchStep_noDraw _ _ _ _ op h
    · exact (materialSwitchStep_plain _ _ _ op h).1
    · exact (vaoBindStep_plain _ _ _ op h).1
    · exact viewHeaderOps_noDraw _ _ _ _ _ _ _ op h
  · intro nm hnm
    constructor
    · have c1 : ps.1.countP (GLOp.isM4Named nm) = 0 :=
        countP_isM4Named_zero_of_plain nm ps.1
          (programSwitchStep_noM4_of_many cfg [v₀, v₁] st p.material.program (by simp))
      have c2 : ms.1.countP (GLOp.isM4Named nm) = 0 :=
        countP_isM4Named_zero_of_plain nm ms.1
          (fun op hop => (materialSwitchStep_plain cfg ps.2 p.material op hop).2)
      have c3 : vs.1.countP (GLOp.isM4Named nm) = 0 :=
        countP_isM4Named_zero_of_plain nm vs.1
          (fun op hop => (vaoBindStep_plain cfg ms.2.2.1 p1 op hop).2)
      have c4 := viewHeaderOps_mv_two_count cfg.cameraPositions dd
        ms.2.1.samplers.length v₀ v₁ nm hnm
      rw [List.countP_append, List.countP_append, List.countP_append, c1, c2, c3, c4]
    · rw [List.countP_eq_zero]
      intro op hop
      have hm : ("MODEL_MATRIX" == nm) = false := by
        rcases hnm with rfl | rfl | rfl | rfl <;> decide
      rw [instanceDrawOps_M4_only_model cfg.frameId vs.2.1 nm hm op hop]
      exact Bool.false_ne_true
  · rw [instanceDrawOps_pairs]
    have hpi := vaoBindStep_pid_instances cfg ms.2.2.1 p1
    rw [hpi.1, hpi.2]

/-- C8 witness: the split exists at a concrete two-view multiview frame with
one active instance, a sampler-free material and no depth payload. -/
theorem multiview_single_draw_per_instance_witness :
    (drawPrimitiveStep mvCfg [mvView0, mvView1] none mvSt mvPrim).2.2.2 = none ∧
    ∃ front rest,
      (drawPrimitiveStep mvCfg [mvView0, mvView1] none mvSt mvPrim).2.2.1
        = front ++ rest ∧
      drawPairs front = [] ∧
      (∀ nm, (nm = "LEFT_PROJECTION_MATRIX" ∨ nm = "LEFT_VIEW_MATRIX" ∨
              nm = "RIGHT_PROJECTION_MATRIX" ∨ nm = "RIGHT_VIEW_MATRIX") →
        front.countP (GLOp.isM4Named nm) = 1 ∧
        rest.countP (GLOp.isM4Named nm) = 0) ∧
      drawPairs rest
        = (mvPrim.instances.filter (fun inst => inst.activeFrameId == mvCfg.frameId)).map
            (fun inst => (mvPrim.pid, inst.iid)) :=
  multiview_single_draw_per_instance mvCfg mvView0 mvView1 none mvSt mvPrim
    rfl rfl rfl rfl

theorem append_replicate_getD (l : List (List Nat)) (n k : Nat) :
    (l ++ List.replicate n ([] : List Nat)).getD k [] = l.getD k [] := by
  rcases Nat.lt_or_ge k l.length with h | h
  · rw [List.getD_eq_getElem?_getD, List.getElem?_append_left h,
      ← List.getD_eq_getElem?_getD]
  · rw [List.getD_eq_getElem?_getD, List.getElem?_append_right h,
      List.getD_eq_getElem?_getD, List.getElem?_eq_none h,
      List.getElem?_replicate]
    split <;> rfl

theorem bucketAppend_length_gt (buckets : List (List Nat)) (ord : Nat) :
    ord < (buckets ++ List.replicate (ord + 1 - buckets.length) ([] : List Nat)).length := by
  rw [List.length_append, List.length_replicate]
  omega

theorem bucketAppend_getD_self (buckets : List (List Nat)) (ord pid : Nat) :
    (bucketAppend buckets ord pid).getD ord [] = buckets.getD ord [] ++ [pid] := by
  rw [bucketAppend]
  rw [List.getD_eq_getElem?_getD,
    List.getElem?_set_self (bucketAppend_length_gt buckets ord)]
  rw [Option.getD_some, append_replicate_getD]

theorem bucketAppend_getD_ne (buckets : List (List Nat)) (ord pid k : Nat) (h : k ≠ ord) :
    (bucketAppend buckets ord pid).getD k [] = buckets.getD k [] := by
  rw [bucketAppend]
  rw [List.getD_eq_getElem?_getD, List.getElem?_set_ne (fun he => h he.symm),
    ← List.getD_eq_getElem?_getD, append_replicate_getD]

theorem getRenderTexture_scene (r : RendererM) (t : Option TextureDescM) :
    ((Renderer.getRenderTexture r t).2.1.renderPrimitives,
     (Renderer.getRenderTexture r t).2.1.nextPid) = (r.renderPrimitives, r.nextPid) := by
  rcases t with _ | t
  · rfl
  · simp only [Renderer.getRenderTexture]
    split
    · rfl
    · split
      · rfl
      · split <;> rfl

theorem makeSamplers_scene :
    ∀ (ss : List MaterialSamplerDescM) (r : RendererM) (i : Nat),
      ((RenderMaterial.makeSamplers r ss i).2.1.renderPrimitives,
       (RenderMaterial.makeSamplers r ss i).2.1.nextPid)
        = (r.renderPrimitives, r.nextPid) := by
  intro ss
  induction ss with
  | nil => intro r i; rfl
  | cons s rest ih =>
    intro r i
    simp only [RenderMaterial.makeSamplers]
    split
    next e r' ops heq =>
      have h := getRenderTexture_scene r s.texture
      rw [heq] at h
      exact h
    next rt? r' ops heq =>
      have h := getRenderTexture_scene r s.texture
      rw [heq] at h
      split
      next e r'' ops' heq2 =>
        have h2 := ih r' (i + 1)
        rw [heq2] at h2
        exact h2.trans h
      next tail r'' ops' heq2 =>
        have h2 := ih r' (i + 1)
        rw [heq2] at h2
        exact h2.trans h

theorem getMaterialProgram_scene (r : RendererM) (m : MaterialM) :
    ((Renderer.getMaterialProgram r m).2.renderPrimitives,
     (Renderer.getMaterialProgram r m).2.nextPid) = (r.renderPrimitives, r.nextPid) := by
  simp only [Renderer.getMaterialProgram]
  split
  · rfl
  · split
    · rfl
    · split
      · rfl
      · split <;> rfl

theorem make_scene (r : RendererM) (m : MaterialM) (prog : ProgramM) :
    ((RenderMaterial.make r m prog).2.1.renderPrimitives,
     (RenderMaterial.make r m prog).2.1.nextPid) = (r.renderPrimitives, r.nextPid) := by
  simp only [RenderMaterial.make]
  split
  next e r' ops heq =>
    have h := makeSamplers_scene m.samplers r 0
    rw [heq] at h
    exact h
  next samplers r' ops heq =>
    have h := makeSamplers_scene m.samplers r 0
    rw [heq] at h
    exact h

theorem make_renderOrder (r : RendererM) (m : MaterialM) (prog : ProgramM)
    (rm : RenderMaterialM) (r' : RendererM) (ops : List GLOp)
    (h : RenderMaterial.make r m prog = (.ok rm, r', ops)) :
    rm.renderOrder
      = (if m.renderOrder = RENDER_ORDER.DEFAULT then
           (if m.state &&& CAP.BLEND ≠ 0 then RENDER_ORDER.TRANSPARENT
            else RENDER_ORDER.OPAQUE)
         else m.renderOrder) := by
  simp only [RenderMaterial.make] at h
  split at h
  · simp at h
  · simp only [Prod.mk.injEq, Except.ok.injEq] at h
    obtain ⟨hrm, -, -⟩ := h
    subst hrm
    rfl

theorem findPrim_pid (store : List RenderPrimitiveM) (pid : Nat) (p : RenderPrimitiveM)
    (h : findPrim store pid = some p) : p.pid = pid := by
  rw [findPrim] at h
  simpa using List.find?_some h

theorem drawPids_nil (tr : List GLOp) (h : ∀ op ∈ tr, op.isDraw = false) :
    drawPids tr = [] := by
  rw [drawPids_eq_map_fst, drawPairs_nil tr h]
  rfl

theorem flatten_replicate_nil (n : Nat) :
    (List.replicate n ([] : List Nat)).flatten = [] := by
  induction n with
  | zero => rfl
  | succ n ih => simp [List.replicate_succ, ih]

theorem drawPrimitiveStep_pids (cfg : DrawCfg) (views : List RenderViewM)
    (dd : Option (List DepthDataM)) (st : DrawLoopState) (p : RenderPrimitiveM) :
    ∀ q ∈ drawPids (drawPrimitiveStep cfg views dd st p).2.2.1, q = p.pid := by
  intro q hq
  rw [drawPids_eq_map_fst] at hq
  rcases List.mem_map.mp hq with ⟨pr, hpr, rfl⟩
  rw [drawPrimitiveStep] at hpr
  split at hpr
  · simp [drawPairs] at hpr
  · rcases heq : (materialSwitchStep cfg (programSwitchStep cfg views st
        p.material.program).2 p.material).2.2.2 with _ | e
    · simp only [heq] at hpr
      simp only [drawPairs_append, List.mem_append] at hpr
      rcases hpr with ((h | h) | h) | h
      · rw [drawPairs_nil _ (programSwitchStep_noDraw _ _ _ _)] at h
        simp at h
      · rw [drawPairs_nil _ (fun op hop => (materialSwitchStep_plain _ _ _ op hop).1)] at h
        simp at h
      · rw [drawPairs_nil _ (fun op hop => (vaoBindStep_plain _ _ _ op hop).1)] at h
        simp at h
      · have h2 := viewLoopOps_pairs_fst _ _ _ _ _ pr h
        rw [h2]
        exact (vaoBindStep_pid_instances _ _ _).1
    · simp only [heq] at hpr
      simp only [drawPairs_append, List.mem_append] at hpr
      rcases hpr with h | h
      · rw [drawPairs_nil _ (programSwitchStep_noDraw _ _ _ _)] at h
        simp at h
      · rw [drawPairs_nil _ (fun op hop => (materialSwitchStep_plain _ _ _ op hop).1)] at h
        simp at h

theorem drawPrimsLoop_pids (cfg : DrawCfg) (views : List RenderViewM)
    (dd : Option (List DepthDataM)) :
    ∀ (pids : List Nat) (store : List RenderPrimitiveM) (st : DrawLoopState),
      ∀ q ∈ drawPids (drawPrimsLoop cfg views dd store st pids).2.2.1, q ∈ pids := by
  intro pids
  induction pids with
  | nil =>
    intro store st q hq
    simp [drawPrimsLoop, drawPids] at hq
  | cons pid rest ih =>
    intro store st q hq
    simp only [drawPrimsLoop] at hq
    rcases hfind : findPrim store pid with _ | p
    · simp only [hfind] at hq
      exact List.mem_cons_of_mem _ (ih _ _ q hq)
    · simp only [hfind] at hq
      split at hq
      next e heq =>
        have := drawPrimitiveStep_pids cfg views dd st p q hq
        rw [this, findPrim_pid store pid p hfind]
        exact List.mem_cons_self _ _
      next heq =>
        simp only [drawPids_append, List.mem_append] at hq
        rcases hq with h | h
        · have := drawPrimitiveStep_pids cfg views dd st p q h
          rw [this, findPrim_pid store pid p hfind]
          exact List.mem_cons_self _ _
        · exact List.mem_cons_of_mem _ (ih _ _ q h)

theorem drawRenderPrimitiveSet_pids (r : RendererM) (views : List RenderViewM)
    (pids : List Nat) (dd : Option (List DepthDataM)) :
    ∀ q ∈ drawPids (Renderer.drawRenderPrimitiveSet r views pids dd).2.1, q ∈ pids := by
  intro q hq
  simp only [Renderer.drawRenderPrimitiveSet] at hq
  exact drawPrimsLoop_pids _ _ _ _ _ _ q hq

theorem drawBucketsLoop_segments (views : List RenderViewM)
    (dd : Option (List DepthDataM)) :
    ∀ (buckets : List (List Nat)) (r : RendererM),
      ∃ segs : List (List Nat),
        segs.length = buckets.length ∧
        drawPids (drawBucketsLoop views dd r buckets).2.1 = segs.flatten ∧
        ∀ k, ∀ q ∈ segs.getD k [], q ∈ buckets.getD k [] := by
  intro buckets
  induction buckets with
  | nil =>
    intro r
    refine ⟨[], rfl, by simp [drawBucketsLoop, drawPids], ?_⟩
    intro k q hq
    simp [List.getD] at hq
  | cons pids rest ih =>
    intro r
    simp only [drawBucketsLoop]
    split
    · split
      next e heq =>
        refine ⟨drawPids (Renderer.drawRenderPrimitiveSet r views pids dd).2.1 ::
          List.replicate rest.length [], by simp, ?_, ?_⟩
        · simp [flatten_replicate_nil]
        · intro k q hq
          cases k with
          | zero =>
            simp only [List.getD_cons_zero] at hq ⊢
            exact drawRenderPrimitiveSet_pids r views pids dd q hq
          | succ k =>
            simp only [List.getD_cons_succ] at hq
            have hrep : (List.replicate rest.length ([] : List Nat)).getD k [] = [] := by
              rw [List.getD_eq_getElem?_getD, List.getElem?_replicate]
              split <;> rfl
            rw [hrep] at hq
            simp at hq
      next heq =>
        obtain ⟨segs, hlen, hflat, hmem⟩ :=
          ih (Renderer.drawRenderPrimitiveSet r views pids dd).1
        refine ⟨drawPids (Renderer.drawRenderPrimitiveSet r views pids dd).2.1 :: segs,
          by simp [hlen], ?_, ?_⟩
        · simp only [drawPids_append, List.flatten_cons, hflat]
        · intro k q hq
          cases k with
          | zero =>
            simp only [List.getD_cons_zero] at hq ⊢
            exact drawRenderPrimitiveSet_pids r views pids dd q hq
          | succ k =>
            simp only [List.getD_cons_succ] at hq ⊢
            exact hmem k q hq
    · obtain ⟨segs, hlen, hflat, hmem⟩ := ih r
      refine ⟨[] :: segs, by simp [hlen], by simpa using hflat, ?_⟩
      intro k q hq
      cases k with
      | zero => simp at hq
      | succ k =>
        simp only [List.getD_cons_succ] at hq ⊢
        exact hmem k q hq

theorem renderTexture_markActive_noDraw (f : Nat) (key : String) (rt : RenderTextureM) :
    ∀ op ∈ (RenderTexture.markActive f key rt).2, op.isDraw = false := by
  intro op hop
  rw [RenderTexture.markActive] at hop
  split at hop
  · simp at hop
    subst hop
    rfl
  · simp at hop

theorem markActiveSamplers_noDraw (f : Nat) :
    ∀ (ss : List RenderMaterialSamplerM) (cache : List (String × RenderTextureM)),
      ∀ op ∈ (RenderMaterial.markActiveSamplers f cache ss).2.2, op.isDraw = false := by
  intro ss
  induction ss with
  | nil =>
    intro cache op hop
    simp [RenderMaterial.markActiveSamplers] at hop
  | cons s rest ih =>
    intro cache op hop
    rw [RenderMaterial.markActiveSamplers] at hop
    rcases hsk : s.renderTextureKey with _ | key
    · simp only [hsk] at hop
      exact ih cache op hop
    · simp only [hsk] at hop
      rcases hkey : cache.lookup key with _ | rt
      · simp only [hkey] at hop
        exact ih cache op hop
      · simp only [hkey] at hop
        split at hop
        · simp at hop
        · simp only [List.mem_append] at hop
          rcases hop with h | h
          · exact renderTexture_markActive_noDraw f key rt op h
          · exact ih _ op h

theorem materialMarkActive_noDraw (f : Nat) (cache : List (String × RenderTextureM))
    (mat : RenderMaterialM) :
    ∀ op ∈ (RenderMaterial.markActive f cache mat).2.2.1, op.isDraw = false := by
  intro op hop
  rw [RenderMaterial.markActive] at hop
  split at hop
  · exact markActiveSamplers_noDraw f mat.samplers cache op hop
  · simp at hop

theorem primMarkActive_noDraw (f : Nat) (cache : List (String × RenderTextureM))
    (p : RenderPrimitiveM) :
    ∀ op ∈ (RenderPrimitive.markActive f cache p).2.2, op.isDraw = false := by
  intro op hop
  rw [RenderPrimitive.markActive] at hop
  split at hop
  · split at hop
    next mat' cache' ops ok heq =>
      have h : (RenderMaterial.markActive f cache p.material).2.2.1 = ops := by
        rw [heq]
      split at hop <;>
        exact materialMarkActive_noDraw f cache p.material op (by rw [h]; exact hop)
  · simp at hop

theorem markNode_noDraw (f : Nat) (r : RendererM) (mark : Nat × Nat) :
    ∀ op ∈ (markNode f r mark).2, op.isDraw = false := by
  intro op hop
  rw [markNode] at hop
  split at hop
  · simp at hop
  · exact primMarkActive_noDraw f r.textureCache _ op hop

theorem markNodes_noDraw (f : Nat) :
    ∀ (marks : List (Nat × Nat)) (r : RendererM),
      ∀ op ∈ (markNodes f r marks).2, op.isDraw = false := by
  intro marks
  induction marks with
  | nil =>
    intro r op hop
    simp [markNodes] at hop
  | cons mark rest ih =>
    intro r op hop
    rw [markNodes] at hop
    simp only [List.mem_append] at hop
    rcases hop with h | h
    · exact markNode_noDraw f r mark op h
    · exact ih _ op h

theorem markNode_renderPrimitives (f : Nat) (r : RendererM) (mark : Nat × Nat) :
    (markNode f r mark).1.renderPrimitives = r.renderPrimitives := by
  rw [markNode]
  split <;> rfl

theorem markNodes_renderPrimitives (f : Nat) :
    ∀ (marks : List (Nat × Nat)) (r : RendererM),
      (markNodes f r marks).1.renderPrimitives = r.renderPrimitives := by
  intro marks
  induction marks with
  | nil => intro r; rfl
  | cons mark rest ih =>
    intro r
    rw [markNodes]
    rw [ih, markNode_renderPrimitives]

theorem singleViewportOps_noDraw (views : List RenderViewM) :
    ∀ op ∈ singleViewportOps views, op.isDraw = false := by
  intro op hop
  rcases views with _ | ⟨v, vs⟩
  · simp [singleViewportOps] at hop
  · rcases vs with _ | ⟨w, ws⟩
    · rcases hvpt : v.viewport with _ | vp
      · simp [singleViewportOps, hvpt] at hop
      · simp [singleViewportOps, hvpt] at hop
        subst hop
        rfl
    · simp [singleViewportOps] at hop

theorem frameTailOps_noDraw (r : RendererM) :
    ∀ op ∈ frameTailOps r, op.isDraw = false := by
  intro op hop
  rw [frameTailOps] at hop
  simp only [List.mem_append] at hop
  rcases hop with (h | h) | h <;>
    (split at h <;> simp at h <;> subst h <;> rfl)

theorem drawBucketsLoop_order (views : List RenderViewM) (dd : Option (List DepthDataM))
    (buckets : List (List Nat)) (r : RendererM) (i j pidA pidB : Nat) (hij : i < j)
    (hA : ∀ k, pidA ∈ buckets.getD k [] → k = i)
    (hB : ∀ k, pidB ∈ buckets.getD k [] → k = j) :
    ∃ pre post,
      drawPids (drawBucketsLoop views dd r buckets).2.1 = pre ++ post ∧
      pidB ∉ pre ∧ pidA ∉ post := by
  obtain ⟨segs, hlen, hflat, hmem⟩ := drawBucketsLoop_segments views dd buckets r
  refine ⟨(segs.take (i + 1)).flatten, (segs.drop (i + 1)).flatten, ?_, ?_, ?_⟩
  · rw [hflat, ← List.flatten_append, List.take_append_drop]
  · intro hmem'
    rcases List.mem_flatten.mp hmem' with ⟨l, hl, hql⟩
    rcases List.mem_iff_getElem?.mp hl with ⟨mi, hm⟩
    rw [List.getElem?_take] at hm
    split at hm
    next hlt =>
      have hq : pidB ∈ segs.getD mi [] := by
        rw [List.getD_eq_getElem?_getD, hm]
        exact hql
      have := hB mi (hmem mi pidB hq)
      omega
    next => simp at hm
  · intro hmem'
    rcases List.mem_flatten.mp hmem' with ⟨l, hl, hql⟩
    rcases List.mem_iff_getElem?.mp hl with ⟨mi, hm⟩
    rw [List.getElem?_drop] at hm
    have hq : pidA ∈ segs.getD (i + 1 + mi) [] := by
      rw [List.getD_eq_getElem?_getD, hm]
      exact hql
    have := hA (i + 1 + mi) (hmem _ pidA hq)
    omega

/-- C1: a successfully created render primitive is appended exactly once,
at creation, to the bucket selected by its render material's render order
(the `DEFAULT` sentinel resolving by the blend bit), leaving every other
bucket untouched; and `drawViews` iterates the buckets in ascending index
order, so every draw of a primitive living only in bucket `i` precedes
every draw of a primitive living only in bucket `j > i` (opaque before
transparent), whatever the creation interleaving was. -/
theorem buckets_append_once_opaque_first :
    (∀ (r : RendererM) (desc : PrimitiveDescM) (m : MaterialM) (pid : Nat)
       (r' : RendererM) (ops : List GLOp),
       Renderer.createRenderPrimitive r desc m = (.ok pid, r', ops) →
       pid = r.nextPid ∧
       ∃ ord,
         (m.renderOrder = RENDER_ORDER.DEFAULT →
            ord = if m.state &&& CAP.BLEND ≠ 0 then RENDER_ORDER.TRANSPARENT
                  else RENDER_ORDER.OPAQUE) ∧
         (m.renderOrder ≠ RENDER_ORDER.DEFAULT → ord = m.renderOrder) ∧
         r'.renderPrimitives.getD ord [] = r.renderPrimitives.getD ord [] ++ [pid] ∧
         (∀ k, k ≠ ord → r'.renderPrimitives.getD k [] = r.renderPrimitives.getD k [])) ∧
    (∀ (r : RendererM) (views : List RenderViewM) (marks : List (Nat × Nat))
       (dd : Option (List DepthDataM)) (i j pidA pidB : Nat),
       i < j →
       (∀ k, pidA ∈ r.renderPrimitives.getD k [] → k = i) →
       (∀ k, pidB ∈ r.renderPrimitives.getD k [] → k = j) →
       ∃ pre post,
         drawPids (Renderer.drawViews r views (some marks) dd).2.1 = pre ++ post ∧
         pidB ∉ pre ∧ pidA ∉ post) := by
  constructor
  · intro r desc m pid r' ops h
    rw [Renderer.createRenderPrimitive] at h
    split at h
    next e r1 heq => simp at h
    next program r1 heq =>
      split at h
      next e r2 ops2 heq2 => simp at h
      next rm r2 ops2 heq2 =>
        simp only [Prod.mk.injEq, Except.ok.injEq] at h
        obtain ⟨hpid, hr', hops⟩ := h
        have s1 := getMaterialProgram_scene r m
        simp only [heq, Prod.mk.injEq] at s1
        have s2 := make_scene r1 m program
        simp only [heq2, Prod.mk.injEq] at s2
        have hbp : r2.renderPrimitives = r.renderPrimitives := s2.1.trans s1.1
        have hnp : r2.nextPid = r.nextPid := s2.2.trans s1.2
        refine ⟨hpid ▸ hnp, rm.renderOrder, ?_, ?_, ?_, ?_⟩
        · intro hdef
          rw [make_renderOrder r1 m program rm r2 ops2 heq2]
          simp [hdef]
        · intro hne
          rw [make_renderOrder r1 m program rm r2 ops2 heq2]
          simp [hne]
        · simp only [← hr']
          rw [bucketAppend_getD_self, hbp, hpid]
        · intro k hk
          simp only [← hr']
          rw [bucketAppend_getD_ne _ _ _ _ hk, hbp]
  · intro r views marks dd i j pidA pidB hij hA hB
    set r1 := { r with frameId := r.frameId + 1 } with hr1
    set r2 := (markNodes r1.frameId r1 marks).1 with hr2
    set r3 := { r2 with cameraPositions := updateCameraPositions r2.cameraPositions views }
      with hr3
    have hbuck : r3.renderPrimitives = r.renderPrimitives := by
      rw [hr3]
      show r2.renderPrimitives = r.renderPrimitives
      rw [hr2, markNodes_renderPrimitives]
    have htr : (Renderer.drawViews r views (some marks) dd).2.1
        = (markNodes r1.frameId r1 marks).2 ++ singleViewportOps views ++
          (drawBucketsLoop views dd r3 r3.renderPrimitives).2.1 ++
          (if (drawBucketsLoop views dd r3 r3.renderPrimitives).2.2.isNone
            then frameTailOps (drawBucketsLoop views dd r3 r3.renderPrimitives).1
            else []) := rfl
    obtain ⟨pre, post, hsplit, hBpre, hApost⟩ :=
      drawBucketsLoop_order views dd r3.renderPrimitives r3 i j pidA pidB hij
        (by rw [hbuck]; exact hA) (by rw [hbuck]; exact hB)
    refine ⟨pre, post, ?_, hBpre, hApost⟩
    rw [htr, drawPids_append, drawPids_append, drawPids_append]
    rw [drawPids_nil _ (markNodes_noDraw r1.frameId marks r1)]
    rw [drawPids_nil _ (singleViewportOps_noDraw views)]
    have htail : drawPids
        (if (drawBucketsLoop views dd r3 r3.renderPrimitives).2.2.isNone
          then frameTailOps (drawBucketsLoop views dd r3 r3.renderPrimitives).1
          else []) = [] := by
      split
      · exact drawPids_nil _ (frameTailOps_noDraw _)
      · rfl
    rw [htail, hsplit]
    simp

/-- C1 witness: a concrete default-order creation lands in the opaque
bucket once, and with primitive 0 only in the opaque bucket and primitive 1
only in the transparent bucket the frame's draw ids split accordingly. -/
theorem buckets_append_once_opaque_first_witness :
    ((0 : Nat) = c1R0.nextPid ∧
     ∃ ord,
       (c1Mat.renderOrder = RENDER_ORDER.DEFAULT →
          ord = if c1Mat.state &&& CAP.BLEND ≠ 0 then RENDER_ORDER.TRANSPARENT
                else RENDER_ORDER.OPAQUE) ∧
       (c1Mat.renderOrder ≠ RENDER_ORDER.DEFAULT → ord = c1Mat.renderOrder) ∧
       ((Renderer.createRenderPrimitive c1R0 c1Desc c1Mat).2.1.renderPrimitives.getD ord []
          = c1R0.renderPrimitives.getD ord [] ++ [0]) ∧
       (∀ k, k ≠ ord →
          (Renderer.createRenderPrimitive c1R0 c1Desc c1Mat).2.1.renderPrimitives.getD k []
            = c1R0.renderPrimitives.getD k [])) ∧
    (∃ pre post,
       drawPids (Renderer.drawViews c1R2 [] (some []) none).2.1 = pre ++ post ∧
       (1 : Nat) ∉ pre ∧ (0 : Nat) ∉ post) :=
  ⟨buckets_append_once_opaque_first.1 c1R0 c1Desc c1Mat 0
     (Renderer.createRenderPrimitive c1R0 c1Desc c1Mat).2.1
     (Renderer.createRenderPrimitive c1R0 c1Desc c1Mat).2.2 rfl,
   buckets_append_once_opaque_first.2 c1R2 [] [] none 0 2 0 1 (by decide)
     (by
       intro k hk
       match k with
       | 0 => rfl
       | 1 => simp [c1R2] at hk
       | 2 => simp [c1R2] at hk
       | 3 => simp [c1R2] at hk
       | n + 4 =>
         rw [List.getD_eq_default _ _
           (by show ([[0], [], [1], []] : List (List Nat)).length ≤ n + 4
               simp only [List.length_cons, List.length_nil]
               omega)] at hk
         simp at hk)
     (by
       intro k hk
       match k with
       | 0 => simp [c1R2] at hk
       | 1 => simp [c1R2] at hk
       | 2 => rfl
       | 3 => simp [c1R2] at hk
       | n + 4 =>
         rw [List.getD_eq_default _ _
           (by show ([[0], [], [1], []] : List (List Nat)).length ≤ n + 4
               simp only [List.length_cons, List.length_nil]
               omega)] at hk
         simp at hk)⟩

theorem findPrim_updatePrim_ne (pid pid0 : Nat) (f : RenderPrimitiveM → RenderPrimitiveM)
    (hne : pid ≠ pid0) (hf : ∀ q, q.pid = pid → (f q).pid = q.pid) :
    ∀ store, findPrim (updatePrim store pid f) pid0 = findPrim store pid0 := by
  intro store
  induction store with
  | nil => rfl
  | cons q rest ih =>
    rw [updatePrim]
    split
    next hq =>
      have hqe : q.pid = pid := by simpa using hq
      have hfq : (f q).pid = q.pid := hf q hqe
      rw [findPrim, List.find?_cons, findPrim, List.find?_cons]
      have h1 : ((f q).pid == pid0) = false := by
        simp [hfq, hqe, hne]
      have h2 : (q.pid == pid0) = false := by
        simp [hqe, hne]
      rw [h1, h2]
    next hq =>
      rw [findPrim, List.find?_cons, findPrim, List.find?_cons]
      rcases hq2 : (q.pid == pid0) with _ | _
      · exact ih
      · rfl

theorem findPrim_updatePrim_self (pid0 : Nat) (f : RenderPrimitiveM → RenderPrimitiveM)
    (p : RenderPrimitiveM) (hfp : (f p).pid = p.pid) :
    ∀ store, findPrim store pid0 = some p →
      findPrim (updatePrim store pid0 f) pid0 = some (f p) := by
  intro store
  induction store with
  | nil => intro h; simp [findPrim] at h
  | cons q rest ih =>
    intro h
    rw [findPrim, List.find?_cons] at h
    rw [updatePrim]
    rcases hq : (q.pid == pid0) with _ | _
    · rw [hq] at h
      have hq2 : (q.pid == pid0) = false := hq
      split
      next hq3 =>
        simp at hq3
      next =>
        rw [findPrim, List.find?_cons, hq]
        exact ih h
    · rw [hq] at h
      simp only [Option.some.injEq] at h
      subst h
      split
      next =>
        rw [findPrim, List.find?_cons]
        have : ((f q).pid == pid0) = true := by
          rw [hfp]
          exact hq
        rw [this]
      next hq3 =>
        have : q.pid = pid0 := by simpa using hq
        simp [this] at hq3

theorem drawPrimitiveStep_pid (cfg : DrawCfg) (views : List RenderViewM)
    (dd : Option (List DepthDataM)) (st : DrawLoopState) (q : RenderPrimitiveM) :
    (drawPrimitiveStep cfg views dd st q).2.1.pid = q.pid := by
  rw [drawPrimitiveStep]
  split
  · rfl
  · rcases heq : (materialSwitchStep cfg
        (programSwitchStep cfg views st q.material.program).2 q.material).2.2.2 with _ | e
    · simp only [heq]
      exact (vaoBindStep_pid_instances _ _ _).1
    · simp only [heq]

theorem bufferReadyIn_resolve_other (bid bid0 len : Nat) (hne : bid ≠ bid0) :
    ∀ store : List RenderBufferM,
      bufferReadyIn (store.map (fun b' =>
          if b'.bid == bid then { b' with ready := true, byteLength := len } else b')) bid0
        = bufferReadyIn store bid0 := by
  intro store
  induction store with
  | nil => rfl
  | cons b rest ih =>
    simp only [List.map_cons, bufferReadyIn, List.find?_cons]
    rcases hb : (b.bid == bid) with _ | _
    · simp only [hb, Bool.false_eq_true, if_false]
      rcases hb0 : (b.bid == bid0) with _ | _
      · simp only [hb0]
        exact ih
      · simp only [hb0]
    · have hbe : b.bid = bid := by simpa using hb
      have hb0 : (b.bid == bid0) = false := by simp [hbe, hne]
      simp only [hb, if_true]
      rw [show ({ b with ready := true, byteLength := len } : RenderBufferM).bid = b.bid
          from rfl]
      simp only [hb0]
      exact ih

theorem allBuffersReady_starved (store : List RenderBufferM) (p : RenderPrimitiveM)
    (bid0 : Nat) (hready : bufferReadyIn store bid0 = false)
    (href : bid0 ∈ p.attributeBuffers.map Prod.fst ∨ p.indexBuffer = some bid0) :
    allBuffersReady store p = false := by
  rw [allBuffersReady]
  rcases href with h | h
  · rcases List.mem_map.mp h with ⟨ab, hab, habe⟩
    have hall : p.attributeBuffers.all (fun ab => bufferReadyIn store ab.1) = false := by
      rw [List.all_eq_false]
      exact ⟨ab, hab, by simp [habe, hready]⟩
    rw [hall, Bool.false_and]
  · simp only [h]
    rw [hready, Bool.and_false]

theorem primMarkActive_pid (fr : Nat) (cache : List (String × RenderTextureM))
    (q : RenderPrimitiveM) :
    (RenderPrimitive.markActive fr cache q).1.pid = q.pid := by
  rw [RenderPrimitive.markActive]
  split
  · split
    next mat' cache' ops ok heq => split <;> rfl
  · rfl

theorem primMarkActive_incomplete (fr : Nat) (cache : List (String × RenderTextureM))
    (q : RenderPrimitiveM) (h : q.complete = false) :
    RenderPrimitive.markActive fr cache q = (q, cache, []) := by
  rw [RenderPrimitive.markActive, if_neg]
  simp [h]

theorem markNode_bufferStore (fr : Nat) (r : RendererM) (mark : Nat × Nat) :
    (markNode fr r mark).1.bufferStore = r.bufferStore := by
  rw [markNode]
  split <;> rfl

theorem markNode_frameId (fr : Nat) (r : RendererM) (mark : Nat × Nat) :
    (markNode fr r mark).1.frameId = r.frameId := by
  rw [markNode]
  split <;> rfl

theorem markNode_starved (fr : Nat) (r : RendererM) (mark : Nat × Nat)
    (pid0 : Nat) (p : RenderPrimitiveM)
    (hfind : findPrim r.primStore pid0 = some p) (hcomp : p.complete = false) :
    ∃ p', findPrim (markNode fr r mark).1.primStore pid0 = some p' ∧
      p'.complete = false ∧ p'.activeFrameId = p.activeFrameId ∧
      p'.attributeBuffers = p.attributeBuffers ∧ p'.indexBuffer = p.indexBuffer := by
  rw [markNode]
  by_cases hmk : mark.1 = pid0
  · rw [hmk] at *
    have hf1 : findPrim (updatePrim r.primStore pid0 (fun p =>
        { p with instances := p.instances.map (fun inst =>
            if inst.iid == mark.2 then { inst with activeFrameId := fr } else inst) })) pid0
        = some ({ p with instances := p.instances.map (fun inst =>
            if inst.iid == mark.2 then { inst with activeFrameId := fr } else inst) }) :=
      findPrim_updatePrim_self pid0 _ p rfl r.primStore hfind
    simp only [hf1]
    rw [primMarkActive_incomplete fr r.textureCache _
      (show ({ p with instances := p.instances.map (fun inst =>
          if inst.iid == mark.2 then { inst with activeFrameId := fr } else inst) } :
            RenderPrimitiveM).complete = false from hcomp)]
    refine ⟨{ p with instances := p.instances.map (fun inst =>
        if inst.iid == mark.2 then { inst with activeFrameId := fr } else inst) },
      ?_, hcomp, rfl, rfl, rfl⟩
    exact findPrim_updatePrim_self pid0 _ _ rfl _ hf1
  · have hf1 : findPrim (updatePrim r.primStore mark.1 (fun p =>
        { p with instances := p.instances.map (fun inst =>
            if inst.iid == mark.2 then { inst with activeFrameId := fr } else inst) })) pid0
        = findPrim r.primStore pid0 :=
      findPrim_updatePrim_ne mark.1 pid0 (fun p =>
        { p with instances := p.instances.map (fun inst =>
            if inst.iid == mark.2 then { inst with activeFrameId := fr } else inst) })
        hmk (fun q _ => rfl) r.primStore
    rcases hfind1 : findPrim (updatePrim r.primStore mark.1 (fun p =>
        { p with instances := p.instances.map (fun inst =>
            if inst.iid == mark.2 then { inst with activeFrameId := fr } else inst) })) mark.1
      with _ | q
    · simp only [hfind1]
      exact ⟨p, by rw [hf1]; exact hfind, hcomp, rfl, rfl, rfl⟩
    · simp only [hfind1]
      refine ⟨p, ?_, hcomp, rfl, rfl, rfl⟩
      rw [findPrim_updatePrim_ne mark.1 pid0 _ hmk
        (fun x hx => by
          rw [primMarkActive_pid, findPrim_pid _ _ _ hfind1, hx]), hf1]
      exact hfind

theorem setSamplerParameters_noDraw (t : TextureDescM) :
    ∀ op ∈ Renderer.setSamplerParameters t, op.isDraw = false := by
  intro op hop
  rw [Renderer.setSamplerParameters] at hop
  simp only [List.mem_append] at hop
  rcases hop with h | h
  · split at h <;> simp at h
    subst h
    rfl
  · simp at h
    rcases h with rfl | rfl | rfl | rfl <;> rfl

theorem markNodes_bufferStore (fr : Nat) :
    ∀ (marks : List (Nat × Nat)) (r : RendererM),
      (markNodes fr r marks).1.bufferStore = r.bufferStore := by
  intro marks
  induction marks with
  | nil => intro r; rfl
  | cons mark rest ih =>
    intro r
    rw [markNodes]
    rw [ih, markNode_bufferStore]

theorem markNodes_frameId (fr : Nat) :
    ∀ (marks : List (Nat × Nat)) (r : RendererM),
      (markNodes fr r marks).1.frameId = r.frameId := by
  intro marks
  induction marks with
  | nil => intro r; rfl
  | cons mark rest ih =>
    intro r
    rw [markNodes]
    rw [ih, markNode_frameId]

theorem markNodes_starved (fr pid0 : Nat) :
    ∀ (marks : List (Nat × Nat)) (r : RendererM) (p : RenderPrimitiveM),
      findPrim r.primStore pid0 = some p → p.complete = false →
      ∃ p', findPrim (markNodes fr r marks).1.primStore pid0 = some p' ∧
        p'.complete = false ∧ p'.activeFrameId = p.activeFrameId ∧
        p'.attributeBuffers = p.attributeBuffers ∧ p'.indexBuffer = p.indexBuffer := by
  intro marks
  induction marks with
  | nil =>
    intro r p hfind hcomp
    exact ⟨p, hfind, hcomp, rfl, rfl, rfl⟩
  | cons mark rest ih =>
    intro r p hfind hcomp
    rw [markNodes]
    obtain ⟨p1, hfind1, hcomp1, hact1, hab1, hib1⟩ :=
      markNode_starved fr r mark pid0 p hfind hcomp
    obtain ⟨p2, hfind2, hcomp2, hact2, hab2, hib2⟩ :=
      ih (markNode fr r mark).1 p1 hfind1 hcomp1
    exact ⟨p2, hfind2, hcomp2, by rw [hact2, hact1], by rw [hab2, hab1],
      by rw [hib2, hib1]⟩

theorem drawPrimsLoop_starved (cfg : DrawCfg) (views : List RenderViewM)
    (dd : Option (List DepthDataM)) (pid0 : Nat) :
    ∀ (pids : List Nat) (store : List RenderPrimitiveM) (st : DrawLoopState)
      (p : RenderPrimitiveM),
      findPrim store pid0 = some p → p.complete = false →
      p.activeFrameId ≠ cfg.frameId →
      findPrim (drawPrimsLoop cfg views dd store st pids).1 pid0 = some p ∧
      pid0 ∉ drawPids (drawPrimsLoop cfg views dd store st pids).2.2.1 := by
  intro pids
  induction pids with
  | nil =>
    intro store st p hfind hcomp hact
    exact ⟨hfind, by simp [drawPrimsLoop, drawPids]⟩
  | cons pid rest ih =>
    intro store st p hfind hcomp hact
    simp only [drawPrimsLoop]
    rcases hfp : findPrim store pid with _ | q
    · simp only [hfp]
      exact ih store st p hfind hcomp hact
    · simp only [hfp]
      by_cases hpe : pid = pid0
      · subst hpe
        simp only [hfind, Option.some.injEq] at hfp
        subst hfp
        have hstep : drawPrimitiveStep cfg views dd st p = (st, p, [], none) := by
          rw [drawPrimitiveStep, if_pos hact]
        simp only [hstep]
        have hf2 : findPrim (updatePrim store pid (fun _ => p)) pid = some p :=
          findPrim_updatePrim_self pid _ p rfl store hfind
        obtain ⟨ha, hb⟩ := ih (updatePrim store pid (fun _ => p)) st p hf2 hcomp hact
        refine ⟨ha, ?_⟩
        show pid ∉ drawPids ([] ++
          (drawPrimsLoop cfg views dd (updatePrim store pid (fun _ => p)) st rest).2.2.1)
        rw [List.nil_append]
        exact hb
      · have hq : q.pid = pid := findPrim_pid store pid q hfp
        have hf2 : findPrim (updatePrim store pid
            (fun _ => (drawPrimitiveStep cfg views dd st q).2.1)) pid0 = some p := by
          rw [findPrim_updatePrim_ne pid pid0 _ hpe
            (fun x hx => by rw [drawPrimitiveStep_pid, hq, hx])]
          exact hfind
        split
        next e heq =>
          refine ⟨hf2, fun hmem => ?_⟩
          have h2 := drawPrimitiveStep_pids cfg views dd st q pid0 hmem
          exact hpe ((h2.trans hq).symm)
        next heq =>
          obtain ⟨ha, hb⟩ := ih (updatePrim store pid
              (fun _ => (drawPrimitiveStep cfg views dd st q).2.1))
            (drawPrimitiveStep cfg views dd st q).1 p hf2 hcomp hact
          refine ⟨ha, fun hmem => ?_⟩
          have hmem' : pid0 ∈ drawPids ((drawPrimitiveStep cfg views dd st q).2.2.1 ++
              (drawPrimsLoop cfg views dd (updatePrim store pid
                (fun _ => (drawPrimitiveStep cfg views dd st q).2.1))
                (drawPrimitiveStep cfg views dd st q).1 rest).2.2.1) := hmem
          rw [drawPids_append] at hmem'
          rcases List.mem_append.mp hmem' with h | h
          · have h2 := drawPrimitiveStep_pids cfg views dd st q pid0 h
            exact hpe ((h2.trans hq).symm)
          · exact hb h

theorem drawRenderPrimitiveSet_starved (r : RendererM) (views : List RenderViewM)
    (pids : List Nat) (dd : Option (List DepthDataM)) (pid0 : Nat)
    (p : RenderPrimitiveM)
    (hfind : findPrim r.primStore pid0 = some p) (hcomp : p.complete = false)
    (hact : p.activeFrameId ≠ r.frameId) :
    findPrim (Renderer.drawRenderPrimitiveSet r views pids dd).1.primStore pid0 = some p ∧
    (Renderer.drawRenderPrimitiveSet r views pids dd).1.bufferStore = r.bufferStore ∧
    (Renderer.drawRenderPrimitiveSet r views pids dd).1.frameId = r.frameId ∧
    pid0 ∉ drawPids (Renderer.drawRenderPrimitiveSet r views pids dd).2.1 := by
  obtain ⟨ha, hb⟩ := drawPrimsLoop_starved
    ⟨r.frameId, r.multiview, r.vaoExt, r.globalLightDir, r.globalLightColor,
     r.cameraPositions, r.textureCache, r.bufferStore⟩ views dd pid0 pids r.primStore
    ⟨none, none, 0, r.usedPrograms, r.nextVao, r.colorMaskNeedsReset, r.depthMaskNeedsReset⟩
    p hfind hcomp hact
  exact ⟨ha, rfl, rfl, hb⟩

theorem drawBucketsLoop_starved (views : List RenderViewM)
    (dd : Option (List DepthDataM)) (pid0 : Nat) :
    ∀ (buckets : List (List Nat)) (r : RendererM) (p : RenderPrimitiveM),
      findPrim r.primStore pid0 = some p → p.complete = false →
      p.activeFrameId ≠ r.frameId →
      findPrim (drawBucketsLoop views dd r buckets).1.primStore pid0 = some p ∧
      (drawBucketsLoop views dd r buckets).1.bufferStore = r.bufferStore ∧
      (drawBucketsLoop views dd r buckets).1.frameId = r.frameId ∧
      pid0 ∉ drawPids (drawBucketsLoop views dd r buckets).2.1 := by
  intro buckets
  induction buckets with
  | nil =>
    intro r p h1 h2 h3
    exact ⟨h1, rfl, rfl, by simp [drawBucketsLoop, drawPids]⟩
  | cons pids rest ih =>
    intro r p h1 h2 h3
    simp only [drawBucketsLoop]
    split
    · obtain ⟨ha, hbs, hfr, htr⟩ :=
        drawRenderPrimitiveSet_starved r views pids dd pid0 p h1 h2 h3
      split
      next e heq =>
        exact ⟨ha, hbs, hfr, htr⟩
      next heq =>
        obtain ⟨ha2, hbs2, hfr2, htr2⟩ :=
          ih (Renderer.drawRenderPrimitiveSet r views pids dd).1 p ha h2
            (by rw [hfr]; exact h3)
        refine ⟨ha2, by rw [hbs2, hbs], by rw [hfr2, hfr], fun hmem => ?_⟩
        have hmem' : pid0 ∈ drawPids
            ((Renderer.drawRenderPrimitiveSet r views pids dd).2.1 ++
            (drawBucketsLoop views dd (Renderer.drawRenderPrimitiveSet r views pids dd).1
              rest).2.1) := hmem
        rw [drawPids_append] at hmem'
        rcases List.mem_append.mp hmem' with h | h
        · exact htr h
        · exact htr2 h
    · exact ih r p h1 h2 h3

theorem step_starved (pid0 bid0 a0 : Nat) (ab0 : List (Nat × List AttributeRecM))
    (ib0 : Option Nat)
    (href : bid0 ∈ ab0.map Prod.fst ∨ ib0 = some bid0)
    (r : RendererM) (e : HostEvent)
    (hne : ∀ len, e ≠ HostEvent.resolveBuffer bid0 len)
    (h : StarvedInvAt pid0 bid0 a0 ab0 ib0 r) :
    StarvedInvAt pid0 bid0 a0 ab0 ib0 (Renderer.step r e).1 ∧
    pid0 ∉ drawPids (Renderer.step r e).2 := by
  obtain ⟨hready, hle, p, hfind, hcomp, hact, hab, hib⟩ := h
  cases e with
  | resolveBuffer bid len =>
    have hbne : bid ≠ bid0 := fun hb => hne len (by rw [hb])
    rw [Renderer.step]
    rcases hfb : r.bufferStore.find? (fun b => b.bid == bid) with _ | b
    · simp only [hfb]
      exact ⟨⟨hready, hle, p, hfind, hcomp, hact, hab, hib⟩, by simp [drawPids]⟩
    · simp only [hfb]
      split
      · exact ⟨⟨hready, hle, p, hfind, hcomp, hact, hab, hib⟩, by simp [drawPids]⟩
      · refine ⟨⟨?_, hle, p, hfind, hcomp, hact, hab, hib⟩, ?_⟩
        · show bufferReadyIn (r.bufferStore.map (fun b' =>
            if b'.bid == bid then { b' with ready := true, byteLength := len } else b'))
            bid0 = false
          rw [bufferReadyIn_resolve_other bid bid0 len hbne r.bufferStore]
          exact hready
        · intro hm
          simp [drawPids, GLOp.drawTag] at hm
  | resolveTexture key =>
    rw [Renderer.step]
    rcases hpt : r.pendingTextures.lookup key with _ | t
    · simp only [hpt]
      exact ⟨⟨hready, hle, p, hfind, hcomp, hact, hab, hib⟩, by simp [drawPids]⟩
    · simp only [hpt]
      rcases htc : r.textureCache.lookup key with _ | rt
      · simp only [htc]
        exact ⟨⟨hready, hle, p, hfind, hcomp, hact, hab, hib⟩, by simp [drawPids]⟩
      · simp only [htc]
        refine ⟨⟨hready, hle, p, hfind, hcomp, hact, hab, hib⟩, fun hm => ?_⟩
        have hnil : drawPids ([GLOp.bindTexture GL_TEXTURE_2D (some rt.texture),
            GLOp.texImage2D GL_TEXTURE_2D rt.texture] ++
            Renderer.setSamplerParameters t) = [] := by
          apply drawPids_nil
          intro op hop
          rcases List.mem_append.mp hop with h | h
          · simp at h
            rcases h with rfl | rfl <;> rfl
          · exact setSamplerParameters_noDraw t op h
        have hm' : pid0 ∈ drawPids ([GLOp.bindTexture GL_TEXTURE_2D (some rt.texture),
            GLOp.texImage2D GL_TEXTURE_2D rt.texture] ++
            Renderer.setSamplerParameters t) := hm
        rw [hnil] at hm'
        simp at hm'
  | runCompletion pid =>
    rw [Renderer.step]
    rcases hfp : findPrim r.primStore pid with _ | q
    · simp only [hfp]
      exact ⟨⟨hready, hle, p, hfind, hcomp, hact, hab, hib⟩, by simp [drawPids]⟩
    · simp only [hfp]
      by_cases hpe : pid = pid0
      · subst hpe
        simp only [hfind, Option.some.injEq] at hfp
        subst hfp
        have hgd : (p.promiseStarted && allBuffersReady r.bufferStore p) = false := by
          rw [allBuffersReady_starved r.bufferStore p bid0 hready
            (by rcases href with h2 | h2
                · exact Or.inl (by rw [hab]; exact h2)
                · exact Or.inr (by rw [hib]; exact h2)),
            Bool.and_false]
        rw [if_neg (by simp [hgd])]
        exact ⟨⟨hready, hle, p, hfind, hcomp, hact, hab, hib⟩, by simp [drawPids]⟩
      · split
        · refine ⟨⟨hready, hle, p, ?_, hcomp, hact, hab, hib⟩, by simp [drawPids]⟩
          show findPrim (updatePrim r.primStore pid
            (fun p' => { p' with complete := true })) pid0 = some p
          rw [findPrim_updatePrim_ne pid pid0
            (fun p' => { p' with complete := true }) hpe (fun x hx => rfl)]
          exact hfind
        · exact ⟨⟨hready, hle, p, hfind, hcomp, hact, hab, hib⟩, by simp [drawPids]⟩
  | frame views rootNode dd =>
    rw [Renderer.step]
    rcases rootNode with _ | marks
    · simp only [Renderer.drawViews]
      exact ⟨⟨hready, hle, p, hfind, hcomp, hact, hab, hib⟩, by simp [drawPids]⟩
    · set r1 := { r with frameId := r.frameId + 1 } with hr1
      set r2 := (markNodes r1.frameId r1 marks).1 with hr2
      set r3 := { r2 with cameraPositions := updateCameraPositions r2.cameraPositions views }
        with hr3
      have htr : (Renderer.drawViews r views (some marks) dd).2.1
          = (markNodes r1.frameId r1 marks).2 ++ singleViewportOps views ++
            (drawBucketsLoop views dd r3 r3.renderPrimitives).2.1 ++
            (if (drawBucketsLoop views dd r3 r3.renderPrimitives).2.2.isNone
              then frameTailOps (drawBucketsLoop views dd r3 r3.renderPrimitives).1
              else []) := rfl
      have hst : (Renderer.drawViews r views (some marks) dd).1
          = (drawBucketsLoop views dd r3 r3.renderPrimitives).1 := rfl
      obtain ⟨p1, hfind1, hcomp1, hact1, hab1, hib1⟩ :=
        markNodes_starved r1.frameId pid0 marks r1 p hfind hcomp
      have hfind3 : findPrim r3.primStore pid0 = some p1 := hfind1
      have hfr3 : r3.frameId = r.frameId + 1 := by
        show r2.frameId = r.frameId + 1
        rw [hr2, markNodes_frameId]
      have hbs3 : r3.bufferStore = r.bufferStore := by
        show r2.bufferStore = r.bufferStore
        rw [hr2, markNodes_bufferStore]
      have hact3 : p1.activeFrameId ≠ r3.frameId := by
        rw [hact1, hact, hfr3]
        omega
      obtain ⟨hfind4, hbs4, hfr4, htr4⟩ :=
        drawBucketsLoop_starved views dd pid0 r3.renderPrimitives r3 p1 hfind3 hcomp1 hact3
      constructor
      · refine ⟨?_, ?_, p1, ?_, hcomp1, hact1.trans hact, hab1.trans hab, hib1.trans hib⟩
        · rw [hst, hbs4, hbs3]
          exact hready
        · rw [hst, hfr4, hfr3]
          omega
        · rw [hst]
          exact hfind4
      · intro hm
        have hm' : pid0 ∈ drawPids ((markNodes r1.frameId r1 marks).2 ++
            singleViewportOps views ++
            (drawBucketsLoop views dd r3 r3.renderPrimitives).2.1 ++
            (if (drawBucketsLoop views dd r3 r3.renderPrimitives).2.2.isNone
              then frameTailOps (drawBucketsLoop views dd r3 r3.renderPrimitives).1
              else [])) := by
          rw [← htr]
          exact hm
        rw [drawPids_append, drawPids_append, drawPids_append] at hm'
        rw [drawPids_nil _ (markNodes_noDraw r1.frameId marks r1)] at hm'
        rw [drawPids_nil _ (singleViewportOps_noDraw views)] at hm'
        have htail : drawPids
            (if (drawBucketsLoop views dd r3 r3.renderPrimitives).2.2.isNone
              then frameTailOps (drawBucketsLoop views dd r3 r3.renderPrimitives).1
              else []) = [] := by
          split
          · exact drawPids_nil _ (frameTailOps_noDraw _)
          · rfl
        rw [htail] at hm'
        simp only [List.nil_append, List.append_nil] at hm'
        exact htr4 hm'

/-- C6: a primitive referencing at least one buffer whose asynchronous
population never resolves keeps `complete = false`, keeps its activity
stamp frozen (markActive never re-stamps it), and no draw call tagged with
its id ever appears in the GL trace, across any host schedule — any number
of frames, completion retries and other resolutions — that never resolves
that buffer; no step of the schedule raises an error for it. -/
theorem starved_primitive_never_drawn (pid0 bid0 a0 : Nat)
    (ab0 : List (Nat × List AttributeRecM)) (ib0 : Option Nat)
    (href : bid0 ∈ ab0.map Prod.fst ∨ ib0 = some bid0) :
    ∀ (events : List HostEvent) (r0 : RendererM),
      (∀ e ∈ events, ∀ len, e ≠ HostEvent.resolveBuffer bid0 len) →
      StarvedInvAt pid0 bid0 a0 ab0 ib0 r0 →
      StarvedInvAt pid0 bid0 a0 ab0 ib0 (Renderer.runEvents r0 events).1 ∧
      pid0 ∉ drawPids (Renderer.runEvents r0 events).2 := by
  intro events
  induction events with
  | nil =>
    intro r0 hn hinv
    exact ⟨hinv, by simp [Renderer.runEvents, drawPids]⟩
  | cons e rest ih =>
    intro r0 hn hinv
    rw [Renderer.runEvents]
    obtain ⟨h1, h2⟩ := step_starved pid0 bid0 a0 ab0 ib0 href r0 e
      (fun len => hn e (List.mem_cons_self _ _) len) hinv
    obtain ⟨h3, h4⟩ := ih (Renderer.step r0 e).1
      (fun e' he' => hn e' (List.mem_cons_of_mem _ he')) h1
    refine ⟨h3, fun hm => ?_⟩
    have hm' : pid0 ∈ drawPids ((Renderer.step r0 e).2 ++
        (Renderer.runEvents (Renderer.step r0 e).1 rest).2) := hm
    rw [drawPids_append] at hm'
    rcases List.mem_append.mp hm' with h | h
    · exact h2 h
    · exact h4 h

/-- C6 witness: the concrete starved renderer run under two frames and two
completion retries ends still starved, with no draw of primitive 0. -/
theorem starved_primitive_never_drawn_witness :
    StarvedInvAt 0 0 0 [(0, [])] none (Renderer.runEvents c6R c6Events).1 ∧
    0 ∉ drawPids (Renderer.runEvents c6R c6Events).2 :=
  starved_primitive_never_drawn 0 0 0 [(0, [])] none (by simp) c6Events c6R
    (by
      intro e he len
      simp only [c6Events, List.mem_cons, List.not_mem_nil, or_false] at he
      rcases he with rfl | rfl | rfl | rfl <;> simp)
    ⟨rfl, Nat.le_refl 0, c6Prim, rfl, rfl, rfl, rfl, rfl⟩
